import Mathlib

/-!
# The bar NPC registry of naev (`src/npc.c`)

A shallow embedding of `src/npc.c` and the properties of its specification.

Conventions of the embedding:

* C strings are lists of bytes without the terminating NUL (`CStr`);
  a `char *` that may be `NULL` is an `Option CStr`.
* `glTexture *` handles are natural numbers; a handle that may be `NULL`
  is an `Option Tex`.
* `unsigned int` values are natural numbers below `2 ^ 32`; the only
  arithmetic on them is the increment of the identity generator, which is
  taken modulo `2 ^ 32`.  `int` values that are only compared are integers.
* A naev dynamic array is an `Option (List α)`: `none` is the `NULL`
  pointer, for which `array_size` is `0`.
* A pointer into `npc_array` is the index of the element it points to.
* The globals read or written by the file form the record `Game`. A
  function that only reads is a function of the game; a function that writes
  or calls out returns an `Out`: its C return value, the game it leaves, and
  the calls it made to the outside, in order.
* The collaborators that run scripts are fields of `Collab`; they are
  arbitrary functions on the game, since a script may call back into the
  registry. Theorems state what they need of a collaborator as a hypothesis.
* A loop whose number of iterations depends on the game it rewrites takes
  fuel and returns `none` when the fuel does not suffice; the theorems show
  that the fuel given suffices. `none` is also the result of a function that
  dereferences a pointer under which a script has left no element.
* `qsort` is insertion sort with the comparison function.
-/

namespace Npc

/-- Bytes of a NUL-terminated C string, the terminator not included. -/
abbrev CStr := List Nat

/-- Handle of a `glTexture`. -/
abbrev Tex := Nat

/-- The modulus of `unsigned int` arithmetic. -/
def UINT_MOD : Nat := 4294967296

/-- NPC types (`NPCtype`). -/
inductive NPCtype where
  | NPC_TYPE_NULL
  | NPC_TYPE_GIVER
  | NPC_TYPE_MISSION
  | NPC_TYPE_EVENT
deriving DecidableEq, Repr

/-- The bar NPC (`NPC_t`). The union `u` holds `u.m` and `u.e`, two structs
of the same layout (`unsigned int id; char *func`), so `u.m.id` and `u.e.id`
are one field `u_id`, and `u.m.func` and `u.e.func` one field `u_func`. -/
structure NPC_t where
  id : Nat
  type : NPCtype
  priority : Int
  name : CStr
  portrait : Option Tex
  background : Option Tex
  desc : CStr
  u_id : Nat
  u_func : CStr
deriving DecidableEq, Repr

/-- The fields of `Mission` that `npc.c` reads: `id`, `data->name`,
`data->avail.priority`, `npc`, `portrait` and `npc_desc`. -/
structure Mission where
  id : Nat
  data_name : CStr
  data_avail_priority : Int
  npc : Option CStr
  portrait : Option Tex
  npc_desc : Option CStr
deriving DecidableEq, Repr

/-- A `Mission *` as `npc_getMisn` returns it: `player_missions[j]` or
`&npc_missions[j]`. -/
inductive MisnRef where
  | player (j : Nat)
  | npc (j : Nat)
deriving DecidableEq, Repr

/-- The `WARN` messages of the file. -/
inductive Warning where
  | giver_no_name
  | giver_no_portrait
  | giver_no_description
  | free_invalid_type
  | giver_mission_not_found
  | mission_not_found
  | unknown_type
  | barbg_failed
  | barbg_not_texture
deriving DecidableEq, Repr

/-- The calls the file makes to the outside. -/
inductive Call where
  | free (s : CStr)
  | gl_freeTexture (t : Option Tex)
  | warn (w : Warning)
  | mission_accept (m : MisnRef)
  | mission_cleanup (m : MisnRef)
  | misn_runStart (m : MisnRef) (func : CStr)
  | misn_runFunc (m : MisnRef) (func : CStr) (arg : Nat)
  | event_runStart (evt : Nat) (func : CStr)
  | event_runFunc (evt : Nat) (func : CStr) (arg : Nat)
  | bar_regen
  | lua_barbg
deriving DecidableEq, Repr

/-- The globals of the program that `npc.c` reads or writes: `landed`
(land.h), the statics `npc_array_idgen`, `npc_array` and `npc_missions`,
and `player_missions` (mission.h). `ext` stands for the state of the
collaborators, which the file never inspects. -/
structure Game where
  landed : Bool
  npc_array_idgen : Nat
  npc_array : Option (List NPC_t)
  npc_missions : Option (List Mission)
  player_missions : List Mission
  ext : Nat
deriving DecidableEq, Repr

/-- Result of a call: the C return value, the game afterwards, and the
calls made to the outside, in order. -/
structure Out (α : Type) where
  ret : α
  game : Game
  calls : List Call

/-- A value on the Lua stack, as far as `lua_istex` tells. -/
inductive LuaValue where
  | tex (t : Tex)
  | other
deriving DecidableEq, Repr

/-- Outcome of `nlua_pcall` on the `barbg` function of the spob: the value it
returned, or a failure, with the value that lies under the error message on
the Lua stack. -/
inductive PcallResult where
  | ok (v : LuaValue)
  | error (below : LuaValue)
deriving DecidableEq, Repr

/-- The collaborators that may run scripts or touch records the file does
not own. `mission_accept` returns the outcome of the acceptance;
`lua_barbg` is `none` when `land_spob->lua_barbg` is `LUA_NOREF`;
`gl_newImage_background` is the result of loading the default background. -/
structure Collab where
  mission_accept : MisnRef → Game → Int × Game
  mission_cleanup : MisnRef → Game → Game
  misn_runStart : MisnRef → CStr → Game → Game
  misn_runFunc : MisnRef → CStr → Nat → Game → Game
  event_runStart : Nat → CStr → Game → Game
  event_runFunc : Nat → CStr → Nat → Game → Game
  missions_genList : Game → List Mission × Game
  lua_barbg : Option (Game → PcallResult × Game)
  gl_dupTexture : Tex → Tex
  gl_newImage_background : Option Tex

/-- The macro `array_size` of array.h: the number of elements, `0` for `NULL`. -/
def array_size {α : Type} (a : Option (List α)) : Int :=
  match a with
  | none => 0
  | some l => (l.length : Int)

/-- The elements of a naev array, none for `NULL`. -/
def array_elems {α : Type} (a : Option (List α)) : List α :=
  match a with
  | none => []
  | some l => l

/-- The state of a freshly started program with the player docked. -/
def Game.init : Game :=
  { landed := true, npc_array_idgen := 0, npc_array := none,
    npc_missions := none, player_missions := [], ext := 0 }

/-- The C function `npc_free`: the releases it performs, in order. -/
def npc_free (npc : NPC_t) : List Call :=
  [Call.free npc.name] ++
  [Call.gl_freeTexture npc.portrait] ++
  (match npc.background with
   | some t => [Call.gl_freeTexture (some t)]
   | none => []) ++
  [Call.free npc.desc] ++
  (match npc.type with
   | NPCtype.NPC_TYPE_GIVER => [Call.free npc.u_func]
   | NPCtype.NPC_TYPE_MISSION => [Call.free npc.u_func]
   | NPCtype.NPC_TYPE_EVENT => [Call.free npc.u_func]
   | NPCtype.NPC_TYPE_NULL => [Call.warn Warning.free_invalid_type])

/-- The C function `npc_add`. -/
def npc_add (npc : NPC_t) (g : Game) : Out Nat :=
  if g.landed = false then
    { ret := 0, game := g, calls := npc_free npc }
  else
    let id := (g.npc_array_idgen + 1) % UINT_MOD
    { ret := id
      game := { g with
        npc_array := some (array_elems g.npc_array ++ [{ npc with id := id }])
        npc_array_idgen := id }
      calls := [] }

/-- The C function `npc_add_giver`. -/
def npc_add_giver (h : Collab) (misn : Mission) (g : Game) : Out Nat :=
  match misn.npc with
  | none => { ret := 0, game := g, calls := [Call.warn Warning.giver_no_name] }
  | some name =>
    match misn.portrait with
    | none => { ret := 0, game := g, calls := [Call.warn Warning.giver_no_portrait] }
    | some portrait =>
      match misn.npc_desc with
      | none => { ret := 0, game := g, calls := [Call.warn Warning.giver_no_description] }
      | some desc =>
        npc_add
          { id := 0
            type := NPCtype.NPC_TYPE_GIVER
            name := name
            priority := misn.data_avail_priority
            portrait := some (h.gl_dupTexture portrait)
            background := none
            desc := desc
            u_id := misn.id
            u_func := [97, 99, 99, 101, 112, 116] } g

/-- The C function `npc_add_mission`. -/
def npc_add_mission (mid : Nat) (func name : CStr) (priority : Int)
    (portrait : Option Tex) (desc : CStr) (background : Option Tex) (g : Game) : Out Nat :=
  npc_add
    { id := 0
      type := NPCtype.NPC_TYPE_MISSION
      name := name
      priority := priority
      portrait := portrait
      background := background
      desc := desc
      u_id := mid
      u_func := func } g

/-- The C function `npc_add_event`. -/
def npc_add_event (evt : Nat) (func name : CStr) (priority : Int)
    (portrait : Option Tex) (desc : CStr) (background : Option Tex) (g : Game) : Out Nat :=
  npc_add
    { id := 0
      type := NPCtype.NPC_TYPE_EVENT
      name := name
      priority := priority
      portrait := portrait
      background := background
      desc := desc
      u_id := evt
      u_func := func } g

/-- The C function `npc_rm`; the argument is the index the pointer refers
to, `none` for `NULL`. -/
def npc_rm (p : Option Nat) (g : Game) : Out Int :=
  match p with
  | none => { ret := 0, game := g, calls := [] }
  | some k =>
    { ret := 0
      game := { g with npc_array := some ((array_elems g.npc_array).eraseIdx k) }
      calls := match (array_elems g.npc_array)[k]? with
        | some npc => npc_free npc
        | none => [] }

/-- The loop of `npc_arrayGet` from index `i` on over the remaining elements. -/
def npc_arrayGet_loop (id : Nat) : List NPC_t → Nat → Option Nat
  | [], _ => none
  | npc :: rest, i => if npc.id = id then some i else npc_arrayGet_loop id rest (i + 1)

/-- The C function `npc_arrayGet`: the index of the first NPC with the id. -/
def npc_arrayGet (id : Nat) (g : Game) : Option Nat :=
  npc_arrayGet_loop id (array_elems g.npc_array) 0

/-- The C function `npc_rm_event`. -/
def npc_rm_event (id evt : Nat) (g : Game) : Out Int :=
  match npc_arrayGet id g with
  | none => { ret := -1, game := g, calls := [] }
  | some k =>
    match (array_elems g.npc_array)[k]? with
    | none => { ret := -1, game := g, calls := [] }
    | some npc =>
      if npc.type ≠ NPCtype.NPC_TYPE_EVENT then { ret := -1, game := g, calls := [] }
      else if npc.u_id ≠ evt then { ret := -1, game := g, calls := [] }
      else npc_rm (some k) g

/-- The C function `npc_rm_mission`. -/
def npc_rm_mission (id mid : Nat) (g : Game) : Out Int :=
  match npc_arrayGet id g with
  | none => { ret := -1, game := g, calls := [] }
  | some k =>
    match (array_elems g.npc_array)[k]? with
    | none => { ret := -1, game := g, calls := [] }
    | some npc =>
      if npc.type ≠ NPCtype.NPC_TYPE_MISSION then { ret := -1, game := g, calls := [] }
      else if mid ≠ npc.u_id then { ret := -1, game := g, calls := [] }
      else npc_rm (some k) g

/-- The loop shared by `npc_rm_parentEvent` and `npc_rm_parentMission`, whose
bodies differ only in the type tag they test (`ty`): the cursor `i`, the
count `n`, the game and the calls made so far. The cursor is decremented
after an erase and incremented by the `for` statement. `fuel` bounds the
number of iterations; the result is `none` when it does not suffice. -/
def npc_rm_parent_loop (ty : NPCtype) (id : Nat) :
    Nat → Int → Int → Game → List Call → Option (Out Int)
  | 0, i, n, g, tr =>
    if i < array_size g.npc_array then none
    else some { ret := n, game := g, calls := tr }
  | fuel + 1, i, n, g, tr =>
    if i < array_size g.npc_array then
      match (array_elems g.npc_array)[i.toNat]? with
      | none => none
      | some npc =>
        if npc.type ≠ ty then npc_rm_parent_loop ty id fuel (i + 1) n g tr
        else if npc.u_id ≠ id then npc_rm_parent_loop ty id fuel (i + 1) n g tr
        else
          let o := npc_rm (some i.toNat) g
          npc_rm_parent_loop ty id fuel ((i - 1) + 1) (n + 1) o.game (tr ++ o.calls)
    else some { ret := n, game := g, calls := tr }

/-- Modelled from the spec: `bar_regen` of land.c, which is not among the
sources. The specification describes it as a fire-and-forget signal that the
hub display must re-read the registry: it is recorded as a call and leaves
the game as it is. -/
def bar_regen (g : Game) : Out Unit :=
  { ret := (), game := g, calls := [Call.bar_regen] }

/-- The C function `npc_rm_parentEvent`. Each iteration either advances
the cursor or shortens the array, so the array size bounds the iterations. -/
def npc_rm_parentEvent (id : Nat) (g : Game) : Option (Out Int) :=
  match npc_rm_parent_loop NPCtype.NPC_TYPE_EVENT id
      (array_elems g.npc_array).length 0 0 g [] with
  | none => none
  | some o =>
    some { ret := o.ret, game := (bar_regen o.game).game,
           calls := o.calls ++ (bar_regen o.game).calls }

/-- The C function `npc_rm_parentMission`. -/
def npc_rm_parentMission (mid : Nat) (g : Game) : Option (Out Int) :=
  match npc_rm_parent_loop NPCtype.NPC_TYPE_MISSION mid
      (array_elems g.npc_array).length 0 0 g [] with
  | none => none
  | some o =>
    some { ret := o.ret, game := (bar_regen o.game).game,
           calls := o.calls ++ (bar_regen o.game).calls }

/-- The libc function `strcmp` on unsigned bytes: the difference of the first
pair of bytes that differ, a byte `0` or the end of the list being the
terminator. -/
def strcmp : CStr → CStr → Int
  | [], [] => 0
  | [], b :: _ => 0 - (b : Int)
  | a :: _, [] => (a : Int)
  | a :: as, b :: bs =>
    if a ≠ b then (a : Int) - (b : Int)
    else if a = 0 then 0
    else strcmp as bs

/-- The C function `npc_compare`. -/
def npc_compare (npc1 npc2 : NPC_t) : Int :=
  if npc1.priority > npc2.priority then 1
  else if npc1.priority < npc2.priority then -1
  else
    let ret := strcmp npc1.name npc2.name
    if ret ≠ 0 then ret
    else if npc1.id > npc2.id then 1
    else if npc1.id < npc2.id then -1
    else 0

/-- Insertion of one element into a list sorted by `cmp`. -/
def qsort_insert {α : Type} (cmp : α → α → Int) (x : α) : List α → List α
  | [] => [x]
  | y :: ys => if cmp x y ≤ 0 then x :: y :: ys else y :: qsort_insert cmp x ys

/-- The libc function `qsort`, which sorts an array into ascending order of
the comparison function by an unspecified algorithm; here insertion sort. -/
def qsort {α : Type} (cmp : α → α → Int) : List α → List α
  | [] => []
  | x :: xs => qsort_insert cmp x (qsort cmp xs)

/-- The C function `npc_sort`. -/
def npc_sort (g : Game) : Out Unit :=
  match g.npc_array with
  | none => { ret := (), game := g, calls := [] }
  | some arr => { ret := (), game := { g with npc_array := some (qsort npc_compare arr) }, calls := [] }

/-- The loop of `npc_generateMissions` over the listed missions: each one
is pushed onto `npc_missions` and, when it names an NPC, gets a giver. -/
def npc_generateMissions_loop (h : Collab) : List Mission → Game → List Call → Game × List Call
  | [], g, tr => (g, tr)
  | m :: rest, g, tr =>
    let g1 := { g with npc_missions := some (array_elems g.npc_missions ++ [m]) }
    match m.npc with
    | none => npc_generateMissions_loop h rest g1 tr
    | some _ =>
      let o := npc_add_giver h m g1
      npc_generateMissions_loop h rest o.game (tr ++ o.calls)

/-- The C function `npc_generateMissions` (without the `DEBUGGING` block,
which only warns). -/
def npc_generateMissions (h : Collab) (g : Game) : Out Unit :=
  let g0 := match g.npc_missions with
    | none => { g with npc_missions := some [] }
    | some _ => g
  let r := h.missions_genList g0
  let s := npc_generateMissions_loop h r.1 r.2 []
  let o := npc_sort s.1
  { ret := (), game := o.game, calls := s.2 ++ o.calls }

/-- The C function `npc_patchMission`. -/
def npc_patchMission (h : Collab) (misn : Mission) (g : Game) : Out Unit :=
  let g1 := { g with npc_missions := some (array_elems g.npc_missions ++ [misn]) }
  match misn.npc with
  | none =>
    let o := npc_sort g1
    { ret := (), game := o.game, calls := o.calls }
  | some _ =>
    let a := npc_add_giver h misn g1
    let o := npc_sort a.game
    { ret := (), game := o.game, calls := a.calls ++ o.calls }

/-- The inner loop of `npc_clear`: the value of `j` when the loop over
`player_missions`, started at `j`, ends or breaks. -/
def npc_clear_search (id : Nat) : List Mission → Nat → Nat
  | [], j => j
  | m :: rest, j => if m.id = id then j else npc_clear_search id rest (j + 1)

/-- The loop of `npc_clear` over `npc_missions`, which is read again in each
iteration since `mission_cleanup` is a collaborator. `fuel` bounds the
number of iterations; the result is `none` when it does not suffice. -/
def npc_clear_loop (h : Collab) : Nat → Nat → Game → List Call → Option (Game × List Call)
  | 0, i, g, tr =>
    if (i : Int) < array_size g.npc_missions then none else some (g, tr)
  | fuel + 1, i, g, tr =>
    if (i : Int) < array_size g.npc_missions then
      match (array_elems g.npc_missions)[i]? with
      | none => none
      | some m =>
        let j := npc_clear_search m.id g.player_missions 0
        if j ≥ g.player_missions.length then
          npc_clear_loop h fuel (i + 1) (h.mission_cleanup (MisnRef.npc i) g)
            (tr ++ [Call.mission_cleanup (MisnRef.npc i)])
        else npc_clear_loop h fuel (i + 1) g tr
    else some (g, tr)

/-- The C function `npc_clear`. The loop over the pending missions gets as
many iterations as `npc_missions` has elements on entry. -/
def npc_clear (h : Collab) (g : Game) : Option (Out Unit) :=
  let frees := (array_elems g.npc_array).flatMap npc_free
  let g1 := { g with npc_array := none }
  match npc_clear_loop h (array_elems g1.npc_missions).length 0 g1 frees with
  | none => none
  | some r => some { ret := (), game := { r.1 with npc_missions := none }, calls := r.2 }

/-- The C function `npc_getArraySize`. -/
def npc_getArraySize (g : Game) : Int :=
  array_size g.npc_array

/-- The bounds check of the per-index accessors:
`i<0 || npc_array == NULL || i>=array_size(npc_array)`. -/
def npc_outOfBounds (i : Int) (g : Game) : Bool :=
  decide (i < 0) || g.npc_array.isNone || decide (i ≥ array_size g.npc_array)

/-- The C function `npc_getName`; `none` is `NULL`. -/
def npc_getName (i : Int) (g : Game) : Option CStr :=
  if npc_outOfBounds i g then none
  else ((array_elems g.npc_array)[i.toNat]?).map NPC_t.name

/-- The C function `npc_getTexture`; `none` is `NULL`. -/
def npc_getTexture (i : Int) (g : Game) : Option Tex :=
  if npc_outOfBounds i g then none
  else ((array_elems g.npc_array)[i.toNat]?).bind NPC_t.portrait

/-- The C function `npc_getDesc`; `none` is `NULL`. -/
def npc_getDesc (i : Int) (g : Game) : Option CStr :=
  if npc_outOfBounds i g then none
  else ((array_elems g.npc_array)[i.toNat]?).map NPC_t.desc

/-- The C function `npc_isImportant`. -/
def npc_isImportant (i : Int) (g : Game) : Int :=
  if npc_outOfBounds i g then 0
  else
    match (array_elems g.npc_array)[i.toNat]? with
    | none => 0
    | some npc => if npc.priority ≤ 5 then 1 else 0

/-- Assignment to `npc->background` through the pointer with index `k`. -/
def npc_setBackground (k : Nat) (t : Option Tex) (g : Game) : Game :=
  { g with npc_array := some ((array_elems g.npc_array).modify (fun npc => { npc with background := t }) k) }

/-- The C function `npc_getBackground`. The run of the `barbg` function of
the spob by `nlua_pcall` is the call `Call.lua_barbg`. The result is `none`
when the script has left no element under the pointer `npc`, which the
function then dereferences. -/
def npc_getBackground (h : Collab) (i : Int) (g : Game) : Option (Out (Option Tex)) :=
  if npc_outOfBounds i g then some { ret := none, game := g, calls := [] }
  else
    match (array_elems g.npc_array)[i.toNat]? with
    | none => none
    | some npc =>
      match npc.background with
      | some t => some { ret := some t, game := g, calls := [] }
      | none =>
        match h.lua_barbg with
        | none =>
          some { ret := h.gl_newImage_background
                 game := npc_setBackground i.toNat h.gl_newImage_background g
                 calls := [] }
        | some f =>
          let r := f g
          let top := match r.1 with
            | PcallResult.ok v => v
            | PcallResult.error below => below
          let w1 := match r.1 with
            | PcallResult.ok _ => [Call.lua_barbg]
            | PcallResult.error _ => [Call.lua_barbg, Call.warn Warning.barbg_failed]
          match (array_elems r.2.npc_array)[i.toNat]? with
          | none => none
          | some npc1 =>
            match top with
            | LuaValue.tex t =>
              some { ret := some (h.gl_dupTexture t)
                     game := npc_setBackground i.toNat (some (h.gl_dupTexture t)) r.2
                     calls := w1 }
            | LuaValue.other =>
              match npc1.background with
              | some t1 =>
                some { ret := some t1, game := r.2
                       calls := w1 ++ [Call.warn Warning.barbg_not_texture] }
              | none =>
                some { ret := h.gl_newImage_background
                       game := npc_setBackground i.toNat h.gl_newImage_background r.2
                       calls := w1 ++ [Call.warn Warning.barbg_not_texture] }

/-- The loop of `npc_getMisn` over a list of missions from index `j` on. -/
def npc_getMisn_loop (id : Nat) : List Mission → Nat → Option Nat
  | [], _ => none
  | m :: rest, j => if m.id = id then some j else npc_getMisn_loop id rest (j + 1)

/-- The C function `npc_getMisn`: the active missions are searched first,
then the missions of the bar. -/
def npc_getMisn (npc : NPC_t) (g : Game) : Option MisnRef :=
  match npc_getMisn_loop npc.u_id g.player_missions 0 with
  | some j => some (MisnRef.player j)
  | none =>
    match npc_getMisn_loop npc.u_id (array_elems g.npc_missions) 0 with
    | some j => some (MisnRef.npc j)
    | none => none

/-- The C function `npc_approach_giver`. -/
def npc_approach_giver (h : Collab) (npc : NPC_t) (g : Game) : Out Int :=
  match npc_getMisn npc g with
  | none => { ret := -1, game := g, calls := [Call.warn Warning.giver_mission_not_found] }
  | some misn =>
    let id := npc.id
    let r := h.mission_accept misn g
    if r.1 = 3 ∨ r.1 = 2 ∨ r.1 = -1 then
      let g2 := if r.1 = -1 then h.mission_cleanup misn r.2 else r.2
      let c2 := if r.1 = -1 then [Call.mission_cleanup misn] else []
      let o := npc_rm (npc_arrayGet id g2) g2
      { ret := 1, game := o.game, calls := [Call.mission_accept misn] ++ c2 ++ o.calls }
    else
      { ret := 0, game := r.2, calls := [Call.mission_accept misn] }

/-- The C function `npc_approach`. After the run-start hook the fields of
the NPC are read again through the pointer `npc`; the result is `none`
when the hook has left no element under it. -/
def npc_approach (h : Collab) (i : Int) (g : Game) : Option (Out Int) :=
  if i < 0 ∨ i ≥ array_size g.npc_array then some { ret := -1, game := g, calls := [] }
  else
    match (array_elems g.npc_array)[i.toNat]? with
    | none => none
    | some npc =>
      match npc.type with
      | NPCtype.NPC_TYPE_GIVER => some (npc_approach_giver h npc g)
      | NPCtype.NPC_TYPE_MISSION =>
        match npc_getMisn npc g with
        | none => some { ret := -1, game := g, calls := [Call.warn Warning.mission_not_found] }
        | some misn =>
          let g1 := h.misn_runStart misn npc.u_func g
          match (array_elems g1.npc_array)[i.toNat]? with
          | none => none
          | some npc1 =>
            some { ret := 0
                   game := h.misn_runFunc misn npc1.u_func npc1.id g1
                   calls := [Call.misn_runStart misn npc.u_func,
                             Call.misn_runFunc misn npc1.u_func npc1.id] }
      | NPCtype.NPC_TYPE_EVENT =>
        let g1 := h.event_runStart npc.u_id npc.u_func g
        match (array_elems g1.npc_array)[i.toNat]? with
        | none => none
        | some npc1 =>
          some { ret := 0
                 game := h.event_runFunc npc1.u_id npc1.u_func npc1.id g1
                 calls := [Call.event_runStart npc.u_id npc.u_func,
                           Call.event_runFunc npc1.u_id npc1.u_func npc1.id] }
      | NPCtype.NPC_TYPE_NULL => some { ret := -1, game := g, calls := [Call.warn Warning.unknown_type] }

/-- The operations of the registry that a session interleaves. -/
inductive Op where
  | add_mission (mid : Nat) (func name : CStr) (priority : Int)
      (portrait : Option Tex) (desc : CStr) (background : Option Tex)
  | add_event (evt : Nat) (func name : CStr) (priority : Int)
      (portrait : Option Tex) (desc : CStr) (background : Option Tex)
  | add_giver (misn : Mission)
  | rm_event (id evt : Nat)
  | rm_mission (id mid : Nat)
  | rm_parentEvent (id : Nat)
  | rm_parentMission (mid : Nat)
  | sort
  | clear
  | set_landed (b : Bool)

/-- Whether the operation is a creation. -/
def Op.isCreation : Op → Bool
  | Op.add_mission _ _ _ _ _ _ _ => true
  | Op.add_event _ _ _ _ _ _ _ => true
  | Op.add_giver _ => true
  | _ => false

/-- One creation as part of a run: the game afterwards and, when the
creation has registered an NPC (the array has grown), the identity returned. -/
def created (g : Game) (o : Out Nat) : Game × List Nat :=
  if array_size o.game.npc_array = array_size g.npc_array + 1 then (o.game, [o.ret])
  else (o.game, [])

/-- One operation: the game afterwards and the identity returned if the
operation is a creation that registered an NPC; `none` when a loop of the
operation ran out of iterations. -/
def step (h : Collab) (op : Op) (g : Game) : Option (Game × List Nat) :=
  match op with
  | Op.add_mission mid func name priority portrait desc background =>
    some (created g (npc_add_mission mid func name priority portrait desc background g))
  | Op.add_event evt func name priority portrait desc background =>
    some (created g (npc_add_event evt func name priority portrait desc background g))
  | Op.add_giver misn => some (created g (npc_add_giver h misn g))
  | Op.rm_event id evt => some ((npc_rm_event id evt g).game, [])
  | Op.rm_mission id mid => some ((npc_rm_mission id mid g).game, [])
  | Op.rm_parentEvent id => (npc_rm_parentEvent id g).map (fun o => (o.game, []))
  | Op.rm_parentMission mid => (npc_rm_parentMission mid g).map (fun o => (o.game, []))
  | Op.sort => some ((npc_sort g).game, [])
  | Op.clear => (npc_clear h g).map (fun o => (o.game, []))
  | Op.set_landed b => some ({ g with landed := b }, [])

/-- A sequence of operations: the final game and the identities returned by
the creations that registered an NPC, in creation order. -/
def run (h : Collab) : List Op → Game → Option (Game × List Nat)
  | [], g => some (g, [])
  | op :: ops, g =>
    match step h op g with
    | none => none
    | some r =>
      match run h ops r.1 with
      | none => none
      | some r2 => some (r2.1, r.2 ++ r2.2)

/-- A collaborator set whose scripts do nothing: every mission is declined,
no hook touches the game, and the spob has no `barbg` function. -/
def Collab.quiet : Collab :=
  { mission_accept := fun _ g => (0, g)
    mission_cleanup := fun _ g => g
    misn_runStart := fun _ _ g => g
    misn_runFunc := fun _ _ _ g => g
    event_runStart := fun _ _ g => g
    event_runFunc := fun _ _ _ g => g
    missions_genList := fun g => ([], g)
    lua_barbg := none
    gl_dupTexture := fun t => t
    gl_newImage_background := some 0 }

/-- Byte-wise lexicographic order on strings, strictly before: at the first
position where the strings differ the left one ends or has the smaller byte. -/
def cstr_lt : CStr → CStr → Bool
  | _, [] => false
  | [], _ :: _ => true
  | a :: as, b :: bs => decide (a < b) || (decide (a = b) && cstr_lt as bs)

/-- The ordering policy in the words of the specification: priority
ascending, ties broken by name in byte-wise lexicographic order, remaining
ties broken by identity ascending. -/
def ordering_policy (a b : NPC_t) : Bool :=
  decide (a.priority < b.priority) ||
  (decide (a.priority = b.priority) &&
    (cstr_lt a.name b.name || (decide (a.name = b.name) && decide (a.id ≤ b.id))))

/-- The registry of the ordering example: three NPCs created in this order
with priorities 5, 1, 5 and names "Bob", "Ann", "Ann". -/
def example_bob_ann_ann : Game :=
  (npc_add_mission 7 [102] [65, 110, 110] 5 (some 1) [100] none
    (npc_add_mission 7 [102] [65, 110, 110] 1 (some 1) [100] none
      (npc_add_mission 7 [102] [66, 111, 98] 5 (some 1) [100] none Game.init).game).game).game

/-- Whether an NPC is of type `ty` with owner `id`: the NPCs that the loop of
`npc_rm_parentEvent` (`ty` event) or `npc_rm_parentMission` (`ty` mission)
removes. -/
def owned_by (ty : NPCtype) (id : Nat) (npc : NPC_t) : Bool :=
  decide (npc.type = ty) && decide (npc.u_id = id)

/-- The registry of the bulk-removal example: seven event NPCs, five of event
`3` and two of event `4`, created interleaved. -/
def example_five_and_two : Game :=
  (npc_add_event 3 [102] [69] 5 (some 1) [100] none
    (npc_add_event 3 [102] [68] 5 (some 1) [100] none
      (npc_add_event 4 [102] [71] 5 (some 1) [100] none
        (npc_add_event 3 [102] [67] 5 (some 1) [100] none
          (npc_add_event 3 [102] [66] 5 (some 1) [100] none
            (npc_add_event 4 [102] [70] 5 (some 1) [100] none
              (npc_add_event 3 [102] [65] 5 (some 1) [100] none
                Game.init).game).game).game).game).game).game).game

/-- A mission with a complete NPC definition. -/
def example_mission : Mission :=
  { id := 7, data_name := [109], data_avail_priority := 5, npc := some [67],
    portrait := some 2, npc_desc := some [100] }

/-- The registry of the ownership example: a mission NPC of mission `7`, an
event NPC of event `7`, a giver of mission `7` and a mission NPC of mission
`8`. -/
def example_shared_owner : Game :=
  (npc_add_mission 8 [102] [68] 5 (some 1) [100] none
    (npc_add_giver Collab.quiet example_mission
      (npc_add_event 7 [102] [66] 5 (some 1) [100] none
        (npc_add_mission 7 [102] [65] 5 (some 1) [100] none Game.init).game).game).game).game

/-- Whether a call goes to the mission or event runtime (acceptance, cleanup,
run-start hook or callback) rather than releasing memory or warning. -/
def Call.isCollab : Call → Bool
  | Call.mission_accept _ => true
  | Call.mission_cleanup _ => true
  | Call.misn_runStart _ _ => true
  | Call.misn_runFunc _ _ _ => true
  | Call.event_runStart _ _ => true
  | Call.event_runFunc _ _ _ => true
  | _ => false

/-- Collaborators whose acceptance script removes the mission NPC with
identity `1` of mission `7` and whose outcome is the field `ext` of the game
minus one; cleanup removes the mission NPCs of mission `7`. -/
def Collab.scripted : Collab :=
  { Collab.quiet with
    mission_accept := fun _ g => ((g.ext : Int) - 1, (npc_rm_mission 1 7 g).game)
    mission_cleanup := fun _ g =>
      match npc_rm_parentMission 7 g with
      | some o => o.game
      | none => g }

/-- The registry of the giver example: a mission NPC of mission `7` at index
0, the giver of mission `7` at index 1 and an event NPC at index 2; mission
`7` is pending. The outcome of the acceptance is `ext - 1`. -/
def example_giver (ext : Nat) : Game :=
  let g := (npc_add_event 9 [102] [66] 5 (some 1) [100] none
    (npc_add_giver Collab.quiet example_mission
      (npc_add_mission 7 [102] [65] 5 (some 1) [100] none Game.init).game).game).game
  { g with npc_missions := some [example_mission], ext := ext }

/-- The contract of `mission_cleanup` that the loops of this file rely on:
called on the pending record `j` it leaves the identity generator and the
active list alone, leaves a `NULL` NPC array `NULL`, and changes, in the
pending list, at most the record `j` itself. -/
def Collab.cleanupLocal (h : Collab) : Prop :=
  ∀ (j : Nat) (g : Game),
    (h.mission_cleanup (MisnRef.npc j) g).npc_array_idgen = g.npc_array_idgen ∧
    (g.npc_array = none → (h.mission_cleanup (MisnRef.npc j) g).npc_array = none) ∧
    (h.mission_cleanup (MisnRef.npc j) g).player_missions = g.player_missions ∧
    (array_elems (h.mission_cleanup (MisnRef.npc j) g).npc_missions).length =
      (array_elems g.npc_missions).length ∧
    ∀ k, k ≠ j →
      (array_elems (h.mission_cleanup (MisnRef.npc j) g).npc_missions)[k]? =
        (array_elems g.npc_missions)[k]?

/-- Whether the pending record at index `k` has an identity that is not in
the active list. -/
def not_promoted (active pending : List Mission) (k : Nat) : Bool :=
  match pending[k]? with
  | some m => decide (m.id ∉ active.map Mission.id)
  | none => false

/-- Collaborators whose `mission_cleanup` zeroes the identity of the record
it is called on, as a `memset` of the record does. -/
def Collab.zeroing : Collab :=
  { Collab.quiet with
    mission_cleanup := fun r g =>
      match r with
      | MisnRef.npc j =>
        { g with npc_missions :=
            g.npc_missions.map (fun l => l.modify (fun m => { m with id := 0 }) j) }
      | MisnRef.player _ => g }

/-- The game of the teardown example: two NPCs, three pending missions `7`,
`8`, `9`, of which `8` is also in the active list. -/
def example_teardown : Game :=
  { example_shared_owner with
    npc_missions := some [example_mission, { example_mission with id := 8 },
      { example_mission with id := 9 }],
    player_missions := [{ example_mission with id := 8 }] }

/-- The number of creations among the operations. -/
def creations (ops : List Op) : Nat :=
  (ops.filter Op.isCreation).length

/-- The operations `ops` repeated `n` times. -/
def repeat_ops (ops : List Op) : Nat → List Op
  | 0 => []
  | n + 1 => ops ++ repeat_ops ops n

/-- Creation of an event NPC of event `3` followed by the removal of the NPCs
of event `3`. -/
def wrap_cycle : List Op :=
  [Op.add_event 3 [102] [65] 5 (some 1) [100] none, Op.rm_parentEvent 3]

/-- A session in which `2 ^ 32 - 1` NPCs are created and removed again, one
at a time, and then two more NPCs are created. -/
def wrap_ops : List Op :=
  repeat_ops wrap_cycle 4294967295 ++
    [Op.add_event 3 [102] [65] 5 (some 1) [100] none,
     Op.add_event 3 [102] [66] 5 (some 1) [100] none]

/-- A short session with creations of the three kinds, removals, a sort and
a clear; the second creation happens outside the hub session. -/
def example_session : List Op :=
  [Op.add_mission 7 [102] [66, 111, 98] 5 (some 1) [100] none,
   Op.set_landed false,
   Op.add_event 3 [102] [65] 5 (some 1) [100] none,
   Op.set_landed true,
   Op.add_giver example_mission,
   Op.sort,
   Op.rm_mission 1 7,
   Op.clear,
   Op.add_event 3 [102] [65] 5 (some 1) [100] none,
   Op.rm_parentEvent 3,
   Op.add_giver { example_mission with portrait := none },
   Op.add_mission 7 [102] [65] 1 (some 1) [100] none]

/-- The mission record that a `Mission *` returned by `npc_getMisn` points to. -/
def Game.mission (g : Game) : MisnRef → Option Mission
  | MisnRef.player j => g.player_missions[j]?
  | MisnRef.npc j => (array_elems g.npc_missions)[j]?

/-- An NPC for the examples, with the given identity, type and owner. -/
def example_npc (id : Nat) (ty : NPCtype) (owner : Nat) : NPC_t :=
  { id := id, type := ty, priority := 5, name := [65], portrait := some 1, background := none,
    desc := [100], u_id := owner, u_func := [102] }

/-- The game of the lookup example: mission `7` is in the pending list and,
under another data name, in the active list; mission `8` is only pending. -/
def example_both_lists : Game :=
  { Game.init with
    npc_array := some [example_npc 1 NPCtype.NPC_TYPE_GIVER 7,
      example_npc 2 NPCtype.NPC_TYPE_MISSION 8, example_npc 3 NPCtype.NPC_TYPE_MISSION 9],
    npc_array_idgen := 3,
    npc_missions := some [example_mission, { example_mission with id := 8 }],
    player_missions := [{ example_mission with data_name := [97] }] }

/-- The NPC that `npc_add_giver` builds for a mission with the given name,
portrait and description, with the identity `id` that `npc_add` assigns. -/
def giver_npc (h : Collab) (misn : Mission) (name : CStr) (portrait : Tex) (desc : CStr)
    (id : Nat) : NPC_t :=
  { id := id, type := NPCtype.NPC_TYPE_GIVER, priority := misn.data_avail_priority,
    name := name, portrait := some (h.gl_dupTexture portrait), background := none,
    desc := desc, u_id := misn.id, u_func := [97, 99, 99, 101, 112, 116] }

/-- Collaborators of a spob with a `barbg` function that returns the texture
`9` and leaves the game as it is; duplicating a texture adds `100` to its
handle and the default background is the texture `50`. -/
def Collab.with_barbg : Collab :=
  { Collab.quiet with
    lua_barbg := some (fun g => (PcallResult.ok (LuaValue.tex 9), g))
    gl_dupTexture := fun t => t + 100
    gl_newImage_background := some 50 }

/-- Collaborators of a spob whose `barbg` function returns a number. -/
def Collab.with_bad_barbg : Collab :=
  { Collab.with_barbg with
    lua_barbg := some (fun g => (PcallResult.ok LuaValue.other, g)) }

/-- Collaborators whose callbacks remove the NPC they are called for through
the owner-scoped removal: a callback of mission `8` calls `npc_rm_mission`
and an event callback calls `npc_rm_event` for its event. -/
def Collab.self_removing : Collab :=
  { Collab.quiet with
    misn_runFunc := fun _ _ id g => (npc_rm_mission id 8 g).game
    event_runFunc := fun evt _ id g => (npc_rm_event id evt g).game }

/-- The first statement of `npc_generateMissions`: `npc_missions` is created
when it is `NULL`. -/
def with_pending_array (g : Game) : Game :=
  match g.npc_missions with
  | none => { g with npc_missions := some [] }
  | some _ => g

/-- Whether the mission has an NPC name, a portrait and a description. -/
def Mission.has_npc (m : Mission) : Bool :=
  m.npc.isSome && m.portrait.isSome && m.npc_desc.isSome

/-- The givers of the listed missions that have an NPC name, a portrait and
a description, in the order of the list, with the identities that a generator
at `idgen` issues one after the other. -/
def listed_givers (h : Collab) : List Mission → Nat → List NPC_t
  | [], _ => []
  | m :: rest, idgen =>
    match m.npc, m.portrait, m.npc_desc with
    | some name, some portrait, some desc =>
      giver_npc h m name portrait desc ((idgen + 1) % UINT_MOD) ::
        listed_givers h rest ((idgen + 1) % UINT_MOD)
    | _, _, _ => listed_givers h rest idgen

/-- Collaborators whose listing returns three missions for the hub: mission
`7`, mission `8` without a portrait and mission `9` of priority `1`. -/
def Collab.listing : Collab :=
  { Collab.quiet with
    missions_genList := fun g =>
      ([example_mission, { example_mission with id := 8, portrait := none },
        { example_mission with id := 9, data_avail_priority := 1 }], g) }

/-- The registry invariant: the stored NPCs have pairwise distinct
identities, each non-zero and not above the identity generator, and none has
the null type. -/
def registry_invariant (g : Game) : Prop :=
  ((array_elems g.npc_array).map NPC_t.id).Nodup ∧
  ∀ npc ∈ array_elems g.npc_array,
    npc.id ≠ 0 ∧ npc.id ≤ g.npc_array_idgen ∧ npc.type ≠ NPCtype.NPC_TYPE_NULL

/-- The operations of the file that a program performs on the registry: those
of `Op`, and the ones that run collaborators. -/
inductive Action where
  | op (o : Op)
  | patchMission (misn : Mission)
  | generateMissions
  | approach (i : Int)

/-- The game after one action; `none` when the action does not return. -/
def perform (h : Collab) : Action → Game → Option Game
  | Action.op o, g => (step h o g).map Prod.fst
  | Action.patchMission misn, g => some (npc_patchMission h misn g).game
  | Action.generateMissions, g => some (npc_generateMissions h g).game
  | Action.approach i, g => (npc_approach h i g).map Out.game

/-- Whether the identity generator is not wound back by a script that takes
the game `g` to `g1`: a generator that wraps round while a script creates NPCs
ends below the value it had before. -/
def not_wound_back (g g1 : Game) : Bool :=
  decide (g.npc_array_idgen ≤ g1.npc_array_idgen)

/-- Whether the generator is not wound back by any call of `mission_cleanup`
that the loop of `npc_clear` makes; the recursion is that of `npc_clear_loop`. -/
def npc_clear_below_wrap (h : Collab) : Nat → Nat → Game → Bool
  | 0, _, _ => true
  | fuel + 1, i, g =>
    if (i : Int) < array_size g.npc_missions then
      match (array_elems g.npc_missions)[i]? with
      | none => true
      | some m =>
        let j := npc_clear_search m.id g.player_missions 0
        if j ≥ g.player_missions.length then
          not_wound_back g (h.mission_cleanup (MisnRef.npc i) g) &&
            npc_clear_below_wrap h fuel (i + 1) (h.mission_cleanup (MisnRef.npc i) g)
        else npc_clear_below_wrap h fuel (i + 1) g
    else true

/-- Whether the generator is not wound back by any script that `npc_approach`
runs: the acceptance and the cleanup for a giver, the run-start hook and the
callback for a mission or event NPC. -/
def npc_approach_below_wrap (h : Collab) (i : Int) (g : Game) : Bool :=
  if i < 0 ∨ i ≥ array_size g.npc_array then true
  else
    match (array_elems g.npc_array)[i.toNat]? with
    | none => true
    | some npc =>
      match npc.type with
      | NPCtype.NPC_TYPE_GIVER =>
        match npc_getMisn npc g with
        | none => true
        | some misn =>
          not_wound_back g (h.mission_accept misn g).2 &&
            (if (h.mission_accept misn g).1 = -1 then
              not_wound_back (h.mission_accept misn g).2
                (h.mission_cleanup misn (h.mission_accept misn g).2)
             else true)
      | NPCtype.NPC_TYPE_MISSION =>
        match npc_getMisn npc g with
        | none => true
        | some misn =>
          not_wound_back g (h.misn_runStart misn npc.u_func g) &&
            (match (array_elems (h.misn_runStart misn npc.u_func g).npc_array)[i.toNat]? with
             | none => true
             | some npc1 =>
               not_wound_back (h.misn_runStart misn npc.u_func g)
                 (h.misn_runFunc misn npc1.u_func npc1.id (h.misn_runStart misn npc.u_func g)))
      | NPCtype.NPC_TYPE_EVENT =>
        not_wound_back g (h.event_runStart npc.u_id npc.u_func g) &&
          (match (array_elems (h.event_runStart npc.u_id npc.u_func g).npc_array)[i.toNat]? with
           | none => true
           | some npc1 =>
             not_wound_back (h.event_runStart npc.u_id npc.u_func g)
               (h.event_runFunc npc1.u_id npc1.u_func npc1.id
                 (h.event_runStart npc.u_id npc.u_func g)))
      | NPCtype.NPC_TYPE_NULL => true

/-- Whether the identity generator stays below `2 ^ 32` through one action:
through the creations that the code of the action itself performs, and
through every script that the action runs. -/
def below_wrap (h : Collab) : Action → Game → Bool
  | Action.op Op.clear, g =>
    npc_clear_below_wrap h (array_elems g.npc_missions).length 0 { g with npc_array := none }
  | Action.op o, g => !o.isCreation || decide (g.npc_array_idgen + 1 < UINT_MOD)
  | Action.patchMission _, g => decide (g.npc_array_idgen + 1 < UINT_MOD)
  | Action.generateMissions, g =>
    not_wound_back (with_pending_array g) (h.missions_genList (with_pending_array g)).2 &&
      decide ((h.missions_genList (with_pending_array g)).2.npc_array_idgen +
        (h.missions_genList (with_pending_array g)).1.length < UINT_MOD)
  | Action.approach i, g => npc_approach_below_wrap h i g

/-- The game after a sequence of actions. -/
def perform_all (h : Collab) : List Action → Game → Option Game
  | [], g => some g
  | a :: rest, g =>
    match perform h a g with
    | none => none
    | some g1 => perform_all h rest g1

/-- Whether the identity generator stays below `2 ^ 32` all through a
sequence of actions. -/
def below_wrap_all (h : Collab) : List Action → Game → Bool
  | [], _ => true
  | a :: rest, g =>
    below_wrap h a g &&
      (match perform h a g with
       | none => true
       | some g1 => below_wrap_all h rest g1)

/-- The contract of the collaborators for the registry invariant: a script
that is run on a game in which the invariant holds leaves the invariant in
place, unless the identity generator has wrapped round while the script ran
and has ended below its value before the script. A script that creates an NPC
through `npc_add_mission` or `npc_add_event` meets it in every game. -/
def Collab.keeps_invariant (h : Collab) : Prop :=
  (∀ r g, registry_invariant g → not_wound_back g (h.mission_accept r g).2 = true →
    registry_invariant (h.mission_accept r g).2) ∧
  (∀ r g, registry_invariant g → not_wound_back g (h.mission_cleanup r g) = true →
    registry_invariant (h.mission_cleanup r g)) ∧
  (∀ r f g, registry_invariant g → not_wound_back g (h.misn_runStart r f g) = true →
    registry_invariant (h.misn_runStart r f g)) ∧
  (∀ r f a g, registry_invariant g → not_wound_back g (h.misn_runFunc r f a g) = true →
    registry_invariant (h.misn_runFunc r f a g)) ∧
  (∀ e f g, registry_invariant g → not_wound_back g (h.event_runStart e f g) = true →
    registry_invariant (h.event_runStart e f g)) ∧
  (∀ e f a g, registry_invariant g → not_wound_back g (h.event_runFunc e f a g) = true →
    registry_invariant (h.event_runFunc e f a g)) ∧
  (∀ g, registry_invariant g → not_wound_back g (h.missions_genList g).2 = true →
    registry_invariant (h.missions_genList g).2)

/-- A session with all kinds of actions: creations, a listing, the approach
of a giver, of an event NPC and of a mission NPC, removals, a sort and a
clear. -/
def example_actions : List Action :=
  [Action.op (Op.add_mission 8 [102] [66] 5 (some 1) [100] none),
   Action.op (Op.add_event 3 [102] [65] 5 (some 1) [100] none),
   Action.patchMission { example_mission with id := 8 },
   Action.generateMissions,
   Action.approach 0,
   Action.approach 0,
   Action.approach 0,
   Action.op (Op.rm_parentEvent 3),
   Action.op Op.sort,
   Action.op (Op.add_event 3 [102] [65] 1 (some 1) [100] none),
   Action.op Op.clear,
   Action.op (Op.add_mission 8 [102] [66] 5 (some 1) [100] none)]

/-- Collaborators of the example session, whose scripts create NPCs: the
listing of `Collab.listing`; an acceptance that creates an NPC of mission `8`
and promotes the mission (outcome `3`); a mission callback that removes the
NPC approached; an event callback that removes the NPC approached and creates
another NPC of the same event. -/
def Collab.session : Collab :=
  { Collab.quiet with
    missions_genList := Collab.listing.missions_genList
    mission_accept := fun _ g =>
      (3, (npc_add_mission 8 [102] [67] 5 (some 1) [100] none g).game)
    misn_runFunc := fun _ _ id g => (npc_rm_mission id 8 g).game
    event_runFunc := fun evt _ id g =>
      (npc_add_event evt [102] [68] 5 (some 1) [100] none (npc_rm_event id evt g).game).game }

/-- A session that keeps one NPC while the identity generator goes round: an
event NPC of event `4` is created, and then `2 ^ 32 - 1` NPCs of event `3` are
created and removed again one at a time, the last one with the identity `0`. -/
def wrap_keeping : List Op :=
  Op.add_event 4 [102] [65] 5 (some 1) [100] none :: repeat_ops wrap_cycle 4294967295

/-- The game that the session `wrap_keeping` reaches from the initial game:
the registry holds the event NPC of event `4`, with identity `1`, and the
identity generator is back at `0`. -/
def example_wrapped : Game :=
  { Game.init with
    npc_array := some [example_npc 1 NPCtype.NPC_TYPE_EVENT 4],
    npc_array_idgen := 0 }

/-- Collaborators whose acceptance promotes the mission (outcome `3`) and
leaves the game as it is. -/
def Collab.accepting : Collab :=
  { Collab.quiet with mission_accept := fun _ g => (3, g) }

/-- Collaborators of a spob whose `barbg` function returns a number, with a
default background that cannot be loaded (`gl_newImage` returns `NULL`). -/
def Collab.no_default : Collab :=
  { Collab.with_bad_barbg with gl_newImage_background := none }

/-- C2: outside a hub session (`landed` false) `npc_add_mission` and
`npc_add_event` return the failure sentinel `0` and leave the whole game,
hence the registry and the identity generator, as it was. -/
theorem npc_add_outside_session (g : Game) (hl : g.landed = false)
    (owner : Nat) (func name : CStr) (priority : Int) (portrait : Option Tex)
    (desc : CStr) (background : Option Tex) :
    (npc_add_mission owner func name priority portrait desc background g).ret = 0 ∧
    (npc_add_mission owner func name priority portrait desc background g).game = g ∧
    (npc_add_event owner func name priority portrait desc background g).ret = 0 ∧
    (npc_add_event owner func name priority portrait desc background g).game = g := by
  simp [npc_add_mission, npc_add_event, npc_add, hl]

theorem npc_add_outside_session_witness :
    ({ Game.init with landed := false, npc_array_idgen := 4 } : Game).landed = false ∧
    (npc_add_mission 7 [102] [65, 110, 110] 5 (some 1) [100] none
      { Game.init with landed := false, npc_array_idgen := 4 }).ret = 0 ∧
    (npc_add_mission 7 [102] [65, 110, 110] 5 (some 1) [100] none
      { Game.init with landed := false, npc_array_idgen := 4 }).game =
      { Game.init with landed := false, npc_array_idgen := 4 } ∧
    (npc_add_event 7 [102] [65, 110, 110] 5 (some 1) [100] none
      { Game.init with landed := false, npc_array_idgen := 4 }).ret = 0 ∧
    (npc_add_event 7 [102] [65, 110, 110] 5 (some 1) [100] none
      { Game.init with landed := false, npc_array_idgen := 4 }).game =
      { Game.init with landed := false, npc_array_idgen := 4 } :=
  ⟨by decide, npc_add_outside_session _ (by decide) 7 [102] [65, 110, 110] 5 (some 1) [100] none⟩

theorem array_size_eq_length {α : Type} (a : Option (List α)) :
    array_size a = ((array_elems a).length : Int) := by
  cases a <;> simp [array_size, array_elems]

theorem npc_outOfBounds_iff (i : Int) (g : Game) :
    npc_outOfBounds i g = true ↔ (i < 0 ∨ i ≥ npc_getArraySize g) := by
  unfold npc_outOfBounds npc_getArraySize
  cases hg : g.npc_array with
  | none => simp [array_size]; omega
  | some arr => simp [array_size]

theorem getElem?_toNat_of_inBounds (i : Int) (g : Game)
    (h0 : 0 ≤ i) (h1 : i < npc_getArraySize g) :
    ∃ npc, (array_elems g.npc_array)[i.toNat]? = some npc := by
  unfold npc_getArraySize at h1
  rw [array_size_eq_length] at h1
  have : i.toNat < (array_elems g.npc_array).length := by omega
  exact ⟨(array_elems g.npc_array)[i.toNat], List.getElem?_eq_getElem this⟩

theorem inBounds_of_getElem? (i : Int) (g : Game) (npc : NPC_t) (h0 : 0 ≤ i)
    (hn : (array_elems g.npc_array)[i.toNat]? = some npc) :
    ¬ (i < 0 ∨ i ≥ npc_getArraySize g) := by
  have := (List.getElem?_eq_some_iff.mp hn).1
  unfold npc_getArraySize
  rw [array_size_eq_length]
  omega

/-- C9: `npc_isImportant i` is `1` exactly when `i` is in `[0, size)` and the
NPC stored at `i` has priority at most `5`, and `0` in every other case. -/
theorem npc_isImportant_spec (i : Int) (g : Game) :
    (npc_isImportant i g = 1 ↔
      (0 ≤ i ∧ i < npc_getArraySize g ∧
        ∃ npc, (array_elems g.npc_array)[i.toNat]? = some npc ∧ npc.priority ≤ 5)) ∧
    (npc_isImportant i g ≠ 1 → npc_isImportant i g = 0) := by
  unfold npc_isImportant
  by_cases hb : npc_outOfBounds i g = true
  · have hb2 := (npc_outOfBounds_iff i g).mp hb
    simp only [hb, if_true]
    constructor
    · constructor
      · intro h; simp at h
      · rintro ⟨h0, h1, _⟩; omega
    · intro _; trivial
  · have hb2 : ¬ (i < 0 ∨ i ≥ npc_getArraySize g) := fun h => hb ((npc_outOfBounds_iff i g).mpr h)
    have h0 : 0 ≤ i := by omega
    have h1 : i < npc_getArraySize g := by omega
    obtain ⟨npc, hn⟩ := getElem?_toNat_of_inBounds i g h0 h1
    simp only [hb, hn]
    by_cases hp : npc.priority ≤ 5
    · simp [hp, h0, h1]
    · simp [hp, h0, h1]

theorem npc_isImportant_spec_witness :
    npc_isImportant 0 (npc_add_event 1 [] [65] 5 (some 1) [100] none Game.init).game = 1 ∧
    npc_isImportant 0 (npc_add_event 1 [] [65] 6 (some 1) [100] none Game.init).game = 0 ∧
    npc_isImportant 1 (npc_add_event 1 [] [65] 5 (some 1) [100] none Game.init).game = 0 ∧
    npc_isImportant (-1) (npc_add_event 1 [] [65] 5 (some 1) [100] none Game.init).game = 0 :=
  ⟨(npc_isImportant_spec 0 _).1.mpr (by decide),
   (npc_isImportant_spec 0 _).2 (by decide),
   (npc_isImportant_spec 1 _).2 (by decide),
   (npc_isImportant_spec (-1) _).2 (by decide)⟩

/-- C10: for an index outside `[0, size)`, in particular for every index
when `npc_array` is `NULL`, `npc_getName`, `npc_getTexture` and
`npc_getDesc` return `NULL` and `npc_approach` returns `-1` with the game
unchanged and no call made; for an index inside, the accessors return the
name, portrait and description of the NPC stored there. The accessors are
functions of the game and leave it as it is. -/
theorem npc_accessors_by_index (h : Collab) (i : Int) (g : Game) :
    ((i < 0 ∨ i ≥ npc_getArraySize g) →
      npc_getName i g = none ∧ npc_getTexture i g = none ∧ npc_getDesc i g = none ∧
      npc_approach h i g = some { ret := -1, game := g, calls := [] }) ∧
    (g.npc_array = none →
      npc_getName i g = none ∧ npc_getTexture i g = none ∧ npc_getDesc i g = none ∧
      npc_approach h i g = some { ret := -1, game := g, calls := [] }) ∧
    (∀ npc, 0 ≤ i → (array_elems g.npc_array)[i.toNat]? = some npc →
      npc_getName i g = some npc.name ∧ npc_getTexture i g = npc.portrait ∧
      npc_getDesc i g = some npc.desc) := by
  have key : (i < 0 ∨ i ≥ npc_getArraySize g) →
      npc_getName i g = none ∧ npc_getTexture i g = none ∧ npc_getDesc i g = none ∧
      npc_approach h i g = some { ret := -1, game := g, calls := [] } := by
    intro hb
    have hb1 := (npc_outOfBounds_iff i g).mpr hb
    refine ⟨by simp [npc_getName, hb1], by simp [npc_getTexture, hb1],
      by simp [npc_getDesc, hb1], ?_⟩
    unfold npc_getArraySize at hb
    simp [npc_approach, hb]
  refine ⟨key, ?_, ?_⟩
  · intro hn
    apply key
    unfold npc_getArraySize
    rw [hn]
    simp only [array_size]
    omega
  · intro npc h0 hn
    have hb := inBounds_of_getElem? i g npc h0 hn
    have hb1 : npc_outOfBounds i g = false := by
      cases hc : npc_outOfBounds i g with
      | false => rfl
      | true => exact absurd ((npc_outOfBounds_iff i g).mp hc) hb
    simp [npc_getName, npc_getTexture, npc_getDesc, hb1, hn]

theorem npc_accessors_by_index_witness :
    (npc_getName 1 (npc_add_event 1 [] [65] 5 (some 9) [100] none Game.init).game = none ∧
      npc_getTexture 1 (npc_add_event 1 [] [65] 5 (some 9) [100] none Game.init).game = none ∧
      npc_getDesc 1 (npc_add_event 1 [] [65] 5 (some 9) [100] none Game.init).game = none ∧
      npc_approach Collab.quiet 1 (npc_add_event 1 [] [65] 5 (some 9) [100] none Game.init).game =
        some { ret := -1, game := (npc_add_event 1 [] [65] 5 (some 9) [100] none Game.init).game,
               calls := [] }) ∧
    (npc_getName (-3) Game.init = none ∧ npc_getTexture (-3) Game.init = none ∧
      npc_getDesc (-3) Game.init = none ∧
      npc_approach Collab.quiet (-3) Game.init =
        some { ret := -1, game := Game.init, calls := [] }) ∧
    (npc_getName 0 (npc_add_event 1 [] [65] 5 (some 9) [100] none Game.init).game = some [65] ∧
      npc_getTexture 0 (npc_add_event 1 [] [65] 5 (some 9) [100] none Game.init).game = some 9 ∧
      npc_getDesc 0 (npc_add_event 1 [] [65] 5 (some 9) [100] none Game.init).game = some [100]) :=
  ⟨(npc_accessors_by_index Collab.quiet 1 _).1 (by decide),
   (npc_accessors_by_index Collab.quiet (-3) Game.init).2.1 (by decide),
   (npc_accessors_by_index Collab.quiet 0
      (npc_add_event 1 [] [65] 5 (some 9) [100] none Game.init).game).2.2
      { id := 1, type := NPCtype.NPC_TYPE_EVENT, priority := 5, name := [65],
        portrait := some 9, background := none, desc := [100], u_id := 1, u_func := [] }
      (by decide) (by decide)⟩

theorem strcmp_antisymm (a b : CStr) : strcmp b a = - strcmp a b := by
  induction a generalizing b with
  | nil => cases b <;> simp [strcmp]
  | cons x xs ih =>
    cases b with
    | nil => simp [strcmp]
    | cons y ys =>
      simp only [strcmp]
      by_cases hxy : x = y
      · subst hxy
        by_cases hx : x = 0
        · simp [hx]
        · simp [hx, ih ys]
      · have hyx : y ≠ x := fun h => hxy h.symm
        simp [hxy, hyx]

theorem strcmp_trans_le (a b c : CStr) (h1 : strcmp a b ≤ 0) (h2 : strcmp b c ≤ 0) :
    strcmp a c ≤ 0 := by
  induction a generalizing b c with
  | nil => cases c <;> simp [strcmp]
  | cons x xs ih =>
    cases b with
    | nil =>
      simp only [strcmp] at h1
      have hx : x = 0 := by omega
      subst hx
      cases c with
      | nil => simp [strcmp]
      | cons z zs =>
        simp only [strcmp]
        split_ifs <;> omega
    | cons y ys =>
      cases c with
      | nil =>
        simp only [strcmp] at h1 h2 ⊢
        have hy : y = 0 := by omega
        subst hy
        split_ifs at h1 <;> omega
      | cons z zs =>
        simp only [strcmp] at h1 h2 ⊢
        split_ifs at h1 h2 ⊢ <;> first | omega | exact ih _ _ h1 h2

theorem strcmp_trans_eq (a b c : CStr) (h1 : strcmp a b = 0) (h2 : strcmp b c = 0) :
    strcmp a c = 0 := by
  induction a generalizing b c with
  | nil =>
    cases b with
    | nil => exact h2
    | cons y ys =>
      simp only [strcmp] at h1
      have hy : y = 0 := by omega
      subst hy
      cases c with
      | nil => simp [strcmp]
      | cons z zs =>
        simp only [strcmp] at h2 ⊢
        split_ifs at h2 <;> omega
  | cons x xs ih =>
    cases b with
    | nil =>
      simp only [strcmp] at h1
      have hx : x = 0 := by omega
      subst hx
      cases c with
      | nil => simp [strcmp]
      | cons z zs =>
        simp only [strcmp] at h2 ⊢
        split_ifs <;> omega
    | cons y ys =>
      cases c with
      | nil =>
        simp only [strcmp] at h1 h2 ⊢
        have hy : y = 0 := by omega
        subst hy
        split_ifs at h1 <;> omega
      | cons z zs =>
        simp only [strcmp] at h1 h2 ⊢
        split_ifs at h1 h2 ⊢ <;> first | omega | exact ih _ _ h1 h2

theorem strcmp_neg_iff_cstr_lt (a b : CStr) (ha : 0 ∉ a) (hb : 0 ∉ b) :
    strcmp a b < 0 ↔ cstr_lt a b = true := by
  induction a generalizing b with
  | nil =>
    cases b with
    | nil => simp [strcmp, cstr_lt]
    | cons y ys =>
      have hy : y ≠ 0 := fun h => hb (by simp [h])
      simp only [strcmp, cstr_lt]
      constructor
      · intro _; trivial
      · intro _; omega
  | cons x xs ih =>
    cases b with
    | nil =>
      simp only [strcmp, cstr_lt]
      constructor
      · intro h; omega
      · intro h; simp at h
    | cons y ys =>
      have hx : x ≠ 0 := fun h => ha (by simp [h])
      have hxs : 0 ∉ xs := fun h => ha (List.mem_cons_of_mem _ h)
      have hys : 0 ∉ ys := fun h => hb (List.mem_cons_of_mem _ h)
      simp only [strcmp, cstr_lt]
      by_cases hxy : x = y
      · subst hxy
        simp [hx, ih ys hxs hys]
      · simp only [hxy, ne_eq, not_false_eq_true, if_true, Bool.or_eq_true, decide_eq_true_eq,
          Bool.and_eq_true, false_and, or_false]
        omega

theorem strcmp_eq_zero_iff (a b : CStr) (ha : 0 ∉ a) (hb : 0 ∉ b) :
    strcmp a b = 0 ↔ a = b := by
  induction a generalizing b with
  | nil =>
    cases b with
    | nil => simp [strcmp]
    | cons y ys =>
      have hy : y ≠ 0 := fun h => hb (by simp [h])
      simp only [strcmp]
      constructor
      · intro h; omega
      · intro h; simp at h
  | cons x xs ih =>
    cases b with
    | nil =>
      have hx : x ≠ 0 := fun h => ha (by simp [h])
      simp only [strcmp]
      constructor
      · intro h; omega
      · intro h; simp at h
    | cons y ys =>
      have hx : x ≠ 0 := fun h => ha (by simp [h])
      have hxs : 0 ∉ xs := fun h => ha (List.mem_cons_of_mem _ h)
      have hys : 0 ∉ ys := fun h => hb (List.mem_cons_of_mem _ h)
      simp only [strcmp]
      by_cases hxy : x = y
      · subst hxy
        simp [hx, ih ys hxs hys]
      · simp only [hxy, ne_eq, not_false_eq_true, if_true, List.cons.injEq, false_and, iff_false]
        omega

theorem npc_compare_total (a b : NPC_t) : npc_compare a b ≤ 0 ∨ npc_compare b a ≤ 0 := by
  unfold npc_compare
  have hs := strcmp_antisymm a.name b.name
  simp only []
  split_ifs <;> omega

theorem npc_compare_le_iff (a b : NPC_t) :
    npc_compare a b ≤ 0 ↔
      (a.priority < b.priority ∨ (a.priority = b.priority ∧
        (strcmp a.name b.name < 0 ∨ (strcmp a.name b.name = 0 ∧ a.id ≤ b.id)))) := by
  unfold npc_compare
  simp only []
  split_ifs <;> omega

theorem npc_compare_trans (a b c : NPC_t) (h1 : npc_compare a b ≤ 0)
    (h2 : npc_compare b c ≤ 0) : npc_compare a c ≤ 0 := by
  rw [npc_compare_le_iff] at h1 h2 ⊢
  have t1 := strcmp_trans_le a.name b.name c.name
  have t2 := strcmp_trans_eq a.name b.name c.name
  have t3 := strcmp_trans_le c.name a.name b.name
  have t4 := strcmp_trans_eq b.name c.name a.name
  have t5 := strcmp_trans_le b.name c.name a.name
  have s1 := strcmp_antisymm a.name b.name
  have s2 := strcmp_antisymm b.name c.name
  have s3 := strcmp_antisymm a.name c.name
  rcases h1 with h1 | ⟨h1, h1'⟩
  · rcases h2 with h2 | ⟨h2, _⟩
    · left; omega
    · left; omega
  · rcases h2 with h2 | ⟨h2, h2'⟩
    · left; omega
    · right
      refine ⟨by omega, ?_⟩
      have hac : strcmp a.name c.name ≤ 0 := t1 (by omega) (by omega)
      by_cases hz : strcmp a.name c.name = 0
      · right
        refine ⟨hz, ?_⟩
        -- c ≤ a ≤ b and b ≤ c, so the three names compare equal
        have hca : strcmp c.name a.name ≤ 0 := by omega
        have hcb : strcmp c.name b.name ≤ 0 := t3 hca (by omega)
        have hbc : strcmp b.name c.name = 0 := by omega
        have hba : strcmp b.name a.name = 0 := t4 hbc (by omega)
        have hab : strcmp a.name b.name = 0 := by omega
        omega
      · left; omega

theorem npc_compare_le_iff_policy (a b : NPC_t) (ha : 0 ∉ a.name) (hb : 0 ∉ b.name) :
    npc_compare a b ≤ 0 ↔ ordering_policy a b = true := by
  rw [npc_compare_le_iff]
  unfold ordering_policy
  have e1 := strcmp_neg_iff_cstr_lt a.name b.name ha hb
  have e2 := strcmp_eq_zero_iff a.name b.name ha hb
  simp only [Bool.or_eq_true, Bool.and_eq_true, decide_eq_true_eq, e1, e2]

theorem qsort_insert_perm {α : Type} (cmp : α → α → Int) (x : α) (l : List α) :
    (qsort_insert cmp x l).Perm (x :: l) := by
  induction l with
  | nil => simp [qsort_insert]
  | cons y ys ih =>
    simp only [qsort_insert]
    split_ifs
    · exact List.Perm.refl _
    · exact (List.Perm.cons y ih).trans (List.Perm.swap x y ys)

theorem qsort_perm {α : Type} (cmp : α → α → Int) (l : List α) : (qsort cmp l).Perm l := by
  induction l with
  | nil => simp [qsort]
  | cons x xs ih =>
    simp only [qsort]
    exact (qsort_insert_perm cmp x _).trans (List.Perm.cons x ih)

theorem qsort_insert_sorted {α : Type} (cmp : α → α → Int)
    (total : ∀ a b, cmp a b ≤ 0 ∨ cmp b a ≤ 0)
    (trans : ∀ a b c, cmp a b ≤ 0 → cmp b c ≤ 0 → cmp a c ≤ 0)
    (x : α) (l : List α) (hl : l.Pairwise (fun a b => cmp a b ≤ 0)) :
    (qsort_insert cmp x l).Pairwise (fun a b => cmp a b ≤ 0) := by
  induction l with
  | nil => simp [qsort_insert]
  | cons y ys ih =>
    simp only [qsort_insert]
    rw [List.pairwise_cons] at hl
    split_ifs with hxy
    · refine List.Pairwise.cons ?_ (List.Pairwise.cons hl.1 hl.2)
      intro z hz
      rcases List.mem_cons.mp hz with rfl | hz
      · exact hxy
      · exact trans _ _ _ hxy (hl.1 z hz)
    · refine List.Pairwise.cons ?_ (ih hl.2)
      intro z hz
      have hz2 := (qsort_insert_perm cmp x ys).mem_iff.mp hz
      rcases List.mem_cons.mp hz2 with rfl | hz3
      · rcases total z y with h | h
        · exact absurd h hxy
        · exact h
      · exact hl.1 z hz3

theorem qsort_sorted {α : Type} (cmp : α → α → Int)
    (total : ∀ a b, cmp a b ≤ 0 ∨ cmp b a ≤ 0)
    (trans : ∀ a b c, cmp a b ≤ 0 → cmp b c ≤ 0 → cmp a c ≤ 0) (l : List α) :
    (qsort cmp l).Pairwise (fun a b => cmp a b ≤ 0) := by
  induction l with
  | nil => simp [qsort]
  | cons x xs ih =>
    simp only [qsort]
    exact qsort_insert_sorted cmp total trans x _ ih

theorem npc_sort_elems (g : Game) :
    array_elems (npc_sort g).game.npc_array = qsort npc_compare (array_elems g.npc_array) := by
  obtain ⟨l, i, arr, ms, pm, e⟩ := g
  cases arr with
  | none => simp [npc_sort, array_elems, qsort]
  | some arr => simp [npc_sort, array_elems]

theorem npc_sort_frame (g : Game) :
    (npc_sort g).game = { g with npc_array := (npc_sort g).game.npc_array } ∧
    ((npc_sort g).game.npc_array = none ↔ g.npc_array = none) ∧
    (npc_sort g).calls = [] := by
  obtain ⟨l, i, arr, ms, pm, e⟩ := g
  cases arr with
  | none => simp [npc_sort]
  | some arr => simp [npc_sort]

/-- C3: `npc_sort` changes nothing but the order of `npc_array`: the array
afterwards is a permutation of the array before (same size, same NPCs) and
is sorted by `npc_compare`, which for names without a NUL byte is the
ordering policy: priority ascending, then name in byte-wise lexicographic
order, then identity ascending. NPCs created in order with priorities 5, 1,
5 and names "Bob", "Ann", "Ann" are read back by index as Ann (priority 1),
Ann (priority 5), Bob (priority 5). -/
theorem npc_sort_sorted_permutation (g : Game) :
    (npc_sort g).game = { g with npc_array := (npc_sort g).game.npc_array } ∧
    ((npc_sort g).game.npc_array = none ↔ g.npc_array = none) ∧
    (array_elems (npc_sort g).game.npc_array).Perm (array_elems g.npc_array) ∧
    npc_getArraySize (npc_sort g).game = npc_getArraySize g ∧
    (array_elems (npc_sort g).game.npc_array).Pairwise (fun a b => npc_compare a b ≤ 0) ∧
    ((∀ npc ∈ array_elems g.npc_array, 0 ∉ npc.name) →
      (array_elems (npc_sort g).game.npc_array).Pairwise
        (fun a b => ordering_policy a b = true)) ∧
    (array_elems (npc_sort example_bob_ann_ann).game.npc_array).map
        (fun npc => (npc.name, npc.priority, npc.id)) =
      [([65, 110, 110], 1, 2), ([65, 110, 110], 5, 3), ([66, 111, 98], 5, 1)] ∧
    npc_getName 0 (npc_sort example_bob_ann_ann).game = some [65, 110, 110] ∧
    npc_getName 1 (npc_sort example_bob_ann_ann).game = some [65, 110, 110] ∧
    npc_getName 2 (npc_sort example_bob_ann_ann).game = some [66, 111, 98] := by
  have hperm : (array_elems (npc_sort g).game.npc_array).Perm (array_elems g.npc_array) := by
    rw [npc_sort_elems]; exact qsort_perm _ _
  have hsorted : (array_elems (npc_sort g).game.npc_array).Pairwise
      (fun a b => npc_compare a b ≤ 0) := by
    rw [npc_sort_elems]; exact qsort_sorted _ npc_compare_total npc_compare_trans _
  refine ⟨(npc_sort_frame g).1, (npc_sort_frame g).2.1, hperm, ?_, hsorted, ?_,
    by decide, by decide, by decide, by decide⟩
  · unfold npc_getArraySize
    rw [array_size_eq_length, array_size_eq_length, hperm.length_eq]
  · intro hnul
    have hnul2 : ∀ npc ∈ array_elems (npc_sort g).game.npc_array, 0 ∉ npc.name :=
      fun npc hm => hnul npc (hperm.mem_iff.mp hm)
    refine List.Pairwise.imp_of_mem ?_ hsorted
    intro a b ha hb hab
    exact (npc_compare_le_iff_policy a b (hnul2 a ha) (hnul2 b hb)).mp hab

theorem npc_sort_sorted_permutation_witness :
    (∀ npc ∈ array_elems example_bob_ann_ann.npc_array, 0 ∉ npc.name) ∧
    (array_elems (npc_sort example_bob_ann_ann).game.npc_array).Pairwise
      (fun a b => ordering_policy a b = true) :=
  ⟨by decide, (npc_sort_sorted_permutation example_bob_ann_ann).2.2.2.2.2.1 (by decide)⟩

theorem getElem?_append_cons_length {α : Type} (pre : List α) (x : α) (xs : List α) :
    (pre ++ x :: xs)[pre.length]? = some x := by
  induction pre with
  | nil => simp
  | cons p ps ih => simpa using ih

theorem npc_rm_parent_loop_spec (ty : NPCtype) (id : Nat) :
    ∀ (fuel : Nat) (rest pre : List NPC_t) (n : Int) (g : Game) (tr : List Call),
      g.npc_array = some (pre ++ rest) → rest.length ≤ fuel →
      npc_rm_parent_loop ty id fuel (pre.length : Int) n g tr =
        some
          { ret := n + ((rest.filter (owned_by ty id)).length : Int),
            game := { g with
              npc_array := some (pre ++ rest.filter (fun npc => !owned_by ty id npc)) },
            calls := tr ++ (rest.filter (owned_by ty id)).flatMap npc_free } := by
  intro fuel
  induction fuel with
  | zero =>
    intro rest pre n g tr hg hf
    have hr : rest = [] := List.length_eq_zero.mp (by omega)
    subst hr
    obtain ⟨l, i, arr, ms, pm, e⟩ := g
    simp only at hg
    subst hg
    simp [npc_rm_parent_loop, array_size]
  | succ fuel ih =>
    intro rest pre n g tr hg hf
    cases rest with
    | nil =>
      obtain ⟨l, i, arr, ms, pm, e⟩ := g
      simp only at hg
      subst hg
      simp [npc_rm_parent_loop, array_size]
    | cons x xs =>
      have hlt : (pre.length : Int) < array_size g.npc_array := by
        rw [hg]; simp [array_size]
      have hget : (array_elems g.npc_array)[(pre.length : Int).toNat]? = some x := by
        rw [hg]
        simp only [array_elems, Int.toNat_ofNat]
        exact getElem?_append_cons_length pre x xs
      rw [npc_rm_parent_loop]
      simp only [hlt, if_true, hget]
      by_cases hty : x.type = ty
      · by_cases hid : x.u_id = id
        · -- the element is erased and the cursor stays
          have hown : owned_by ty id x = true := by simp [owned_by, hty, hid]
          simp only [hty, hid, ne_eq, not_true_eq_false, if_false]
          have herase : (npc_rm (some (pre.length : Int).toNat) g).game =
              { g with npc_array := some (pre ++ xs) } := by
            simp [npc_rm, hg, array_elems, List.eraseIdx_append_of_length_le]
          have hcalls : (npc_rm (some (pre.length : Int).toNat) g).calls = npc_free x := by
            simp only [npc_rm, hget]
          have hcur : (pre.length : Int) - 1 + 1 = (pre.length : Int) := by omega
          rw [hcur, herase, hcalls]
          rw [ih xs pre (n + 1) _ (tr ++ npc_free x) rfl (by simpa using hf)]
          simp [List.filter_cons, hown, List.flatMap_cons]
          omega
        · have hown : owned_by ty id x = false := by simp [owned_by, hid]
          simp only [hty, hid, ne_eq, not_true_eq_false, not_false_eq_true, if_false, if_true]
          have hcur : (pre.length : Int) + 1 = ((pre ++ [x]).length : Int) := by simp
          rw [hcur, ih xs (pre ++ [x]) n g tr (by simp [hg]) (by simpa using hf)]
          simp [List.filter_cons, hown]
      · have hown : owned_by ty id x = false := by simp [owned_by, hty]
        simp only [hty, ne_eq, not_false_eq_true, if_true]
        have hcur : (pre.length : Int) + 1 = ((pre ++ [x]).length : Int) := by simp
        rw [hcur, ih xs (pre ++ [x]) n g tr (by simp [hg]) (by simpa using hf)]
        simp [List.filter_cons, hown]

theorem npc_rm_parent_spec (ty : NPCtype) (id : Nat) (g : Game) :
    npc_rm_parent_loop ty id (array_elems g.npc_array).length 0 0 g [] =
      some
        { ret := (((array_elems g.npc_array).filter (owned_by ty id)).length : Int),
          game := { g with
            npc_array := g.npc_array.map (List.filter (fun npc => !owned_by ty id npc)) },
          calls := ((array_elems g.npc_array).filter (owned_by ty id)).flatMap npc_free } := by
  obtain ⟨l, i, arr, ms, pm, e⟩ := g
  cases arr with
  | none => simp [array_elems, npc_rm_parent_loop, array_size]
  | some arr =>
    have := npc_rm_parent_loop_spec ty id arr.length arr [] 0
      { landed := l, npc_array_idgen := i, npc_array := some arr, npc_missions := ms,
        player_missions := pm, ext := e } [] rfl (Nat.le_refl _)
    simpa [array_elems] using this

/-- C4: `npc_rm_parentEvent E` returns; it leaves exactly the NPCs that are
not event NPCs of event `E`, in their previous order and unchanged, returns
the number of NPCs removed, frees each removed NPC once and then calls
`bar_regen`. So the loop, which decrements its cursor after an erase, skips
and revisits nothing. With five NPCs of event `3` and two of event `4` it
returns `5` and enumeration by index yields only the two of event `4`. -/
theorem npc_rm_parentEvent_spec (E : Nat) (g : Game) :
    npc_rm_parentEvent E g =
      some
        { ret := (((array_elems g.npc_array).filter
            (owned_by NPCtype.NPC_TYPE_EVENT E)).length : Int),
          game := { g with
            npc_array := g.npc_array.map
              (List.filter (fun npc => !owned_by NPCtype.NPC_TYPE_EVENT E npc)) },
          calls := ((array_elems g.npc_array).filter
            (owned_by NPCtype.NPC_TYPE_EVENT E)).flatMap npc_free ++ [Call.bar_regen] } ∧
    (npc_rm_parentEvent 3 example_five_and_two).map (fun o => o.ret) = some 5 ∧
    (npc_rm_parentEvent 3 example_five_and_two).map
        (fun o => (array_elems o.game.npc_array).map (fun npc => (npc.id, npc.u_id))) =
      some [(2, 4), (5, 4)] ∧
    (npc_rm_parentEvent 3 example_five_and_two).map
        (fun o => [npc_getName 0 o.game, npc_getName 1 o.game, npc_getName 2 o.game]) =
      some [some [70], some [71], none] := by
  refine ⟨?_, by decide, by decide, by decide⟩
  simp [npc_rm_parentEvent, npc_rm_parent_spec, bar_regen]

/-- C5: `npc_rm_parentMission mid` returns; it removes all and only the
mission NPCs whose owning mission is `mid` and returns their number. The NPCs
of the other types are the same afterwards, in the same order: every event
NPC, also one of an event numbered `mid`, and every giver, also one of
mission `mid`, is still in the array. -/
theorem npc_rm_parentMission_spec (mid : Nat) (g : Game) :
    npc_rm_parentMission mid g =
      some
        { ret := (((array_elems g.npc_array).filter
            (owned_by NPCtype.NPC_TYPE_MISSION mid)).length : Int),
          game := { g with
            npc_array := g.npc_array.map
              (List.filter (fun npc => !owned_by NPCtype.NPC_TYPE_MISSION mid npc)) },
          calls := ((array_elems g.npc_array).filter
            (owned_by NPCtype.NPC_TYPE_MISSION mid)).flatMap npc_free ++ [Call.bar_regen] } ∧
    ((array_elems g.npc_array).filter (fun npc => !owned_by NPCtype.NPC_TYPE_MISSION mid npc)).filter
        (fun npc => decide (npc.type ≠ NPCtype.NPC_TYPE_MISSION)) =
      (array_elems g.npc_array).filter (fun npc => decide (npc.type ≠ NPCtype.NPC_TYPE_MISSION)) ∧
    (∀ npc ∈ array_elems g.npc_array,
      (npc.type = NPCtype.NPC_TYPE_EVENT ∨ npc.type = NPCtype.NPC_TYPE_GIVER) →
      npc ∈ (array_elems g.npc_array).filter
        (fun npc => !owned_by NPCtype.NPC_TYPE_MISSION mid npc)) ∧
    (npc_rm_parentMission 7 example_shared_owner).map
        (fun o => (o.ret, (array_elems o.game.npc_array).map
          (fun npc => (npc.id, npc.type, npc.u_id)))) =
      some (1, [(2, NPCtype.NPC_TYPE_EVENT, 7), (3, NPCtype.NPC_TYPE_GIVER, 7),
        (4, NPCtype.NPC_TYPE_MISSION, 8)]) := by
  refine ⟨?_, ?_, ?_, by decide⟩
  · simp [npc_rm_parentMission, npc_rm_parent_spec, bar_regen]
  · rw [List.filter_filter]
    apply List.filter_congr
    intro npc _
    by_cases ht : npc.type = NPCtype.NPC_TYPE_MISSION <;> simp [owned_by, ht]
  · intro npc hm ht
    rw [List.mem_filter]
    refine ⟨hm, ?_⟩
    rcases ht with ht | ht <;> simp [owned_by, ht]

theorem npc_rm_parentMission_spec_witness :
    ({ id := 2, type := NPCtype.NPC_TYPE_EVENT, priority := 5, name := [66], portrait := some 1,
       background := none, desc := [100], u_id := 7, u_func := [102] } : NPC_t) ∈
      (array_elems example_shared_owner.npc_array).filter
        (fun npc => !owned_by NPCtype.NPC_TYPE_MISSION 7 npc) :=
  (npc_rm_parentMission_spec 7 example_shared_owner).2.2.1 _ (by decide) (by decide)

theorem npc_arrayGet_loop_none_iff (id : Nat) (l : List NPC_t) (i : Nat) :
    npc_arrayGet_loop id l i = none ↔ ∀ npc ∈ l, npc.id ≠ id := by
  induction l generalizing i with
  | nil => simp [npc_arrayGet_loop]
  | cons x xs ih =>
    simp only [npc_arrayGet_loop]
    by_cases hx : x.id = id
    · simp [hx]
    · simp [hx, ih]

theorem npc_arrayGet_loop_some (id : Nat) (l : List NPC_t) (i k : Nat)
    (h : npc_arrayGet_loop id l i = some k) :
    ∃ j npc, k = i + j ∧ l[j]? = some npc ∧ npc.id = id := by
  induction l generalizing i with
  | nil => simp [npc_arrayGet_loop] at h
  | cons x xs ih =>
    simp only [npc_arrayGet_loop] at h
    by_cases hx : x.id = id
    · simp only [hx, if_true, Option.some.injEq] at h
      exact ⟨0, x, by omega, by simp, hx⟩
    · simp only [hx, if_false] at h
      obtain ⟨j, npc, hk, hj, hid⟩ := ih (i + 1) h
      exact ⟨j + 1, npc, by omega, by simpa using hj, hid⟩

theorem id_not_in_eraseIdx (l : List NPC_t) (j : Nat) (npc : NPC_t)
    (hnd : (l.map NPC_t.id).Nodup) (hj : l[j]? = some npc) :
    ∀ m ∈ l.eraseIdx j, m.id ≠ npc.id := by
  induction l generalizing j with
  | nil => simp at hj
  | cons x xs ih =>
    rw [List.map_cons, List.nodup_cons] at hnd
    cases j with
    | zero =>
      simp only [List.getElem?_cons_zero, Option.some.injEq] at hj
      subst hj
      intro m hm
      simp only [List.eraseIdx_cons_zero] at hm
      intro heq
      exact hnd.1 (heq ▸ List.mem_map_of_mem NPC_t.id hm)
    | succ j =>
      simp only [List.getElem?_cons_succ] at hj
      intro m hm
      simp only [List.eraseIdx_cons_succ, List.mem_cons] at hm
      rcases hm with rfl | hm
      · intro heq
        have hmem : npc ∈ xs := by
          obtain ⟨hlt, he⟩ := List.getElem?_eq_some_iff.mp hj
          exact he ▸ List.getElem_mem hlt
        exact hnd.1 (heq ▸ List.mem_map_of_mem NPC_t.id hmem)
      · exact ih j hnd.2 hj m hm

theorem npc_rm_event_zero (id owner : Nat) (g : Game) (hz : (npc_rm_event id owner g).ret = 0) :
    ∃ k npc, (array_elems g.npc_array)[k]? = some npc ∧ npc.id = id ∧
      npc.type = NPCtype.NPC_TYPE_EVENT ∧ npc.u_id = owner ∧
      (npc_rm_event id owner g).game =
        { g with npc_array := some ((array_elems g.npc_array).eraseIdx k) } ∧
      (npc_rm_event id owner g).calls = npc_free npc := by
  unfold npc_rm_event at hz ⊢
  cases hk : npc_arrayGet id g with
  | none => simp [hk] at hz
  | some k =>
    obtain ⟨j, npc, hkj, hj, hid⟩ := npc_arrayGet_loop_some id _ 0 k hk
    have hkj2 : k = j := by omega
    subst hkj2
    simp only [hk, hj] at hz ⊢
    by_cases hty : npc.type = NPCtype.NPC_TYPE_EVENT
    · by_cases hown : npc.u_id = owner
      · refine ⟨k, npc, hj, hid, hty, hown, ?_, ?_⟩
        · simp [hty, hown, npc_rm]
        · simp [hty, hown, npc_rm, hj]
      · have hown2 : ¬ owner = npc.u_id := fun h => hown h.symm
        simp [hty, hown, hown2] at hz
    · simp [hty] at hz

theorem npc_rm_mission_zero (id owner : Nat) (g : Game) (hz : (npc_rm_mission id owner g).ret = 0) :
    ∃ k npc, (array_elems g.npc_array)[k]? = some npc ∧ npc.id = id ∧
      npc.type = NPCtype.NPC_TYPE_MISSION ∧ npc.u_id = owner ∧
      (npc_rm_mission id owner g).game =
        { g with npc_array := some ((array_elems g.npc_array).eraseIdx k) } ∧
      (npc_rm_mission id owner g).calls = npc_free npc := by
  unfold npc_rm_mission at hz ⊢
  cases hk : npc_arrayGet id g with
  | none => simp [hk] at hz
  | some k =>
    obtain ⟨j, npc, hkj, hj, hid⟩ := npc_arrayGet_loop_some id _ 0 k hk
    have hkj2 : k = j := by omega
    subst hkj2
    simp only [hk, hj] at hz ⊢
    by_cases hty : npc.type = NPCtype.NPC_TYPE_MISSION
    · by_cases hown : npc.u_id = owner
      · refine ⟨k, npc, hj, hid, hty, hown, ?_, ?_⟩
        · simp [hty, hown, npc_rm]
        · simp [hty, hown, npc_rm, hj]
      · have hown2 : ¬ owner = npc.u_id := fun h => hown h.symm
        simp [hty, hown, hown2] at hz
    · simp [hty] at hz

theorem npc_getArraySize_eraseIdx (g : Game) (k : Nat)
    (hk : k < (array_elems g.npc_array).length) :
    npc_getArraySize { g with npc_array := some ((array_elems g.npc_array).eraseIdx k) } =
      npc_getArraySize g - 1 := by
  unfold npc_getArraySize
  rw [array_size_eq_length, array_size_eq_length]
  have h1 : array_elems (some ((array_elems g.npc_array).eraseIdx k)) =
      (array_elems g.npc_array).eraseIdx k := rfl
  simp only [h1, List.length_eraseIdx, hk, if_true]
  omega

theorem npc_arrayGet_after_erase (id : Nat) (g : Game) (k : Nat) (npc : NPC_t)
    (hnd : ((array_elems g.npc_array).map NPC_t.id).Nodup)
    (hk : (array_elems g.npc_array)[k]? = some npc) (hid : npc.id = id) :
    npc_arrayGet id { g with npc_array := some ((array_elems g.npc_array).eraseIdx k) } = none := by
  unfold npc_arrayGet
  rw [npc_arrayGet_loop_none_iff]
  intro m hm
  simp only [array_elems] at hm
  exact hid ▸ id_not_in_eraseIdx _ k npc hnd hk m hm

/-- C7, amended: in a registry whose identities are pairwise distinct, when
`npc_rm_event id evt` returns `0`, the same call repeated at once returns
`-1`, makes no call (frees nothing) and leaves the game as the first call
left it, one NPC shorter than at the start; likewise `npc_rm_mission`. -/
theorem npc_rm_twice (g : Game) (id owner : Nat)
    (hnd : ((array_elems g.npc_array).map NPC_t.id).Nodup) :
    ((npc_rm_event id owner g).ret = 0 →
      (npc_rm_event id owner (npc_rm_event id owner g).game).ret = -1 ∧
      (npc_rm_event id owner (npc_rm_event id owner g).game).calls = [] ∧
      (npc_rm_event id owner (npc_rm_event id owner g).game).game =
        (npc_rm_event id owner g).game ∧
      npc_getArraySize (npc_rm_event id owner g).game = npc_getArraySize g - 1) ∧
    ((npc_rm_mission id owner g).ret = 0 →
      (npc_rm_mission id owner (npc_rm_mission id owner g).game).ret = -1 ∧
      (npc_rm_mission id owner (npc_rm_mission id owner g).game).calls = [] ∧
      (npc_rm_mission id owner (npc_rm_mission id owner g).game).game =
        (npc_rm_mission id owner g).game ∧
      npc_getArraySize (npc_rm_mission id owner g).game = npc_getArraySize g - 1) := by
  constructor
  · intro hz
    obtain ⟨k, npc, hk, hid, _, _, hgame, _⟩ :=
      npc_rm_event_zero id owner g hz
    have hnone := npc_arrayGet_after_erase id g k npc hnd hk hid
    have hlen := (List.getElem?_eq_some_iff.mp hk).1
    rw [hgame]
    refine ⟨by simp [npc_rm_event, hnone], by simp [npc_rm_event, hnone],
      by simp [npc_rm_event, hnone], ?_⟩
    exact npc_getArraySize_eraseIdx g k hlen
  · intro hz
    obtain ⟨k, npc, hk, hid, _, _, hgame, _⟩ :=
      npc_rm_mission_zero id owner g hz
    have hnone := npc_arrayGet_after_erase id g k npc hnd hk hid
    have hlen := (List.getElem?_eq_some_iff.mp hk).1
    rw [hgame]
    refine ⟨by simp [npc_rm_mission, hnone], by simp [npc_rm_mission, hnone],
      by simp [npc_rm_mission, hnone], ?_⟩
    exact npc_getArraySize_eraseIdx g k hlen

theorem npc_rm_twice_witness :
    ((array_elems example_shared_owner.npc_array).map NPC_t.id).Nodup ∧
    (npc_rm_event 2 7 example_shared_owner).ret = 0 ∧
    (npc_rm_event 2 7 (npc_rm_event 2 7 example_shared_owner).game).ret = -1 ∧
    (npc_rm_mission 4 8 example_shared_owner).ret = 0 ∧
    (npc_rm_mission 4 8 (npc_rm_mission 4 8 example_shared_owner).game).ret = -1 :=
  ⟨by decide, by decide,
   ((npc_rm_twice example_shared_owner 2 7 (by decide)).1 (by decide)).1,
   by decide,
   ((npc_rm_twice example_shared_owner 4 8 (by decide)).2 (by decide)).1⟩

theorem npc_free_no_collab (npc : NPC_t) : (npc_free npc).filter Call.isCollab = [] := by
  unfold npc_free
  cases hb : npc.background <;> cases ht : npc.type <;> simp [Call.isCollab]

theorem filter_id_of_not_mem (id : Nat) (l : List NPC_t) (h : ∀ m ∈ l, m.id ≠ id) :
    l.filter (fun m => decide (m.id ≠ id)) = l := by
  rw [List.filter_eq_self]
  intro m hm
  simpa using h m hm

theorem eraseIdx_arrayGet_eq_filter (id : Nat) (l : List NPC_t) (i k : Nat)
    (hnd : (l.map NPC_t.id).Nodup) (h : npc_arrayGet_loop id l i = some k) :
    l.eraseIdx (k - i) = l.filter (fun m => decide (m.id ≠ id)) := by
  induction l generalizing i with
  | nil => simp [npc_arrayGet_loop] at h
  | cons x xs ih =>
    rw [List.map_cons, List.nodup_cons] at hnd
    simp only [npc_arrayGet_loop] at h
    by_cases hx : x.id = id
    · simp only [hx, if_true, Option.some.injEq] at h
      subst h
      have hxs : ∀ m ∈ xs, m.id ≠ id := by
        intro m hm heq
        exact hnd.1 (by rw [hx, ← heq]; exact List.mem_map_of_mem NPC_t.id hm)
      have hf := filter_id_of_not_mem id xs hxs
      simpa [List.filter_cons, hx] using hf.symm
    · simp only [hx, if_false] at h
      obtain ⟨j, _, hk, _, _⟩ := npc_arrayGet_loop_some id xs (i + 1) k h
      have hki : k - i = (k - (i + 1)) + 1 := by omega
      rw [hki, List.eraseIdx_cons_succ, ih (i + 1) hnd.2 h]
      simp [List.filter_cons, hx]

theorem npc_rm_arrayGet_elems (id : Nat) (g : Game)
    (hnd : ((array_elems g.npc_array).map NPC_t.id).Nodup) :
    array_elems (npc_rm (npc_arrayGet id g) g).game.npc_array =
      (array_elems g.npc_array).filter (fun m => decide (m.id ≠ id)) := by
  cases hk : npc_arrayGet id g with
  | none =>
    have := (npc_arrayGet_loop_none_iff id _ 0).mp hk
    simp only [npc_rm]
    exact (filter_id_of_not_mem id _ this).symm
  | some k =>
    have := eraseIdx_arrayGet_eq_filter id _ 0 k hnd hk
    simp only [npc_rm, array_elems] at this ⊢
    simpa using this

theorem npc_rm_frame (p : Option Nat) (g : Game) :
    (npc_rm p g).game = { g with npc_array := (npc_rm p g).game.npc_array } ∧
    (npc_rm p g).calls.filter Call.isCollab = [] := by
  cases p with
  | none => simp [npc_rm]
  | some k =>
    simp only [npc_rm]
    refine ⟨trivial, ?_⟩
    cases hk : (array_elems g.npc_array)[k]? with
    | none => simp
    | some npc => simpa using npc_free_no_collab npc

/-- C6, amended: approaching a giver whose mission is found calls `mission_accept`
once. When the outcome is `3`, `2` or `-1` the result is `1`, `mission_cleanup`
is called next exactly when the outcome is `-1`, and then the NPC with the
identity of the giver is removed from the game these calls left: nothing but
`npc_array` differs from that game and, its identities being pairwise
distinct, the array holds exactly its NPCs of another identity, in order. For
every other outcome the result is `0` and the game is the one `mission_accept`
left, so the giver is still at its index if the script kept the array. -/
theorem npc_approach_giver_spec (h : Collab) (i : Int) (g : Game) (npc : NPC_t) (misn : MisnRef)
    (h0 : 0 ≤ i) (hn : (array_elems g.npc_array)[i.toNat]? = some npc)
    (hty : npc.type = NPCtype.NPC_TYPE_GIVER) (hm : npc_getMisn npc g = some misn) :
    ∃ o, npc_approach h i g = some o ∧
      (((h.mission_accept misn g).1 = 3 ∨ (h.mission_accept misn g).1 = 2 ∨
          (h.mission_accept misn g).1 = -1) →
        o.ret = 1 ∧
        o.calls.filter Call.isCollab =
          Call.mission_accept misn ::
            (if (h.mission_accept misn g).1 = -1 then [Call.mission_cleanup misn] else []) ∧
        o.game =
          { (if (h.mission_accept misn g).1 = -1
              then h.mission_cleanup misn (h.mission_accept misn g).2
              else (h.mission_accept misn g).2) with npc_array := o.game.npc_array } ∧
        (((array_elems (if (h.mission_accept misn g).1 = -1
              then h.mission_cleanup misn (h.mission_accept misn g).2
              else (h.mission_accept misn g).2).npc_array).map NPC_t.id).Nodup →
          array_elems o.game.npc_array =
            (array_elems (if (h.mission_accept misn g).1 = -1
              then h.mission_cleanup misn (h.mission_accept misn g).2
              else (h.mission_accept misn g).2).npc_array).filter
              (fun m => decide (m.id ≠ npc.id)))) ∧
      (¬ ((h.mission_accept misn g).1 = 3 ∨ (h.mission_accept misn g).1 = 2 ∨
          (h.mission_accept misn g).1 = -1) →
        o.ret = 0 ∧ o.calls = [Call.mission_accept misn] ∧
        o.game = (h.mission_accept misn g).2 ∧
        ((h.mission_accept misn g).2.npc_array = g.npc_array →
          (array_elems o.game.npc_array)[i.toNat]? = some npc)) := by
  have hb := inBounds_of_getElem? i g npc h0 hn
  unfold npc_getArraySize at hb
  refine ⟨npc_approach_giver h npc g, ?_, ?_, ?_⟩
  · simp only [npc_approach, hb, if_false, hn, hty]
  · intro hacc
    simp only [npc_approach_giver, hm, hacc, if_true]
    refine ⟨trivial, ?_, (npc_rm_frame _ _).1, ?_⟩
    · simp only [List.filter_append, (npc_rm_frame _ _).2, List.append_nil]
      by_cases hneg : (h.mission_accept misn g).1 = -1 <;> simp [hneg, Call.isCollab]
    · intro hnd
      exact npc_rm_arrayGet_elems npc.id _ hnd
  · intro hacc
    simp only [npc_approach_giver, hm, hacc, if_false]
    refine ⟨trivial, trivial, trivial, ?_⟩
    intro harr
    rw [harr]; exact hn

theorem npc_approach_giver_spec_witness :
    (0 : Int) ≤ 1 ∧
    (∃ o, npc_approach Collab.scripted 1 (example_giver 0) = some o ∧ o.ret = 1 ∧
      o.calls.filter Call.isCollab =
        [Call.mission_accept (MisnRef.npc 0), Call.mission_cleanup (MisnRef.npc 0)] ∧
      (array_elems o.game.npc_array).map NPC_t.id = [3]) ∧
    (∃ o, npc_approach Collab.scripted 1 (example_giver 4) = some o ∧ o.ret = 1 ∧
      o.calls.filter Call.isCollab = [Call.mission_accept (MisnRef.npc 0)] ∧
      (array_elems o.game.npc_array).map NPC_t.id = [3]) ∧
    (∃ o, npc_approach Collab.scripted 1 (example_giver 1) = some o ∧ o.ret = 0 ∧
      (array_elems o.game.npc_array).map NPC_t.id = [2, 3]) := by
  refine ⟨by decide, ?_, ?_, ?_⟩
  · obtain ⟨o, ho, h1, _⟩ := npc_approach_giver_spec Collab.scripted 1 (example_giver 0)
      { id := 2, type := NPCtype.NPC_TYPE_GIVER, priority := 5, name := [67], portrait := some 2,
        background := none, desc := [100], u_id := 7, u_func := [97, 99, 99, 101, 112, 116] }
      (MisnRef.npc 0) (by decide) (by decide) (by decide) (by decide)
    obtain ⟨hr, hc, _, he⟩ := h1 (by decide)
    exact ⟨o, ho, hr, hc, by rw [he (by decide)]; decide⟩
  · obtain ⟨o, ho, h1, _⟩ := npc_approach_giver_spec Collab.scripted 1 (example_giver 4)
      { id := 2, type := NPCtype.NPC_TYPE_GIVER, priority := 5, name := [67], portrait := some 2,
        background := none, desc := [100], u_id := 7, u_func := [97, 99, 99, 101, 112, 116] }
      (MisnRef.npc 0) (by decide) (by decide) (by decide) (by decide)
    obtain ⟨hr, hc, _, he⟩ := h1 (by decide)
    exact ⟨o, ho, hr, hc, by rw [he (by decide)]; decide⟩
  · obtain ⟨o, ho, _, h2⟩ := npc_approach_giver_spec Collab.scripted 1 (example_giver 1)
      { id := 2, type := NPCtype.NPC_TYPE_GIVER, priority := 5, name := [67], portrait := some 2,
        background := none, desc := [100], u_id := 7, u_func := [97, 99, 99, 101, 112, 116] }
      (MisnRef.npc 0) (by decide) (by decide) (by decide) (by decide)
    obtain ⟨hr, _, hg, _⟩ := h2 (by decide)
    exact ⟨o, ho, hr, by rw [hg]; decide⟩

theorem npc_clear_search_le (id : Nat) (l : List Mission) (j : Nat) :
    npc_clear_search id l j ≤ j + l.length := by
  induction l generalizing j with
  | nil => simp [npc_clear_search]
  | cons m ms ih =>
    simp only [npc_clear_search, List.length_cons]
    split_ifs
    · omega
    · have := ih (j + 1); omega

theorem npc_clear_search_ge_iff (id : Nat) (l : List Mission) (j : Nat) :
    npc_clear_search id l j ≥ j + l.length ↔ id ∉ l.map Mission.id := by
  induction l generalizing j with
  | nil => simp [npc_clear_search]
  | cons m ms ih =>
    simp only [npc_clear_search, List.length_cons, List.map_cons, List.mem_cons, not_or]
    by_cases hm : m.id = id
    · simp only [hm, if_true, not_true_eq_false, false_and, iff_false]
      omega
    · have hm2 : ¬ id = m.id := fun h => hm h.symm
      simp only [hm, if_false, hm2, not_false_eq_true, true_and]
      rw [← ih (j + 1)]
      omega

theorem npc_clear_loop_spec (h : Collab) (hc : h.cleanupLocal) (pending : List Mission) :
    ∀ (fuel i : Nat) (g : Game) (tr : List Call),
      g.npc_array = none →
      (array_elems g.npc_missions).length = pending.length →
      (∀ k, i ≤ k → (array_elems g.npc_missions)[k]? = pending[k]?) →
      pending.length - i ≤ fuel →
      ∃ g', npc_clear_loop h fuel i g tr =
          some (g', tr ++ ((List.range' i (pending.length - i)).filter
            (not_promoted g.player_missions pending)).map
              (fun k => Call.mission_cleanup (MisnRef.npc k))) ∧
        g'.npc_array = none ∧ g'.npc_array_idgen = g.npc_array_idgen ∧
        g'.player_missions = g.player_missions := by
  intro fuel
  induction fuel with
  | zero =>
    intro i g tr _ hl _ hf
    have hge : ¬ ((i : Int) < array_size g.npc_missions) := by
      rw [array_size_eq_length, hl]; omega
    have hz : pending.length - i = 0 := by omega
    exact ⟨g, by simp [npc_clear_loop, hge, hz], by assumption, rfl, rfl⟩
  | succ fuel ih =>
    intro i g tr hn hl hk hf
    by_cases hi : i < pending.length
    · have hlt : (i : Int) < array_size g.npc_missions := by
        rw [array_size_eq_length, hl]; omega
      have hget : (array_elems g.npc_missions)[i]? = some pending[i] := by
        rw [hk i (Nat.le_refl _)]; exact List.getElem?_eq_getElem hi
      have hpend : pending[i]? = some pending[i] := List.getElem?_eq_getElem hi
      have hrange : List.range' i (pending.length - i) =
          i :: List.range' (i + 1) (pending.length - (i + 1)) := by
        have : pending.length - i = (pending.length - (i + 1)) + 1 := by omega
        rw [this, List.range'_succ]
      rw [npc_clear_loop]
      simp only [hlt, if_true, hget]
      have hsearch := npc_clear_search_ge_iff pending[i].id g.player_missions 0
      simp only [Nat.zero_add] at hsearch
      by_cases hs : npc_clear_search pending[i].id g.player_missions 0 ≥ g.player_missions.length
      · have hnp : not_promoted g.player_missions pending i = true := by
          simp only [not_promoted, hpend, decide_eq_true_eq]
          exact hsearch.mp hs
        obtain ⟨c1, c2, c3, c4, c5⟩ := hc i g
        obtain ⟨g', hloop, r1, r2, r3⟩ := ih (i + 1) (h.mission_cleanup (MisnRef.npc i) g)
          (tr ++ [Call.mission_cleanup (MisnRef.npc i)]) (c2 hn) (by rw [c4, hl])
          (fun k hk2 => by rw [c5 k (by omega)]; exact hk k (by omega)) (by omega)
        refine ⟨g', ?_, r1, by rw [r2, c1], by rw [r3, c3]⟩
        simp only [hs, if_true, hloop, c3, hrange, List.filter_cons, hnp, List.map_cons,
          List.append_assoc, List.singleton_append]
      · have hnp : not_promoted g.player_missions pending i = false := by
          simp only [not_promoted, hpend, decide_eq_false_iff_not]
          exact fun hcon => hs (hsearch.mpr hcon)
        obtain ⟨g', hloop, r1, r2, r3⟩ := ih (i + 1) g tr hn hl
          (fun k hk2 => hk k (by omega)) (by omega)
        refine ⟨g', ?_, r1, r2, r3⟩
        simp only [hs, if_false, hloop, hrange, List.filter_cons, hnp]
        simp
    · have hge : ¬ ((i : Int) < array_size g.npc_missions) := by
        rw [array_size_eq_length, hl]; omega
      have hz : pending.length - i = 0 := by omega
      exact ⟨g, by simp [npc_clear_loop, hge, hz], hn, rfl, rfl⟩


theorem npc_free_not_collab (npc : NPC_t) (c : Call) (hc : c ∈ npc_free npc) :
    Call.isCollab c = false := by
  have := List.filter_eq_nil_iff.mp (npc_free_no_collab npc) c hc
  simpa using this

theorem npc_clear_eq (h : Collab) (hc : h.cleanupLocal) (g : Game) :
    ∃ g' : Game, npc_clear h g = some
        { ret := (), game := { g' with npc_missions := none },
          calls := (array_elems g.npc_array).flatMap npc_free ++
            ((List.range (array_elems g.npc_missions).length).filter
              (not_promoted g.player_missions (array_elems g.npc_missions))).map
                (fun k => Call.mission_cleanup (MisnRef.npc k)) } ∧
      g'.npc_array = none ∧ g'.npc_array_idgen = g.npc_array_idgen := by
  obtain ⟨g', hloop, r1, r2, _⟩ := npc_clear_loop_spec h hc (array_elems g.npc_missions)
    (array_elems g.npc_missions).length 0 { g with npc_array := none }
    ((array_elems g.npc_array).flatMap npc_free) rfl rfl (fun _ _ => rfl) (by omega)
  simp only [Nat.sub_zero] at hloop
  rw [← List.range_eq_range'] at hloop
  exact ⟨g', by simp only [npc_clear, hloop], r1, r2⟩

/-- C8: with a `mission_cleanup` that keeps to the pending record it is
called on, `npc_clear` returns; afterwards `npc_array` and `npc_missions`
are `NULL`, so the registry size is `0` and the pending list is empty; the
calls made are the frees of the NPCs followed by one `mission_cleanup` for
each pending record whose identity is not in `player_missions`, in order:
each such record is cleaned up exactly once and a record whose identity is
in `player_missions` not at all. The identity generator is not reset. -/
theorem npc_clear_spec (h : Collab) (hc : h.cleanupLocal) (g : Game) :
    ∃ o, npc_clear h g = some o ∧
      npc_getArraySize o.game = 0 ∧ o.game.npc_array = none ∧ o.game.npc_missions = none ∧
      o.game.npc_array_idgen = g.npc_array_idgen ∧
      o.calls = (array_elems g.npc_array).flatMap npc_free ++
        ((List.range (array_elems g.npc_missions).length).filter
          (not_promoted g.player_missions (array_elems g.npc_missions))).map
            (fun k => Call.mission_cleanup (MisnRef.npc k)) ∧
      ∀ k m, (array_elems g.npc_missions)[k]? = some m →
        o.calls.count (Call.mission_cleanup (MisnRef.npc k)) =
          if m.id ∈ g.player_missions.map Mission.id then 0 else 1 := by
  obtain ⟨g', ho, r1, r2⟩ := npc_clear_eq h hc g
  refine ⟨_, ho, ?_, r1, rfl, r2, rfl, ?_⟩
  · simp only [npc_getArraySize, r1, array_size]
  · intro k m hk
    have hlt := (List.getElem?_eq_some_iff.mp hk).1
    have hfree : List.count (Call.mission_cleanup (MisnRef.npc k))
        ((array_elems g.npc_array).flatMap npc_free) = 0 := by
      rw [List.count_eq_zero]
      intro hmem
      obtain ⟨npc, _, hin⟩ := List.mem_flatMap.mp hmem
      have := npc_free_not_collab npc _ hin
      simp [Call.isCollab] at this
    have hinj : Function.Injective (fun k => Call.mission_cleanup (MisnRef.npc k)) := by
      intro a b hab
      simpa using hab
    have hnd : (((List.range (array_elems g.npc_missions).length).filter
        (not_promoted g.player_missions (array_elems g.npc_missions))).map
          (fun k => Call.mission_cleanup (MisnRef.npc k))).Nodup :=
      ((List.nodup_range _).filter _).map hinj
    rw [List.count_append, hfree, Nat.zero_add, List.count_eq_of_nodup hnd]
    have hmem : Call.mission_cleanup (MisnRef.npc k) ∈
        ((List.range (array_elems g.npc_missions).length).filter
          (not_promoted g.player_missions (array_elems g.npc_missions))).map
            (fun k => Call.mission_cleanup (MisnRef.npc k)) ↔
        m.id ∉ g.player_missions.map Mission.id := by
      rw [List.mem_map]
      constructor
      · rintro ⟨k2, hk2, heq⟩
        have hkk : k2 = k := by simpa using heq
        subst hkk
        have := (List.mem_filter.mp hk2).2
        simpa [not_promoted, hk] using this
      · intro hnot
        refine ⟨k, List.mem_filter.mpr ⟨List.mem_range.mpr hlt, ?_⟩, rfl⟩
        simpa [not_promoted, hk] using hnot
    by_cases hin : m.id ∈ g.player_missions.map Mission.id
    · simp only [hin, if_true]
      rw [if_neg]
      exact fun hcon => (hmem.mp hcon) hin
    · simp only [hin, if_false]
      rw [if_pos]
      exact hmem.mpr hin

theorem Collab.zeroing_cleanupLocal : Collab.zeroing.cleanupLocal := by
  intro j g
  obtain ⟨l, i, arr, ms, pm, e⟩ := g
  cases ms with
  | none => simp [Collab.zeroing, array_elems]
  | some ms =>
    simp only [Collab.zeroing, array_elems, Option.map_some', List.length_modify, true_and]
    refine ⟨fun hn => hn, ?_⟩
    intro k hk
    rw [List.getElem?_modify]
    have hjk : ¬ j = k := fun hh => hk hh.symm
    simp [hjk]

theorem npc_clear_spec_witness :
    Collab.zeroing.cleanupLocal ∧
    ∃ o, npc_clear Collab.zeroing example_teardown = some o ∧
      npc_getArraySize o.game = 0 ∧ o.game.npc_missions = none ∧
      o.calls.filter Call.isCollab =
        [Call.mission_cleanup (MisnRef.npc 0), Call.mission_cleanup (MisnRef.npc 2)] := by
  refine ⟨Collab.zeroing_cleanupLocal, ?_⟩
  obtain ⟨o, ho, h1, _, h3, _, h5, _⟩ :=
    npc_clear_spec Collab.zeroing Collab.zeroing_cleanupLocal example_teardown
  exact ⟨o, ho, h1, h3, by rw [h5]; decide⟩

theorem npc_add_landed (npc : NPC_t) (g : Game) (hl : g.landed = true) :
    npc_add npc g =
      { ret := (g.npc_array_idgen + 1) % UINT_MOD,
        game := { g with
          npc_array := some (array_elems g.npc_array ++
            [{ npc with id := (g.npc_array_idgen + 1) % UINT_MOD }]),
          npc_array_idgen := (g.npc_array_idgen + 1) % UINT_MOD },
        calls := [] } := by
  simp [npc_add, hl]

theorem npc_add_not_landed (npc : NPC_t) (g : Game) (hl : g.landed = false) :
    npc_add npc g = { ret := 0, game := g, calls := npc_free npc } := by
  simp [npc_add, hl]

theorem npc_add_created (npc : NPC_t) (g : Game) :
    ((created g (npc_add npc g)).2 = [] ∧
      (created g (npc_add npc g)).1.npc_array_idgen = g.npc_array_idgen) ∨
    ((created g (npc_add npc g)).2 = [(g.npc_array_idgen + 1) % UINT_MOD] ∧
      (created g (npc_add npc g)).1.npc_array_idgen = (g.npc_array_idgen + 1) % UINT_MOD) := by
  cases hl : g.landed with
  | false =>
    left
    rw [npc_add_not_landed npc g hl]
    simp [created]
  | true =>
    right
    rw [npc_add_landed npc g hl]
    have hsz : array_size (some (array_elems g.npc_array ++ [{ npc with
        id := (g.npc_array_idgen + 1) % UINT_MOD }])) = array_size g.npc_array + 1 := by
      rw [array_size_eq_length, array_size_eq_length]
      simp [array_elems]
    simp only [created, hsz, if_true, and_self]

theorem npc_add_giver_created (h : Collab) (misn : Mission) (g : Game) :
    ((created g (npc_add_giver h misn g)).2 = [] ∧
      (created g (npc_add_giver h misn g)).1.npc_array_idgen = g.npc_array_idgen) ∨
    ((created g (npc_add_giver h misn g)).2 = [(g.npc_array_idgen + 1) % UINT_MOD] ∧
      (created g (npc_add_giver h misn g)).1.npc_array_idgen =
        (g.npc_array_idgen + 1) % UINT_MOD) := by
  unfold npc_add_giver
  cases h1 : misn.npc with
  | none => left; simp [created]
  | some name =>
    cases h2 : misn.portrait with
    | none => left; simp [created]
    | some portrait =>
      cases h3 : misn.npc_desc with
      | none => left; simp [created]
      | some desc => exact npc_add_created _ g

theorem npc_rm_idgen (p : Option Nat) (g : Game) :
    (npc_rm p g).game.npc_array_idgen = g.npc_array_idgen := by
  cases p <;> rfl

theorem npc_rm_event_idgen (id evt : Nat) (g : Game) :
    (npc_rm_event id evt g).game.npc_array_idgen = g.npc_array_idgen := by
  unfold npc_rm_event
  split
  · rfl
  · split
    · rfl
    · split_ifs <;> rfl

theorem npc_rm_mission_idgen (id mid : Nat) (g : Game) :
    (npc_rm_mission id mid g).game.npc_array_idgen = g.npc_array_idgen := by
  unfold npc_rm_mission
  split
  · rfl
  · split
    · rfl
    · split_ifs <;> rfl

theorem npc_sort_idgen (g : Game) : (npc_sort g).game.npc_array_idgen = g.npc_array_idgen := by
  rw [(npc_sort_frame g).1]

theorem step_shape (h : Collab) (hc : h.cleanupLocal) (op : Op) (g : Game) :
    ∃ r, step h op g = some r ∧
      ((r.2 = [] ∧ r.1.npc_array_idgen = g.npc_array_idgen) ∨
       (op.isCreation = true ∧ r.2 = [(g.npc_array_idgen + 1) % UINT_MOD] ∧
         r.1.npc_array_idgen = (g.npc_array_idgen + 1) % UINT_MOD)) := by
  cases op with
  | add_mission mid func name priority portrait desc background =>
    refine ⟨_, rfl, ?_⟩
    rcases npc_add_created _ g with hA | hB
    · exact Or.inl hA
    · exact Or.inr ⟨rfl, hB⟩
  | add_event evt func name priority portrait desc background =>
    refine ⟨_, rfl, ?_⟩
    rcases npc_add_created _ g with hA | hB
    · exact Or.inl hA
    · exact Or.inr ⟨rfl, hB⟩
  | add_giver misn =>
    refine ⟨_, rfl, ?_⟩
    rcases npc_add_giver_created h misn g with hA | hB
    · exact Or.inl hA
    · exact Or.inr ⟨rfl, hB⟩
  | rm_event id evt => exact ⟨_, rfl, Or.inl ⟨rfl, npc_rm_event_idgen id evt g⟩⟩
  | rm_mission id mid => exact ⟨_, rfl, Or.inl ⟨rfl, npc_rm_mission_idgen id mid g⟩⟩
  | rm_parentEvent id =>
    simp only [step, npc_rm_parentEvent, npc_rm_parent_spec, bar_regen, Option.map_some']
    exact ⟨_, rfl, Or.inl ⟨rfl, rfl⟩⟩
  | rm_parentMission mid =>
    simp only [step, npc_rm_parentMission, npc_rm_parent_spec, bar_regen, Option.map_some']
    exact ⟨_, rfl, Or.inl ⟨rfl, rfl⟩⟩
  | sort => exact ⟨_, rfl, Or.inl ⟨rfl, npc_sort_idgen g⟩⟩
  | clear =>
    obtain ⟨g', ho, _, r2⟩ := npc_clear_eq h hc g
    simp only [step, ho, Option.map_some']
    exact ⟨_, rfl, Or.inl ⟨rfl, r2⟩⟩
  | set_landed b => exact ⟨_, rfl, Or.inl ⟨rfl, rfl⟩⟩

theorem creations_cons (op : Op) (ops : List Op) :
    creations (op :: ops) = (if op.isCreation = true then 1 else 0) + creations ops := by
  unfold creations
  by_cases hop : op.isCreation = true
  · simp [List.filter_cons, hop]; omega
  · simp [List.filter_cons, hop]

theorem run_ids (h : Collab) (hc : h.cleanupLocal) (ops : List Op) :
    ∀ g : Game, g.npc_array_idgen + creations ops < UINT_MOD →
      ∃ r, run h ops g = some r ∧ r.2.Pairwise (fun a b => a < b) ∧
        (∀ id ∈ r.2, g.npc_array_idgen < id) ∧
        r.1.npc_array_idgen = g.npc_array_idgen + r.2.length := by
  induction ops with
  | nil =>
    intro g _
    exact ⟨(g, []), rfl, List.Pairwise.nil, by simp, by simp⟩
  | cons op ops ih =>
    intro g hw
    rw [creations_cons] at hw
    obtain ⟨r, hr, hshape⟩ := step_shape h hc op g
    rcases hshape with ⟨hids, hgen⟩ | ⟨hcre, hids, hgen⟩
    · obtain ⟨r2, hr2, hp, hgt, hlen⟩ := ih r.1 (by rw [hgen]; omega)
      refine ⟨(r2.1, r.2 ++ r2.2), by simp only [run, hr, hr2], ?_, ?_, ?_⟩
      · simpa [hids] using hp
      · intro id hid
        simp only [hids, List.nil_append] at hid
        have := hgt id hid
        omega
      · simp only [hids, List.nil_append]
        omega
    · simp only [hcre, if_true] at hw
      have hmod : (g.npc_array_idgen + 1) % UINT_MOD = g.npc_array_idgen + 1 :=
        Nat.mod_eq_of_lt (by omega)
      rw [hmod] at hids hgen
      obtain ⟨r2, hr2, hp, hgt, hlen⟩ := ih r.1 (by rw [hgen]; omega)
      refine ⟨(r2.1, r.2 ++ r2.2), by simp only [run, hr, hr2], ?_, ?_, ?_⟩
      · simp only [hids, List.singleton_append, List.pairwise_cons]
        refine ⟨?_, hp⟩
        intro id hid
        have := hgt id hid
        omega
      · intro id hid
        simp only [hids, List.singleton_append, List.mem_cons] at hid
        rcases hid with rfl | hid
        · omega
        · have := hgt id hid
          omega
      · simp only [hids, List.singleton_append, List.length_cons]
        omega

/-- C1, amended: as long as the identity generator does not pass
`2 ^ 32 - 1` (the generator plus the number of creations in the session stays
below `2 ^ 32`) and `mission_cleanup` keeps to its record, every session of
creations, removals, sorts and clears returns; the identities returned by the
creations that registered an NPC are strictly increasing in creation order,
hence pairwise distinct, each above the generator at the start, hence not the
failure sentinel `0`; the generator ends at its start value plus the number of
such creations, so no operation, `npc_clear` included, resets it. -/
theorem npc_identities_increasing (h : Collab) (hc : h.cleanupLocal) (ops : List Op) (g : Game)
    (hw : g.npc_array_idgen + creations ops < UINT_MOD) :
    ∃ r, run h ops g = some r ∧ r.2.Pairwise (fun a b => a < b) ∧ r.2.Nodup ∧
      (∀ id ∈ r.2, id ≠ 0 ∧ g.npc_array_idgen < id) ∧
      r.1.npc_array_idgen = g.npc_array_idgen + r.2.length := by
  obtain ⟨r, hr, hp, hgt, hlen⟩ := run_ids h hc ops g hw
  refine ⟨r, hr, hp, ?_, ?_, hlen⟩
  · exact hp.imp (fun hab => Nat.ne_of_lt hab)
  · intro id hid
    have := hgt id hid
    exact ⟨by omega, this⟩

theorem npc_identities_increasing_witness :
    Collab.zeroing.cleanupLocal ∧
    Game.init.npc_array_idgen + creations example_session < UINT_MOD ∧
    run Collab.zeroing example_session Game.init =
      some ((npc_add_mission 7 [102] [65] 1 (some 1) [100] none
        { Game.init with npc_array := some [], npc_array_idgen := 3 }).game, [1, 2, 3, 4]) ∧
    ∃ r, run Collab.zeroing example_session Game.init = some r ∧
      r.2.Pairwise (fun a b => a < b) ∧ r.2.Nodup ∧
      (∀ id ∈ r.2, id ≠ 0 ∧ Game.init.npc_array_idgen < id) ∧
      r.1.npc_array_idgen = Game.init.npc_array_idgen + r.2.length :=
  ⟨Collab.zeroing_cleanupLocal, by decide, by decide,
   npc_identities_increasing Collab.zeroing Collab.zeroing_cleanupLocal example_session Game.init
     (by decide)⟩

theorem run_append (h : Collab) (a b : List Op) (g : Game) (ra rb : Game × List Nat)
    (ha : run h a g = some ra) (hb : run h b ra.1 = some rb) :
    run h (a ++ b) g = some (rb.1, ra.2 ++ rb.2) := by
  induction a generalizing g ra with
  | nil =>
    simp only [run, Option.some.injEq] at ha
    subst ha
    simp [hb]
  | cons op ops ih =>
    simp only [run] at ha
    cases hs : step h op g with
    | none => simp [hs] at ha
    | some r =>
      simp only [hs] at ha
      cases hr : run h ops r.1 with
      | none => simp [hr] at ha
      | some r2 =>
        simp only [hr, Option.some.injEq] at ha
        subst ha
        have := ih r.1 r2 hr hb
        show run h (op :: (ops ++ b)) g = _
        simp only [run, hs, this, List.append_assoc]

theorem step_rm_parentEvent (h : Collab) (id : Nat) (g : Game) :
    step h (Op.rm_parentEvent id) g =
      some ({ g with npc_array := g.npc_array.map (List.filter
        (fun npc => !owned_by NPCtype.NPC_TYPE_EVENT id npc)) }, []) := by
  simp only [step, npc_rm_parentEvent, npc_rm_parent_spec, bar_regen, Option.map_some']

theorem wrap_cycle_run (h : Collab) (g : Game) (hl : g.landed = true)
    (he : array_elems g.npc_array = []) (hw : g.npc_array_idgen + 1 < UINT_MOD) :
    run h wrap_cycle g =
      some ({ g with npc_array := some [], npc_array_idgen := g.npc_array_idgen + 1 },
        [g.npc_array_idgen + 1]) := by
  have hmod : (g.npc_array_idgen + 1) % UINT_MOD = g.npc_array_idgen + 1 :=
    Nat.mod_eq_of_lt hw
  have hsz : array_size g.npc_array = 0 := by rw [array_size_eq_length, he]; rfl
  have hstep1 : step h (Op.add_event 3 [102] [65] 5 (some 1) [100] none) g =
      some ({ g with
        npc_array := some [NPC_t.mk (g.npc_array_idgen + 1) NPCtype.NPC_TYPE_EVENT 5 [65]
          (some 1) none [100] 3 [102]],
        npc_array_idgen := g.npc_array_idgen + 1 }, [g.npc_array_idgen + 1]) := by
    simp only [step, npc_add_event, npc_add_landed _ g hl, created, he, hmod, List.nil_append,
      hsz]
    simp [array_size]
  have hstep2 : step h (Op.rm_parentEvent 3) { g with
        npc_array := some [NPC_t.mk (g.npc_array_idgen + 1) NPCtype.NPC_TYPE_EVENT 5 [65]
          (some 1) none [100] 3 [102]],
        npc_array_idgen := g.npc_array_idgen + 1 } =
      some ({ g with npc_array := some [], npc_array_idgen := g.npc_array_idgen + 1 }, []) := by
    rw [step_rm_parentEvent]
    simp [owned_by]
  simp only [wrap_cycle, run, hstep1, hstep2, List.append_nil]

theorem repeat_wrap_cycle_run (h : Collab) (n : Nat) :
    ∀ g : Game, g.landed = true → array_elems g.npc_array = [] →
      g.npc_array_idgen + n < UINT_MOD →
      ∃ g' : Game, run h (repeat_ops wrap_cycle n) g =
          some (g', List.range' (g.npc_array_idgen + 1) n) ∧
        g'.landed = true ∧ array_elems g'.npc_array = [] ∧
        g'.npc_array_idgen = g.npc_array_idgen + n := by
  induction n with
  | zero =>
    intro g hl he _
    exact ⟨g, by simp [repeat_ops, run], hl, he, rfl⟩
  | succ n ih =>
    intro g hl he hw
    have h1 := wrap_cycle_run h g hl he (by omega)
    obtain ⟨g', hrun, hl', he', hgen'⟩ :=
      ih { g with npc_array := some [], npc_array_idgen := g.npc_array_idgen + 1 } hl rfl
        (by simp only; omega)
    refine ⟨g', ?_, hl', he', by rw [hgen']; simp only; omega⟩
    have := run_append h wrap_cycle (repeat_ops wrap_cycle n) g _ _ h1 hrun
    simpa [repeat_ops, List.range'_succ] using this


theorem step_add_event_landed (h : Collab) (g : Game) (hl : g.landed = true)
    (evt : Nat) (func name : CStr) (priority : Int) (portrait : Option Tex) (desc : CStr)
    (background : Option Tex) :
    step h (Op.add_event evt func name priority portrait desc background) g =
      some ((npc_add_event evt func name priority portrait desc background g).game,
        [(g.npc_array_idgen + 1) % UINT_MOD]) := by
  have hsz : ∀ x : NPC_t, array_size (some (array_elems g.npc_array ++ [x])) =
      array_size g.npc_array + 1 := by
    intro x
    rw [array_size_eq_length, array_size_eq_length]
    simp [array_elems]
  simp only [step, npc_add_event, npc_add_landed _ g hl, created, hsz, if_true]

/-- C1, counterexample: in the session `wrap_ops`, started from the initial
game, `2 ^ 32 - 1` NPCs are created and removed one at a time and then two
more are created; every creation registers an NPC, and the identities
returned contain the failure sentinel `0` and contain the identity `1` twice,
so they are neither pairwise distinct nor strictly increasing. -/
theorem npc_identity_reused_after_wrap :
    ∃ r, run Collab.quiet wrap_ops Game.init = some r ∧
      r.2 = List.range' 1 4294967295 ++ [0, 1] ∧
      0 ∈ r.2 ∧ ¬ r.2.Nodup ∧ ¬ r.2.Pairwise (fun a b => a < b) := by
  have h0 : Game.init.npc_array_idgen = 0 := rfl
  have hrep := repeat_wrap_cycle_run Collab.quiet 4294967295 Game.init rfl rfl
    (by rw [h0, Nat.zero_add]; decide)
  rw [h0, Nat.zero_add, Nat.zero_add] at hrep
  obtain ⟨g', hrun, hl, _, hgen'⟩ := hrep
  have h1 := step_add_event_landed Collab.quiet g' hl 3 [102] [65] 5 (some 1) [100] none
  have hl1 : (npc_add_event 3 [102] [65] 5 (some 1) [100] none g').game.landed = true := by
    rw [npc_add_event, npc_add_landed _ g' hl]; exact hl
  have hg1 : (npc_add_event 3 [102] [65] 5 (some 1) [100] none g').game.npc_array_idgen = 0 := by
    rw [npc_add_event, npc_add_landed _ g' hl, hgen']; rfl
  have h2 := step_add_event_landed Collab.quiet
    (npc_add_event 3 [102] [65] 5 (some 1) [100] none g').game hl1 3 [102] [66] 5 (some 1) [100] none
  rw [hg1] at h2
  rw [hgen'] at h1
  have htail : run Collab.quiet
      [Op.add_event 3 [102] [65] 5 (some 1) [100] none,
       Op.add_event 3 [102] [66] 5 (some 1) [100] none] g' =
      some ((npc_add_event 3 [102] [66] 5 (some 1) [100] none
        (npc_add_event 3 [102] [65] 5 (some 1) [100] none g').game).game, [0, 1]) := by
    simp only [run, h1, h2]
    rfl
  have hall := run_append Collab.quiet (repeat_ops wrap_cycle 4294967295) _ Game.init _ _ hrun htail
  have hone : 1 ∈ List.range' 1 4294967295 := by
    rw [List.mem_range'_1]
    exact ⟨Nat.le_refl _, by decide⟩
  have hnd : ¬ (List.range' 1 4294967295 ++ [0, 1]).Nodup := by
    intro hcon
    have hdis := (List.nodup_append.mp hcon).2.2
    exact hdis hone (by simp)
  refine ⟨_, hall, rfl, ?_, hnd, ?_⟩
  · exact List.mem_append_right _ (by simp)
  · intro hp
    exact hnd (hp.imp (fun hab => Nat.ne_of_lt hab))

theorem perform_all_append (h : Collab) (a b : List Action) :
    ∀ g : Game, perform_all h (a ++ b) g = (perform_all h a g).bind (perform_all h b) := by
  induction a with
  | nil => intro g; rfl
  | cons x rest ih =>
    intro g
    simp only [List.cons_append, perform_all]
    cases perform h x g with
    | none => rfl
    | some g1 => exact ih g1

theorem perform_wrap_cycle (h : Collab) (g : Game) (base : List NPC_t) (hl : g.landed = true)
    (ha : g.npc_array = some base)
    (hb : ∀ npc ∈ base, owned_by NPCtype.NPC_TYPE_EVENT 3 npc = false) :
    perform_all h (wrap_cycle.map Action.op) g =
      some { g with npc_array_idgen := (g.npc_array_idgen + 1) % UINT_MOD } := by
  have hf : base.filter (fun npc => !owned_by NPCtype.NPC_TYPE_EVENT 3 npc) = base := by
    rw [List.filter_eq_self]
    intro npc hm
    simp [hb npc hm]
  simp only [wrap_cycle, List.map, perform_all, perform, step_add_event_landed h g hl,
    step_rm_parentEvent, Option.map_some', npc_add_event, npc_add_landed _ g hl, ha, array_elems,
    List.filter_append, hf]
  simp [owned_by, ← ha]

theorem perform_all_cons (h : Collab) (a : Action) (rest : List Action) (g : Game) :
    perform_all h (a :: rest) g = (perform h a g).bind (perform_all h rest) := by
  simp only [perform_all]
  cases perform h a g <;> rfl

theorem perform_repeat_wrap_cycle (h : Collab) (base : List NPC_t)
    (hb : ∀ npc ∈ base, owned_by NPCtype.NPC_TYPE_EVENT 3 npc = false) (n : Nat) :
    ∀ g : Game, g.landed = true → g.npc_array = some base → g.npc_array_idgen < UINT_MOD →
      perform_all h ((repeat_ops wrap_cycle n).map Action.op) g =
        some { g with npc_array_idgen := (g.npc_array_idgen + n) % UINT_MOD } := by
  induction n with
  | zero =>
    intro g _ _ hlt
    simp only [repeat_ops, List.map_nil, perform_all, Nat.add_zero, Nat.mod_eq_of_lt hlt]
  | succ n ih =>
    intro g hl ha hlt
    have hpos : 0 < UINT_MOD := by unfold UINT_MOD; omega
    simp only [repeat_ops, List.map_append, perform_all_append,
      perform_wrap_cycle h g base hl ha hb, Option.some_bind]
    rw [ih { g with npc_array_idgen := (g.npc_array_idgen + 1) % UINT_MOD } hl ha
      (Nat.mod_lt _ hpos)]
    simp only [Nat.mod_add_mod, Nat.add_assoc, Nat.add_comm 1 n]

theorem perform_all_wrap_keeping (h : Collab) :
    perform_all h (wrap_keeping.map Action.op) Game.init = some example_wrapped := by
  have hl : Game.init.landed = true := rfl
  have h1 : perform h (Action.op (Op.add_event 4 [102] [65] 5 (some 1) [100] none)) Game.init =
      some { Game.init with
        npc_array := some [example_npc 1 NPCtype.NPC_TYPE_EVENT 4], npc_array_idgen := 1 } := by
    rfl
  have h2 := perform_repeat_wrap_cycle h [example_npc 1 NPCtype.NPC_TYPE_EVENT 4]
    (by decide) 4294967295
    { Game.init with
        npc_array := some [example_npc 1 NPCtype.NPC_TYPE_EVENT 4], npc_array_idgen := 1 }
    rfl rfl (by unfold UINT_MOD; decide)
  have h3 : (1 + 4294967295) % UINT_MOD = 0 := by unfold UINT_MOD; decide
  rw [wrap_keeping, List.map_cons, perform_all_cons, h1, Option.some_bind, h2]
  show some { Game.init with
    npc_array := some [example_npc 1 NPCtype.NPC_TYPE_EVENT 4],
    npc_array_idgen := (1 + 4294967295) % UINT_MOD } = _
  rw [h3]
  rfl

theorem perform_all_after_wrap (h : Collab) (acts : List Action) :
    perform_all h (wrap_keeping.map Action.op ++ acts) Game.init =
      perform_all h acts example_wrapped := by
  rw [perform_all_append, perform_all_wrap_keeping]
  rfl

/-- C6, counterexample: the session `wrap_keeping` followed by
`npc_patchMission` for mission `7` reaches a registry in which the event NPC
created before the generator went round and the giver of mission `7` both have
the identity `1`, the giver at index `1`. Approaching the giver with an
acceptance of outcome `3` returns `1`, but the giver is still in the registry
afterwards and the event NPC, another entry, has been removed. -/
theorem npc_approach_giver_removes_another :
    ∃ g o, perform_all Collab.accepting
        (wrap_keeping.map Action.op ++ [Action.patchMission example_mission]) Game.init =
          some g ∧
      array_elems g.npc_array =
        [example_npc 1 NPCtype.NPC_TYPE_EVENT 4,
         giver_npc Collab.accepting example_mission [67] 2 [100] 1] ∧
      npc_getMisn (giver_npc Collab.accepting example_mission [67] 2 [100] 1) g =
        some (MisnRef.npc 0) ∧
      (Collab.accepting.mission_accept (MisnRef.npc 0) g).1 = 3 ∧
      npc_approach Collab.accepting 1 g = some o ∧ o.ret = 1 ∧
      o.calls.filter Call.isCollab = [Call.mission_accept (MisnRef.npc 0)] ∧
      array_elems o.game.npc_array =
        [giver_npc Collab.accepting example_mission [67] 2 [100] 1] := by
  refine ⟨(npc_patchMission Collab.accepting example_mission example_wrapped).game,
    npc_approach_giver Collab.accepting
      (giver_npc Collab.accepting example_mission [67] 2 [100] 1)
      (npc_patchMission Collab.accepting example_mission example_wrapped).game,
    ?_, ?_, ?_, ?_, ?_, ?_, ?_, ?_⟩
  · rw [perform_all_after_wrap]; rfl
  · decide
  · decide
  · rfl
  · rfl
  · rfl
  · decide
  · decide

/-- C7, counterexample: the session `wrap_keeping` followed by one more
creation reaches a registry of two event NPCs of event `4` that both have the
identity `1`. There `npc_rm_event 1 4` returns `0`, and the same call
repeated at once returns `0` again, not `-1`: it frees the second NPC and
leaves a registry two shorter than at the start. -/
theorem npc_rm_twice_removes_two :
    ∃ g, perform_all Collab.quiet
        (wrap_keeping.map Action.op ++
          [Action.op (Op.add_event 4 [102] [66] 5 (some 1) [100] none)]) Game.init = some g ∧
      (array_elems g.npc_array).map NPC_t.id = [1, 1] ∧
      (npc_rm_event 1 4 g).ret = 0 ∧
      (npc_rm_event 1 4 (npc_rm_event 1 4 g).game).ret = 0 ∧
      (npc_rm_event 1 4 (npc_rm_event 1 4 g).game).calls =
        npc_free (NPC_t.mk 1 NPCtype.NPC_TYPE_EVENT 5 [66] (some 1) none [100] 4 [102]) ∧
      (npc_rm_event 1 4 (npc_rm_event 1 4 g).game).game ≠ (npc_rm_event 1 4 g).game ∧
      npc_getArraySize (npc_rm_event 1 4 (npc_rm_event 1 4 g).game).game =
        npc_getArraySize g - 2 := by
  refine ⟨(npc_add_event 4 [102] [66] 5 (some 1) [100] none example_wrapped).game,
    ?_, ?_, ?_, ?_, ?_, ?_, ?_⟩
  · rw [perform_all_after_wrap]; rfl
  all_goals decide


theorem npc_getMisn_loop_none_iff (id : Nat) (l : List Mission) (j0 : Nat) :
    npc_getMisn_loop id l j0 = none ↔ ∀ m ∈ l, m.id ≠ id := by
  induction l generalizing j0 with
  | nil => simp [npc_getMisn_loop]
  | cons x xs ih =>
    simp only [npc_getMisn_loop]
    by_cases hx : x.id = id
    · simp [hx]
    · simp [hx, ih]

theorem npc_getMisn_loop_some (id : Nat) (l : List Mission) (j0 k : Nat)
    (h : npc_getMisn_loop id l j0 = some k) :
    ∃ j m, k = j0 + j ∧ l[j]? = some m ∧ m.id = id ∧
      ∀ j2 m2, j2 < j → l[j2]? = some m2 → m2.id ≠ id := by
  induction l generalizing j0 with
  | nil => simp [npc_getMisn_loop] at h
  | cons x xs ih =>
    simp only [npc_getMisn_loop] at h
    by_cases hx : x.id = id
    · simp only [hx, if_true, Option.some.injEq] at h
      exact ⟨0, x, by omega, by simp, hx, fun j2 m2 hj2 _ => absurd hj2 (Nat.not_lt_zero _)⟩
    · simp only [hx, if_false] at h
      obtain ⟨j, m, hk, hj, hid, hfirst⟩ := ih (j0 + 1) h
      refine ⟨j + 1, m, by omega, by simpa using hj, hid, ?_⟩
      intro j2 m2 hj2 hm2
      cases j2 with
      | zero =>
        simp only [List.getElem?_cons_zero, Option.some.injEq] at hm2
        rw [← hm2]; exact hx
      | succ j2 =>
        simp only [List.getElem?_cons_succ] at hm2
        exact hfirst j2 m2 (by omega) hm2

theorem npc_getMisn_loop_of_mem (id : Nat) (l : List Mission)
    (h : ∃ m ∈ l, m.id = id) :
    ∃ j m, npc_getMisn_loop id l 0 = some j ∧ l[j]? = some m ∧ m.id = id ∧
      ∀ j2 m2, j2 < j → l[j2]? = some m2 → m2.id ≠ id := by
  cases hk : npc_getMisn_loop id l 0 with
  | none =>
    obtain ⟨m, hm, hid⟩ := h
    exact absurd hid ((npc_getMisn_loop_none_iff id l 0).mp hk m hm)
  | some k =>
    obtain ⟨j, m, hkj, hj, hid, hfirst⟩ := npc_getMisn_loop_some id l 0 k hk
    have : k = j := by omega
    subst this
    exact ⟨k, m, rfl, hj, hid, hfirst⟩

/-- C11, counterexample: mission `7` has a record in the pending list
`npc_missions` and one in the active list `player_missions`; for an NPC of
mission `7`, `npc_getMisn` returns the record of the active list, not the
pending one. -/
theorem npc_getMisn_prefers_active :
    (∃ m ∈ array_elems example_both_lists.npc_missions, m.id = 7) ∧
    npc_getMisn (example_npc 1 NPCtype.NPC_TYPE_GIVER 7) example_both_lists =
      some (MisnRef.player 0) ∧
    ¬ (∀ (npc : NPC_t) (g : Game), (∃ m ∈ array_elems g.npc_missions, m.id = npc.u_id) →
        ∃ j, npc_getMisn npc g = some (MisnRef.npc j)) := by
  refine ⟨⟨example_mission, by decide, by decide⟩, by decide, ?_⟩
  intro hall
  obtain ⟨j, hj⟩ := hall (example_npc 1 NPCtype.NPC_TYPE_GIVER 7) example_both_lists
    ⟨example_mission, by decide, by decide⟩
  have hp : npc_getMisn (example_npc 1 NPCtype.NPC_TYPE_GIVER 7) example_both_lists =
      some (MisnRef.player 0) := by decide
  rw [hp] at hj
  simp at hj

/-- C11, amended: `npc_getMisn` searches the active list `player_missions`
first and the pending list `npc_missions` second. When a record with the
owning identity is in the active list, the first such record of the active
list is returned, whatever the pending list holds; the pending list is
consulted only when the active list has no match, and then its first record
with the owning identity is returned; with no match in either list the result
is `NULL`. -/
theorem npc_getMisn_active_then_pending (npc : NPC_t) (g : Game) :
    ((∃ m ∈ g.player_missions, m.id = npc.u_id) →
      ∃ j m, npc_getMisn npc g = some (MisnRef.player j) ∧
        g.player_missions[j]? = some m ∧ m.id = npc.u_id ∧
        ∀ j2 m2, j2 < j → g.player_missions[j2]? = some m2 → m2.id ≠ npc.u_id) ∧
    ((∀ m ∈ g.player_missions, m.id ≠ npc.u_id) →
      (∃ m ∈ array_elems g.npc_missions, m.id = npc.u_id) →
      ∃ j m, npc_getMisn npc g = some (MisnRef.npc j) ∧
        (array_elems g.npc_missions)[j]? = some m ∧ m.id = npc.u_id ∧
        ∀ j2 m2, j2 < j → (array_elems g.npc_missions)[j2]? = some m2 → m2.id ≠ npc.u_id) ∧
    ((∀ m ∈ g.player_missions, m.id ≠ npc.u_id) →
      (∀ m ∈ array_elems g.npc_missions, m.id ≠ npc.u_id) →
      npc_getMisn npc g = none) := by
  refine ⟨?_, ?_, ?_⟩
  · intro hact
    obtain ⟨j, m, hj, hm, hid, hfirst⟩ := npc_getMisn_loop_of_mem _ _ hact
    exact ⟨j, m, by simp only [npc_getMisn, hj], hm, hid, hfirst⟩
  · intro hno hpend
    have hnone := (npc_getMisn_loop_none_iff npc.u_id g.player_missions 0).mpr hno
    obtain ⟨j, m, hj, hm, hid, hfirst⟩ := npc_getMisn_loop_of_mem _ _ hpend
    exact ⟨j, m, by simp only [npc_getMisn, hnone, hj], hm, hid, hfirst⟩
  · intro hno hno2
    have hnone := (npc_getMisn_loop_none_iff npc.u_id g.player_missions 0).mpr hno
    have hnone2 := (npc_getMisn_loop_none_iff npc.u_id (array_elems g.npc_missions) 0).mpr hno2
    simp only [npc_getMisn, hnone, hnone2]

theorem npc_getMisn_active_then_pending_witness :
    (∃ j m, npc_getMisn (example_npc 1 NPCtype.NPC_TYPE_GIVER 7) example_both_lists =
        some (MisnRef.player j) ∧
      example_both_lists.player_missions[j]? = some m ∧ m.id = 7 ∧
      ∀ j2 m2, j2 < j → example_both_lists.player_missions[j2]? = some m2 → m2.id ≠ 7) ∧
    (∃ j m, npc_getMisn (example_npc 2 NPCtype.NPC_TYPE_MISSION 8) example_both_lists =
        some (MisnRef.npc j) ∧
      (array_elems example_both_lists.npc_missions)[j]? = some m ∧ m.id = 8 ∧
      ∀ j2 m2, j2 < j → (array_elems example_both_lists.npc_missions)[j2]? = some m2 →
        m2.id ≠ 8) ∧
    npc_getMisn (example_npc 3 NPCtype.NPC_TYPE_MISSION 9) example_both_lists = none :=
  ⟨(npc_getMisn_active_then_pending (example_npc 1 NPCtype.NPC_TYPE_GIVER 7)
      example_both_lists).1 ⟨{ example_mission with data_name := [97] }, by decide, by decide⟩,
   (npc_getMisn_active_then_pending (example_npc 2 NPCtype.NPC_TYPE_MISSION 8)
      example_both_lists).2.1 (by decide) ⟨{ example_mission with id := 8 }, by decide, by decide⟩,
   (npc_getMisn_active_then_pending (example_npc 3 NPCtype.NPC_TYPE_MISSION 9)
      example_both_lists).2.2 (by decide) (by decide)⟩

theorem npc_getMisn_none_iff (npc : NPC_t) (g : Game) :
    npc_getMisn npc g = none ↔
      (∀ m ∈ g.player_missions, m.id ≠ npc.u_id) ∧
      (∀ m ∈ array_elems g.npc_missions, m.id ≠ npc.u_id) := by
  rw [← npc_getMisn_loop_none_iff npc.u_id g.player_missions 0,
    ← npc_getMisn_loop_none_iff npc.u_id (array_elems g.npc_missions) 0]
  unfold npc_getMisn
  cases h1 : npc_getMisn_loop npc.u_id g.player_missions 0 with
  | some j => simp
  | none =>
    cases h2 : npc_getMisn_loop npc.u_id (array_elems g.npc_missions) 0 with
    | some j => simp
    | none => simp

theorem npc_getMisn_some_mission (npc : NPC_t) (g : Game) (r : MisnRef)
    (h : npc_getMisn npc g = some r) : ∃ m, g.mission r = some m ∧ m.id = npc.u_id := by
  unfold npc_getMisn at h
  cases h1 : npc_getMisn_loop npc.u_id g.player_missions 0 with
  | some j =>
    simp only [h1, Option.some.injEq] at h
    obtain ⟨j2, m, hj, hm, hid, _⟩ := npc_getMisn_loop_some _ _ 0 j h1
    have : j = j2 := by omega
    subst this
    exact ⟨m, by rw [← h]; exact hm, hid⟩
  | none =>
    simp only [h1] at h
    cases h2 : npc_getMisn_loop npc.u_id (array_elems g.npc_missions) 0 with
    | some j =>
      simp only [h2, Option.some.injEq] at h
      obtain ⟨j2, m, hj, hm, hid, _⟩ := npc_getMisn_loop_some _ _ 0 j h2
      have : j = j2 := by omega
      subst this
      exact ⟨m, by rw [← h]; exact hm, hid⟩
    | none => simp [h2] at h

/-- C12: for a giver or mission NPC at index `i`, `npc_approach i` returns
`-1` exactly when neither `player_missions` nor `npc_missions` holds a record
with the owning mission identity of the NPC; then the game is unchanged and
the only call made is a warning. Whenever `npc_getMisn` returns a record, the
identity of that record is the owning identity, and it returns one as soon as
one of the two lists holds a record with that identity. -/
theorem npc_approach_missing_mission (h : Collab) (i : Int) (g : Game) (npc : NPC_t)
    (h0 : 0 ≤ i) (hn : (array_elems g.npc_array)[i.toNat]? = some npc)
    (hty : npc.type = NPCtype.NPC_TYPE_GIVER ∨ npc.type = NPCtype.NPC_TYPE_MISSION) :
    ((∃ o, npc_approach h i g = some o ∧ o.ret = -1) ↔
      ((∀ m ∈ g.player_missions, m.id ≠ npc.u_id) ∧
       (∀ m ∈ array_elems g.npc_missions, m.id ≠ npc.u_id))) ∧
    (((∀ m ∈ g.player_missions, m.id ≠ npc.u_id) ∧
       (∀ m ∈ array_elems g.npc_missions, m.id ≠ npc.u_id)) →
      ∃ w, npc_approach h i g = some { ret := -1, game := g, calls := [Call.warn w] }) ∧
    (∀ r, npc_getMisn npc g = some r → ∃ m, g.mission r = some m ∧ m.id = npc.u_id) ∧
    (((∃ m ∈ g.player_missions, m.id = npc.u_id) ∨
       (∃ m ∈ array_elems g.npc_missions, m.id = npc.u_id)) →
      ∃ r m, npc_getMisn npc g = some r ∧ g.mission r = some m ∧ m.id = npc.u_id) := by
  have hb := inBounds_of_getElem? i g npc h0 hn
  unfold npc_getArraySize at hb
  have hmiss : npc_getMisn npc g = none →
      ∃ w, npc_approach h i g = some { ret := -1, game := g, calls := [Call.warn w] } := by
    intro hnone
    rcases hty with hty | hty
    · exact ⟨Warning.giver_mission_not_found, by
        simp only [npc_approach, hb, if_false, hn, hty, npc_approach_giver, hnone]⟩
    · exact ⟨Warning.mission_not_found, by
        simp only [npc_approach, hb, if_false, hn, hty, hnone]⟩
  refine ⟨⟨?_, ?_⟩, ?_, npc_getMisn_some_mission npc g, ?_⟩
  · rintro ⟨o, ho, hret⟩
    rw [← npc_getMisn_none_iff]
    cases hm : npc_getMisn npc g with
    | none => rfl
    | some misn =>
      exfalso
      rcases hty with hty | hty
      · simp only [npc_approach, hb, if_false, hn, hty, npc_approach_giver, hm,
          Option.some.injEq] at ho
        rw [← ho] at hret
        split_ifs at hret
      · simp only [npc_approach, hb, if_false, hn, hty, hm] at ho
        split at ho
        · simp at ho
        · simp only [Option.some.injEq] at ho
          rw [← ho] at hret
          simp at hret
  · intro hno
    obtain ⟨w, hw⟩ := hmiss ((npc_getMisn_none_iff npc g).mpr hno)
    exact ⟨_, hw, rfl⟩
  · intro hno
    exact hmiss ((npc_getMisn_none_iff npc g).mpr hno)
  · intro hex
    cases hm : npc_getMisn npc g with
    | none =>
      exfalso
      have hno := (npc_getMisn_none_iff npc g).mp hm
      rcases hex with ⟨m, hmem, hid⟩ | ⟨m, hmem, hid⟩
      · exact hno.1 m hmem hid
      · exact hno.2 m hmem hid
    | some r =>
      obtain ⟨m, hmr, hid⟩ := npc_getMisn_some_mission npc g r hm
      exact ⟨r, m, rfl, hmr, hid⟩

theorem npc_approach_missing_mission_witness :
    (0 : Int) ≤ 2 ∧
    (∃ w, npc_approach Collab.scripted 2 example_both_lists =
      some { ret := -1, game := example_both_lists, calls := [Call.warn w] }) ∧
    (∃ r m, npc_getMisn (example_npc 2 NPCtype.NPC_TYPE_MISSION 8) example_both_lists = some r ∧
      example_both_lists.mission r = some m ∧ m.id = 8) :=
  ⟨by decide,
   (npc_approach_missing_mission Collab.scripted 2 example_both_lists
      (example_npc 3 NPCtype.NPC_TYPE_MISSION 9) (by decide) (by decide)
      (Or.inr (by decide))).2.1 (by decide),
   (npc_approach_missing_mission Collab.scripted 1 example_both_lists
      (example_npc 2 NPCtype.NPC_TYPE_MISSION 8) (by decide) (by decide)
      (Or.inr (by decide))).2.2.2
      (Or.inr ⟨{ example_mission with id := 8 }, by decide, by decide⟩)⟩

theorem npc_add_giver_refused (h : Collab) (misn : Mission) (g : Game)
    (hmiss : misn.npc = none ∨ misn.portrait = none ∨ misn.npc_desc = none) :
    (npc_add_giver h misn g).ret = 0 ∧ (npc_add_giver h misn g).game = g ∧
    ∃ w, (npc_add_giver h misn g).calls = [Call.warn w] := by
  unfold npc_add_giver
  cases h1 : misn.npc with
  | none => exact ⟨rfl, rfl, _, rfl⟩
  | some name =>
    cases h2 : misn.portrait with
    | none => exact ⟨rfl, rfl, _, rfl⟩
    | some portrait =>
      cases h3 : misn.npc_desc with
      | none => exact ⟨rfl, rfl, _, rfl⟩
      | some desc => simp [h1, h2, h3] at hmiss

theorem npc_add_giver_complete (h : Collab) (misn : Mission) (g : Game)
    (name : CStr) (portrait : Tex) (desc : CStr)
    (h1 : misn.npc = some name) (h2 : misn.portrait = some portrait)
    (h3 : misn.npc_desc = some desc) (hl : g.landed = true) :
    npc_add_giver h misn g =
      { ret := (g.npc_array_idgen + 1) % UINT_MOD,
        game := { g with
          npc_array := some (array_elems g.npc_array ++
            [giver_npc h misn name portrait desc ((g.npc_array_idgen + 1) % UINT_MOD)]),
          npc_array_idgen := (g.npc_array_idgen + 1) % UINT_MOD },
        calls := [] } := by
  simp only [npc_add_giver, h1, h2, h3, npc_add_landed _ g hl, giver_npc]

theorem npc_patchMission_eq (h : Collab) (misn : Mission) (g : Game) :
    (npc_patchMission h misn g).game =
      (npc_sort (match misn.npc with
        | none => { g with npc_missions := some (array_elems g.npc_missions ++ [misn]) }
        | some _ => (npc_add_giver h misn
            { g with npc_missions := some (array_elems g.npc_missions ++ [misn]) }).game)).game := by
  unfold npc_patchMission
  cases misn.npc <;> rfl

/-- C13, counterexample: after `2 ^ 32 - 1` NPCs have been created and removed
in a session started from the initial game, the giver created for a mission
with a complete NPC definition, in an active session, is registered with the
identity `0`, which is the failure sentinel and is what the creation returns. -/
theorem npc_add_giver_zero_identity_at_wrap :
    ∃ r, run Collab.quiet (repeat_ops wrap_cycle 4294967295) Game.init = some r ∧
      r.1.landed = true ∧
      example_mission.npc ≠ none ∧ example_mission.portrait ≠ none ∧
      example_mission.npc_desc ≠ none ∧
      (npc_add_giver Collab.quiet example_mission r.1).ret = 0 ∧
      array_elems (npc_add_giver Collab.quiet example_mission r.1).game.npc_array =
        [giver_npc Collab.quiet example_mission [67] 2 [100] 0] := by
  have h0 : Game.init.npc_array_idgen = 0 := rfl
  have hrep := repeat_wrap_cycle_run Collab.quiet 4294967295 Game.init rfl rfl
    (by rw [h0, Nat.zero_add]; decide)
  rw [h0, Nat.zero_add, Nat.zero_add] at hrep
  obtain ⟨g', hrun, hl, he, hgen⟩ := hrep
  have hadd := npc_add_giver_complete Collab.quiet example_mission g' [67] 2 [100] rfl rfl rfl hl
  have hmod : (g'.npc_array_idgen + 1) % UINT_MOD = 0 := by rw [hgen]; rfl
  rw [hmod, he] at hadd
  refine ⟨_, hrun, hl, by decide, by decide, by decide, ?_, ?_⟩
  · rw [hadd]
  · rw [hadd]; rfl

/-- C13, amended: for a mission whose NPC name, portrait or description is
missing, `npc_add_giver` returns `0` and changes nothing, and
`npc_patchMission` only appends the mission to `npc_missions` and re-sorts the
array: no NPC is added and the generator is not advanced. For a mission with
all three and `landed` true, `npc_add_giver` appends exactly one NPC: a giver
with the mission identity as owner, the availability priority, the name and
description of the mission, the duplicated portrait, no background and the
callback name "accept"; its identity, which is returned, is the generator plus
one modulo `2 ^ 32`: while the generator is below `2 ^ 32 - 1` it is non-zero
and differs from every stored identity that does not exceed the generator. -/
theorem npc_add_giver_spec (h : Collab) (misn : Mission) (g : Game) :
    ((misn.npc = none ∨ misn.portrait = none ∨ misn.npc_desc = none) →
      (npc_add_giver h misn g).ret = 0 ∧ (npc_add_giver h misn g).game = g ∧
      (npc_patchMission h misn g).game.npc_array_idgen = g.npc_array_idgen ∧
      (npc_patchMission h misn g).game.npc_missions =
        some (array_elems g.npc_missions ++ [misn]) ∧
      array_elems (npc_patchMission h misn g).game.npc_array =
        qsort npc_compare (array_elems g.npc_array) ∧
      (array_elems (npc_patchMission h misn g).game.npc_array).Perm (array_elems g.npc_array)) ∧
    (∀ name portrait desc, misn.npc = some name → misn.portrait = some portrait →
      misn.npc_desc = some desc → g.landed = true →
      (npc_add_giver h misn g).ret = (g.npc_array_idgen + 1) % UINT_MOD ∧
      (npc_add_giver h misn g).game =
        { g with
          npc_array := some (array_elems g.npc_array ++
            [giver_npc h misn name portrait desc ((g.npc_array_idgen + 1) % UINT_MOD)]),
          npc_array_idgen := (g.npc_array_idgen + 1) % UINT_MOD } ∧
      array_elems (npc_patchMission h misn g).game.npc_array =
        qsort npc_compare (array_elems g.npc_array ++
          [giver_npc h misn name portrait desc ((g.npc_array_idgen + 1) % UINT_MOD)]) ∧
      (g.npc_array_idgen + 1 < UINT_MOD →
        (npc_add_giver h misn g).ret = g.npc_array_idgen + 1 ∧
        (npc_add_giver h misn g).ret ≠ 0 ∧
        ∀ npc ∈ array_elems g.npc_array, npc.id ≤ g.npc_array_idgen →
          npc.id ≠ (npc_add_giver h misn g).ret)) := by
  constructor
  · intro hmiss
    obtain ⟨hret, hgame, _⟩ := npc_add_giver_refused h misn g hmiss
    have hpatch : (npc_patchMission h misn g).game =
        (npc_sort { g with npc_missions := some (array_elems g.npc_missions ++ [misn]) }).game := by
      rw [npc_patchMission_eq]
      cases hn : misn.npc with
      | none => rfl
      | some name =>
        have := (npc_add_giver_refused h misn
          { g with npc_missions := some (array_elems g.npc_missions ++ [misn]) } hmiss).2.1
        simp only [this]
    refine ⟨hret, hgame, ?_, ?_, ?_, ?_⟩
    · rw [hpatch, npc_sort_idgen]
    · rw [hpatch, (npc_sort_frame _).1]
    · rw [hpatch, npc_sort_elems]
    · rw [hpatch, npc_sort_elems]; exact qsort_perm _ _
  · intro name portrait desc h1 h2 h3 hl
    have hadd := npc_add_giver_complete h misn g name portrait desc h1 h2 h3 hl
    refine ⟨by rw [hadd], by rw [hadd], ?_, ?_⟩
    · rw [npc_patchMission_eq, npc_sort_elems]
      simp only [h1]
      rw [npc_add_giver_complete h misn
        { g with npc_missions := some (array_elems g.npc_missions ++ [misn]) }
        name portrait desc h1 h2 h3 hl]
      rfl
    · intro hw
      have hmod : (g.npc_array_idgen + 1) % UINT_MOD = g.npc_array_idgen + 1 :=
        Nat.mod_eq_of_lt hw
      rw [hadd]
      simp only [hmod]
      refine ⟨trivial, by omega, ?_⟩
      intro npc _ hle
      omega

theorem npc_add_giver_spec_witness :
    ((npc_add_giver Collab.quiet { example_mission with portrait := none }
        example_shared_owner).ret = 0 ∧
      (npc_add_giver Collab.quiet { example_mission with portrait := none }
        example_shared_owner).game = example_shared_owner) ∧
    ((npc_add_giver Collab.quiet example_mission example_shared_owner).ret = 5 ∧
      (npc_add_giver Collab.quiet example_mission example_shared_owner).ret ≠ 0 ∧
      ∀ npc ∈ array_elems example_shared_owner.npc_array,
        npc.id ≤ example_shared_owner.npc_array_idgen →
          npc.id ≠ (npc_add_giver Collab.quiet example_mission example_shared_owner).ret) :=
  ⟨⟨((npc_add_giver_spec Collab.quiet { example_mission with portrait := none }
        example_shared_owner).1 (Or.inr (Or.inl rfl))).1,
    ((npc_add_giver_spec Collab.quiet { example_mission with portrait := none }
        example_shared_owner).1 (Or.inr (Or.inl rfl))).2.1⟩,
   ((npc_add_giver_spec Collab.quiet example_mission example_shared_owner).2
      [67] 2 [100] rfl rfl rfl (by decide)).2.2.2 (by decide)⟩

theorem npc_getArraySize_append_one (g : Game) (npc : NPC_t) (id : Nat) :
    npc_getArraySize { g with npc_array := some (array_elems g.npc_array ++ [npc]),
                              npc_array_idgen := id } = npc_getArraySize g + 1 := by
  unfold npc_getArraySize
  rw [array_size_eq_length, array_size_eq_length]
  simp [array_elems]

/-- C14, counterexample: in an active session `npc_add_mission` with an empty
name and `npc_add_event` with an empty description do not fail: each returns
the identity `1`, not the sentinel `0`, and the registry, empty before, holds
one NPC afterwards, with the empty name or description. -/
theorem npc_add_accepts_empty_text :
    Game.init.landed = true ∧ npc_getArraySize Game.init = 0 ∧
    (npc_add_mission 7 [102] [] 5 (some 1) [100] none Game.init).ret = 1 ∧
    npc_getArraySize (npc_add_mission 7 [102] [] 5 (some 1) [100] none Game.init).game = 1 ∧
    npc_getName 0 (npc_add_mission 7 [102] [] 5 (some 1) [100] none Game.init).game = some [] ∧
    (npc_add_event 3 [102] [65] 5 (some 1) [] none Game.init).ret = 1 ∧
    npc_getArraySize (npc_add_event 3 [102] [65] 5 (some 1) [] none Game.init).game = 1 ∧
    npc_getDesc 0 (npc_add_event 3 [102] [65] 5 (some 1) [] none Game.init).game = some [] := by
  decide

/-- C14, amended: `npc_add_mission` and `npc_add_event` do not inspect the
name or the description. In an active session every call with a portrait,
also one with an empty name or an empty description, makes no call to the
outside, appends exactly one NPC with the given fields, of type mission or
event, so that the registry size grows by one, and returns the identity of
that NPC, the generator plus one modulo `2 ^ 32`. -/
theorem npc_add_unvalidated (g : Game) (hl : g.landed = true) (owner : Nat)
    (func name : CStr) (priority : Int) (portrait : Tex) (desc : CStr)
    (background : Option Tex) :
    npc_add_mission owner func name priority (some portrait) desc background g =
      { ret := (g.npc_array_idgen + 1) % UINT_MOD,
        game := { g with
          npc_array := some (array_elems g.npc_array ++
            [NPC_t.mk ((g.npc_array_idgen + 1) % UINT_MOD) NPCtype.NPC_TYPE_MISSION priority name
              (some portrait) background desc owner func]),
          npc_array_idgen := (g.npc_array_idgen + 1) % UINT_MOD },
        calls := [] } ∧
    npc_add_event owner func name priority (some portrait) desc background g =
      { ret := (g.npc_array_idgen + 1) % UINT_MOD,
        game := { g with
          npc_array := some (array_elems g.npc_array ++
            [NPC_t.mk ((g.npc_array_idgen + 1) % UINT_MOD) NPCtype.NPC_TYPE_EVENT priority name
              (some portrait) background desc owner func]),
          npc_array_idgen := (g.npc_array_idgen + 1) % UINT_MOD },
        calls := [] } ∧
    npc_getArraySize (npc_add_mission owner func name priority (some portrait) desc
      background g).game = npc_getArraySize g + 1 ∧
    npc_getArraySize (npc_add_event owner func name priority (some portrait) desc
      background g).game = npc_getArraySize g + 1 := by
  have hm : npc_add_mission owner func name priority (some portrait) desc background g =
      { ret := (g.npc_array_idgen + 1) % UINT_MOD,
        game := { g with
          npc_array := some (array_elems g.npc_array ++
            [NPC_t.mk ((g.npc_array_idgen + 1) % UINT_MOD) NPCtype.NPC_TYPE_MISSION priority name
              (some portrait) background desc owner func]),
          npc_array_idgen := (g.npc_array_idgen + 1) % UINT_MOD },
        calls := [] } := by
    simp only [npc_add_mission, npc_add_landed _ g hl]
  have he : npc_add_event owner func name priority (some portrait) desc background g =
      { ret := (g.npc_array_idgen + 1) % UINT_MOD,
        game := { g with
          npc_array := some (array_elems g.npc_array ++
            [NPC_t.mk ((g.npc_array_idgen + 1) % UINT_MOD) NPCtype.NPC_TYPE_EVENT priority name
              (some portrait) background desc owner func]),
          npc_array_idgen := (g.npc_array_idgen + 1) % UINT_MOD },
        calls := [] } := by
    simp only [npc_add_event, npc_add_landed _ g hl]
  refine ⟨hm, he, ?_, ?_⟩
  · rw [hm]; exact npc_getArraySize_append_one g _ _
  · rw [he]; exact npc_getArraySize_append_one g _ _

theorem npc_add_unvalidated_witness :
    example_shared_owner.landed = true ∧
    npc_getArraySize (npc_add_mission 7 [102] [] 5 (some 1) [] none
      example_shared_owner).game = npc_getArraySize example_shared_owner + 1 ∧
    npc_getArraySize (npc_add_event 3 [102] [] 5 (some 1) [] none
      example_shared_owner).game = npc_getArraySize example_shared_owner + 1 :=
  ⟨by decide,
   (npc_add_unvalidated example_shared_owner (by decide) 7 [102] [] 5 1 [] none).2.2.1,
   (npc_add_unvalidated example_shared_owner (by decide) 3 [102] [] 5 1 [] none).2.2.2⟩

theorem npc_rm_event_cases (id owner : Nat) (g : Game) :
    (npc_rm_event id owner g).ret = 0 ∨
    npc_rm_event id owner g = { ret := -1, game := g, calls := [] } := by
  unfold npc_rm_event
  split
  · right; rfl
  · split
    · right; rfl
    · split_ifs
      · right; rfl
      · right; rfl
      · left; rfl

theorem npc_rm_event_found (id owner : Nat) (g : Game)
    (hnd : ((array_elems g.npc_array).map NPC_t.id).Nodup)
    (hex : ∃ npc ∈ array_elems g.npc_array,
      npc.id = id ∧ npc.type = NPCtype.NPC_TYPE_EVENT ∧ npc.u_id = owner) :
    (npc_rm_event id owner g).ret = 0 := by
  obtain ⟨npc, hmem, hid, hty, hown⟩ := hex
  cases hk : npc_arrayGet id g with
  | none =>
    exact absurd hid ((npc_arrayGet_loop_none_iff id _ 0).mp hk npc hmem)
  | some k =>
    obtain ⟨j, npc2, hkj, hj, hid2⟩ := npc_arrayGet_loop_some id _ 0 k hk
    have hkj2 : k = j := by omega
    subst hkj2
    have hmem2 : npc2 ∈ array_elems g.npc_array := by
      obtain ⟨hlt, he⟩ := List.getElem?_eq_some_iff.mp hj
      exact he ▸ List.getElem_mem hlt
    have heq : npc2 = npc := List.inj_on_of_nodup_map hnd hmem2 hmem (by rw [hid2, hid])
    subst heq
    simp [npc_rm_event, hk, hj, hty, hown, npc_rm]

theorem npc_rm_mission_cases (id owner : Nat) (g : Game) :
    (npc_rm_mission id owner g).ret = 0 ∨
    npc_rm_mission id owner g = { ret := -1, game := g, calls := [] } := by
  unfold npc_rm_mission
  split
  · right; rfl
  · split
    · right; rfl
    · split_ifs
      · right; rfl
      · right; rfl
      · left; rfl

theorem npc_rm_mission_found (id owner : Nat) (g : Game)
    (hnd : ((array_elems g.npc_array).map NPC_t.id).Nodup)
    (hex : ∃ npc ∈ array_elems g.npc_array,
      npc.id = id ∧ npc.type = NPCtype.NPC_TYPE_MISSION ∧ npc.u_id = owner) :
    (npc_rm_mission id owner g).ret = 0 := by
  obtain ⟨npc, hmem, hid, hty, hown⟩ := hex
  cases hk : npc_arrayGet id g with
  | none =>
    exact absurd hid ((npc_arrayGet_loop_none_iff id _ 0).mp hk npc hmem)
  | some k =>
    obtain ⟨j, npc2, hkj, hj, hid2⟩ := npc_arrayGet_loop_some id _ 0 k hk
    have hkj2 : k = j := by omega
    subst hkj2
    have hmem2 : npc2 ∈ array_elems g.npc_array := by
      obtain ⟨hlt, he⟩ := List.getElem?_eq_some_iff.mp hj
      exact he ▸ List.getElem_mem hlt
    have heq : npc2 = npc := List.inj_on_of_nodup_map hnd hmem2 hmem (by rw [hid2, hid])
    subst heq
    simp [npc_rm_mission, hk, hj, hty, hown, npc_rm]

theorem erase_filter_of_unique (id : Nat) (l : List NPC_t) (k : Nat) (npc : NPC_t)
    (hk : l[k]? = some npc) (hid : npc.id = id) (hno : ∀ m ∈ l.eraseIdx k, m.id ≠ id) :
    l.eraseIdx k = l.filter (fun npc => decide (npc.id ≠ id)) := by
  induction l generalizing k with
  | nil => simp at hk
  | cons x xs ih =>
    cases k with
    | zero =>
      simp only [List.getElem?_cons_zero, Option.some.injEq] at hk
      subst hk
      simp only [List.eraseIdx_cons_zero] at hno ⊢
      have hf := filter_id_of_not_mem id xs hno
      simpa [List.filter_cons, hid] using hf.symm
    | succ k =>
      simp only [List.getElem?_cons_succ] at hk
      simp only [List.eraseIdx_cons_succ] at hno ⊢
      have hx : x.id ≠ id := hno x (List.mem_cons_self _ _)
      have := ih k hk (fun m hm => hno m (List.mem_cons_of_mem _ hm))
      simp only [List.filter_cons, hx, ne_eq, not_false_eq_true, decide_True, if_true]
      rw [this]

/-- C15, counterexample: the session `wrap_keeping` followed by the creation
of an NPC of mission `4` reaches a registry in which an event NPC and that
mission NPC both have the identity `1`. An entry with identity `1`, type
mission and owner `4` exists, yet `npc_rm_mission 1 4` returns `-1` and
leaves the registry as it is, because the lookup by identity stops at the
event NPC; and after `npc_rm_event 1 4` has returned `0` an entry with the
identity `1` is still stored. -/
theorem npc_rm_mission_misses_matching_entry :
    ∃ g, perform_all Collab.quiet
        (wrap_keeping.map Action.op ++
          [Action.op (Op.add_mission 4 [102] [66] 5 (some 1) [100] none)]) Game.init = some g ∧
      (∃ npc ∈ array_elems g.npc_array,
        npc.id = 1 ∧ npc.type = NPCtype.NPC_TYPE_MISSION ∧ npc.u_id = 4) ∧
      (npc_rm_mission 1 4 g).ret = -1 ∧
      (npc_rm_mission 1 4 g).game = g ∧
      (npc_rm_event 1 4 g).ret = 0 ∧
      ∃ npc ∈ array_elems (npc_rm_event 1 4 g).game.npc_array, npc.id = 1 := by
  refine ⟨(npc_add_mission 4 [102] [66] 5 (some 1) [100] none example_wrapped).game,
    ?_, ?_, ?_, ?_, ?_, ?_⟩
  · rw [perform_all_after_wrap]; rfl
  all_goals decide

/-- C15, amended: in a registry whose identities are pairwise distinct,
`npc_rm_event id evt` returns `0` exactly when the NPC with identity `id`
exists, is an event NPC and belongs to event `evt`; it then erases exactly
that NPC: nothing but `npc_array` changes, the array keeps the NPCs of another
identity in their order (so a sorted array stays sorted) and is one shorter.
In every other case it returns `-1` and changes nothing. The same holds of
`npc_rm_mission id mid` with mission NPCs. -/
theorem npc_rm_checks_identity_type_owner (g : Game) (id owner : Nat)
    (hnd : ((array_elems g.npc_array).map NPC_t.id).Nodup) :
    (((npc_rm_event id owner g).ret = 0 ↔
      ∃ npc ∈ array_elems g.npc_array,
        npc.id = id ∧ npc.type = NPCtype.NPC_TYPE_EVENT ∧ npc.u_id = owner) ∧
    ((npc_rm_event id owner g).ret = 0 →
      (npc_rm_event id owner g).game =
        { g with npc_array := (npc_rm_event id owner g).game.npc_array } ∧
      array_elems (npc_rm_event id owner g).game.npc_array =
        (array_elems g.npc_array).filter (fun npc => decide (npc.id ≠ id)) ∧
      npc_getArraySize (npc_rm_event id owner g).game = npc_getArraySize g - 1 ∧
      ((array_elems g.npc_array).Pairwise (fun a b => npc_compare a b ≤ 0) →
        (array_elems (npc_rm_event id owner g).game.npc_array).Pairwise
          (fun a b => npc_compare a b ≤ 0))) ∧
    ((npc_rm_event id owner g).ret ≠ 0 →
      npc_rm_event id owner g = { ret := -1, game := g, calls := [] })) ∧
    (((npc_rm_mission id owner g).ret = 0 ↔
      ∃ npc ∈ array_elems g.npc_array,
        npc.id = id ∧ npc.type = NPCtype.NPC_TYPE_MISSION ∧ npc.u_id = owner) ∧
    ((npc_rm_mission id owner g).ret = 0 →
      (npc_rm_mission id owner g).game =
        { g with npc_array := (npc_rm_mission id owner g).game.npc_array } ∧
      array_elems (npc_rm_mission id owner g).game.npc_array =
        (array_elems g.npc_array).filter (fun npc => decide (npc.id ≠ id)) ∧
      npc_getArraySize (npc_rm_mission id owner g).game = npc_getArraySize g - 1 ∧
      ((array_elems g.npc_array).Pairwise (fun a b => npc_compare a b ≤ 0) →
        (array_elems (npc_rm_mission id owner g).game.npc_array).Pairwise
          (fun a b => npc_compare a b ≤ 0))) ∧
    ((npc_rm_mission id owner g).ret ≠ 0 →
      npc_rm_mission id owner g = { ret := -1, game := g, calls := [] })) := by
  constructor
  · refine ⟨⟨?_, npc_rm_event_found id owner g hnd⟩, ?_, ?_⟩
    · intro hz
      obtain ⟨k, npc, hk, hid, hty, hown, _, _⟩ := npc_rm_event_zero id owner g hz
      have hmem : npc ∈ array_elems g.npc_array := by
        obtain ⟨hlt, he⟩ := List.getElem?_eq_some_iff.mp hk
        exact he ▸ List.getElem_mem hlt
      exact ⟨npc, hmem, hid, hty, hown⟩
    · intro hz
      obtain ⟨k, npc, hk, hid, _, _, hgame, _⟩ := npc_rm_event_zero id owner g hz
      have hlen := (List.getElem?_eq_some_iff.mp hk).1
      have hfilter : (array_elems g.npc_array).eraseIdx k =
          (array_elems g.npc_array).filter (fun npc => decide (npc.id ≠ id)) := by
        have hnone := npc_arrayGet_after_erase id g k npc hnd hk hid
        have hno : ∀ m ∈ (array_elems g.npc_array).eraseIdx k, m.id ≠ id :=
          (npc_arrayGet_loop_none_iff id _ 0).mp hnone
        exact erase_filter_of_unique id _ k npc hk hid hno
      rw [hgame]
      refine ⟨rfl, hfilter, npc_getArraySize_eraseIdx g k hlen, ?_⟩
      intro hs
      show ((array_elems g.npc_array).eraseIdx k).Pairwise _
      exact hs.sublist (List.eraseIdx_sublist _ _)
    · intro hnz
      rcases npc_rm_event_cases id owner g with hz | hm
      · exact absurd hz hnz
      · exact hm
  · refine ⟨⟨?_, npc_rm_mission_found id owner g hnd⟩, ?_, ?_⟩
    · intro hz
      obtain ⟨k, npc, hk, hid, hty, hown, _, _⟩ := npc_rm_mission_zero id owner g hz
      have hmem : npc ∈ array_elems g.npc_array := by
        obtain ⟨hlt, he⟩ := List.getElem?_eq_some_iff.mp hk
        exact he ▸ List.getElem_mem hlt
      exact ⟨npc, hmem, hid, hty, hown⟩
    · intro hz
      obtain ⟨k, npc, hk, hid, _, _, hgame, _⟩ := npc_rm_mission_zero id owner g hz
      have hlen := (List.getElem?_eq_some_iff.mp hk).1
      have hfilter : (array_elems g.npc_array).eraseIdx k =
          (array_elems g.npc_array).filter (fun npc => decide (npc.id ≠ id)) := by
        have hnone := npc_arrayGet_after_erase id g k npc hnd hk hid
        have hno : ∀ m ∈ (array_elems g.npc_array).eraseIdx k, m.id ≠ id :=
          (npc_arrayGet_loop_none_iff id _ 0).mp hnone
        exact erase_filter_of_unique id _ k npc hk hid hno
      rw [hgame]
      refine ⟨rfl, hfilter, npc_getArraySize_eraseIdx g k hlen, ?_⟩
      intro hs
      show ((array_elems g.npc_array).eraseIdx k).Pairwise _
      exact hs.sublist (List.eraseIdx_sublist _ _)
    · intro hnz
      rcases npc_rm_mission_cases id owner g with hz | hm
      · exact absurd hz hnz
      · exact hm

theorem npc_rm_checks_identity_type_owner_witness :
    ((array_elems example_shared_owner.npc_array).map NPC_t.id).Nodup ∧
    (npc_rm_event 2 7 example_shared_owner).ret = 0 ∧
    (array_elems (npc_rm_event 2 7 example_shared_owner).game.npc_array).map NPC_t.id =
      [1, 3, 4] ∧
    npc_rm_event 3 7 example_shared_owner =
      { ret := -1, game := example_shared_owner, calls := [] } ∧
    npc_rm_mission 2 7 example_shared_owner =
      { ret := -1, game := example_shared_owner, calls := [] } ∧
    npc_rm_mission 4 7 example_shared_owner =
      { ret := -1, game := example_shared_owner, calls := [] } ∧
    (npc_rm_mission 4 8 example_shared_owner).ret = 0 :=
  ⟨by decide,
   (npc_rm_checks_identity_type_owner example_shared_owner 2 7 (by decide)).1.1.mpr
     ⟨{ id := 2, type := NPCtype.NPC_TYPE_EVENT, priority := 5, name := [66],
        portrait := some 1, background := none, desc := [100], u_id := 7, u_func := [102] },
      by decide, by decide, by decide, by decide⟩,
   by rw [((npc_rm_checks_identity_type_owner example_shared_owner 2 7 (by decide)).1.2.1
        (by decide)).2.1]; decide,
   (npc_rm_checks_identity_type_owner example_shared_owner 3 7 (by decide)).1.2.2 (by decide),
   (npc_rm_checks_identity_type_owner example_shared_owner 2 7 (by decide)).2.2.2 (by decide),
   (npc_rm_checks_identity_type_owner example_shared_owner 4 7 (by decide)).2.2.2 (by decide),
   (npc_rm_checks_identity_type_owner example_shared_owner 4 8 (by decide)).2.1.mpr
     ⟨{ id := 4, type := NPCtype.NPC_TYPE_MISSION, priority := 5, name := [68],
        portrait := some 1, background := none, desc := [100], u_id := 8, u_func := [102] },
      by decide, by decide, by decide, by decide⟩⟩

theorem npc_outOfBounds_false_of_getElem? (i : Int) (g : Game) (npc : NPC_t) (h0 : 0 ≤ i)
    (hn : (array_elems g.npc_array)[i.toNat]? = some npc) : npc_outOfBounds i g = false := by
  have hb := inBounds_of_getElem? i g npc h0 hn
  cases hc : npc_outOfBounds i g with
  | false => rfl
  | true => exact absurd ((npc_outOfBounds_iff i g).mp hc) hb

theorem npc_setBackground_getElem? (k : Nat) (t : Option Tex) (g : Game) (npc : NPC_t)
    (hn : (array_elems g.npc_array)[k]? = some npc) :
    (array_elems (npc_setBackground k t g).npc_array)[k]? = some { npc with background := t } := by
  show ((array_elems g.npc_array).modify (fun npc => { npc with background := t }) k)[k]? = _
  rw [List.getElem?_modify, hn]
  simp

theorem npc_getBackground_stored (h : Collab) (i : Int) (g : Game) (npc : NPC_t) (t : Tex)
    (h0 : 0 ≤ i) (hn : (array_elems g.npc_array)[i.toNat]? = some npc)
    (hb : npc.background = some t) :
    npc_getBackground h i g = some { ret := some t, game := g, calls := [] } := by
  have hob := npc_outOfBounds_false_of_getElem? i g npc h0 hn
  simp [npc_getBackground, hob, hn, hb]


theorem npc_setBackground_getElem?_ne (k j : Nat) (t : Option Tex) (g : Game) (hj : j ≠ k) :
    (array_elems (npc_setBackground k t g).npc_array)[j]? = (array_elems g.npc_array)[j]? := by
  show ((array_elems g.npc_array).modify (fun npc => { npc with background := t }) k)[j]? = _
  rw [List.getElem?_modify]
  have : ¬ k = j := fun hh => hj hh.symm
  simp [this]

theorem npc_getBackground_no_hook (h : Collab) (i : Int) (g : Game) (npc : NPC_t)
    (h0 : 0 ≤ i) (hn : (array_elems g.npc_array)[i.toNat]? = some npc)
    (hb : npc.background = none) (hh : h.lua_barbg = none) :
    npc_getBackground h i g =
      some { ret := h.gl_newImage_background,
             game := npc_setBackground i.toNat h.gl_newImage_background g, calls := [] } := by
  have hob := npc_outOfBounds_false_of_getElem? i g npc h0 hn
  simp [npc_getBackground, hob, hn, hb, hh]

theorem npc_getBackground_hook (h : Collab) (i : Int) (g : Game) (npc : NPC_t)
    (f : Game → PcallResult × Game)
    (h0 : 0 ≤ i) (hn : (array_elems g.npc_array)[i.toNat]? = some npc)
    (hb : npc.background = none) (hh : h.lua_barbg = some f)
    (hkeep : (f g).2.npc_array = g.npc_array) :
    (∀ x, (f g).1 = PcallResult.ok (LuaValue.tex x) →
      npc_getBackground h i g =
        some { ret := some (h.gl_dupTexture x),
               game := npc_setBackground i.toNat (some (h.gl_dupTexture x)) (f g).2,
               calls := [Call.lua_barbg] }) ∧
    ((f g).1 = PcallResult.ok LuaValue.other →
      npc_getBackground h i g =
        some { ret := h.gl_newImage_background,
               game := npc_setBackground i.toNat h.gl_newImage_background (f g).2,
               calls := [Call.lua_barbg, Call.warn Warning.barbg_not_texture] }) ∧
    ((f g).1 = PcallResult.error LuaValue.other →
      npc_getBackground h i g =
        some { ret := h.gl_newImage_background,
               game := npc_setBackground i.toNat h.gl_newImage_background (f g).2,
               calls := [Call.lua_barbg, Call.warn Warning.barbg_failed,
                 Call.warn Warning.barbg_not_texture] }) := by
  have hob := npc_outOfBounds_false_of_getElem? i g npc h0 hn
  have hn2 : (array_elems (f g).2.npc_array)[i.toNat]? = some npc := by rw [hkeep]; exact hn
  refine ⟨?_, ?_, ?_⟩
  · intro x hx
    simp [npc_getBackground, hob, hn, hb, hh, hx, hn2]
  · intro hx
    simp [npc_getBackground, hob, hn, hb, hh, hx, hn2]
  · intro hx
    simp [npc_getBackground, hob, hn, hb, hh, hx, hn2]


/-- C16, counterexample: with a `barbg` function whose result is not a
texture and a default background that does not load, the first
`npc_getBackground` on an NPC without a background runs the function and
returns `NULL`, nothing is kept, and the same call on the game so left runs
the function again. -/
theorem npc_getBackground_hook_runs_again :
    ∃ o1 o2, npc_getBackground Collab.no_default 0 example_both_lists = some o1 ∧
      o1.ret = none ∧
      o1.calls = [Call.lua_barbg, Call.warn Warning.barbg_not_texture] ∧
      npc_getBackground Collab.no_default 0 o1.game = some o2 ∧
      o2.ret = none ∧
      o2.calls = [Call.lua_barbg, Call.warn Warning.barbg_not_texture] ∧
      o2.calls.count Call.lua_barbg = 1 := by
  refine ⟨{ ret := none, game := example_both_lists,
            calls := [Call.lua_barbg, Call.warn Warning.barbg_not_texture] },
    { ret := none, game := example_both_lists,
      calls := [Call.lua_barbg, Call.warn Warning.barbg_not_texture] }, ?_, rfl, rfl, ?_, rfl, rfl,
    by decide⟩
  · rfl
  · rfl

/-- C16, amended: for an NPC at an in-range index, with a default background that
loads, a `barbg` function that leaves `npc_array` alone and, when it fails,
no texture under its error message: `npc_getBackground` returns a handle and
leaves it in the background slot of that NPC, every other NPC being as before.
An NPC that has a background gets its own handle back with no call and no
change. For one without, the `barbg` function runs once when the spob
defines it and not at all otherwise; the handle stored is the duplicate of the
texture the function returned, and the default background when there is no
function or its result is not a texture. The call repeated on the game so left
returns the stored handle, makes no call and changes nothing. -/
theorem npc_getBackground_lazy_memoized (h : Collab) (i : Int) (g : Game) (npc : NPC_t)
    (d : Tex) (h0 : 0 ≤ i) (hn : (array_elems g.npc_array)[i.toNat]? = some npc)
    (hdef : h.gl_newImage_background = some d)
    (hkeep : ∀ f, h.lua_barbg = some f → (f g).2.npc_array = g.npc_array)
    (hfail : ∀ f below, h.lua_barbg = some f → (f g).1 = PcallResult.error below →
      below = LuaValue.other) :
    ∃ o t, npc_getBackground h i g = some o ∧ o.ret = some t ∧
      (array_elems o.game.npc_array)[i.toNat]? = some { npc with background := some t } ∧
      (∀ k, k ≠ i.toNat →
        (array_elems o.game.npc_array)[k]? = (array_elems g.npc_array)[k]?) ∧
      o.calls.count Call.lua_barbg ≤ 1 ∧
      (∀ t0, npc.background = some t0 → t = t0 ∧ o.game = g ∧ o.calls = []) ∧
      (npc.background = none →
        (h.lua_barbg = none →
          t = d ∧ o.calls = [] ∧ o.game = npc_setBackground i.toNat (some d) g) ∧
        (∀ f, h.lua_barbg = some f →
          o.calls.count Call.lua_barbg = 1 ∧
          o.game = npc_setBackground i.toNat (some t) (f g).2 ∧
          (∀ x, (f g).1 = PcallResult.ok (LuaValue.tex x) → t = h.gl_dupTexture x) ∧
          ((∀ x, (f g).1 ≠ PcallResult.ok (LuaValue.tex x)) → t = d))) ∧
      npc_getBackground h i o.game = some { ret := some t, game := o.game, calls := [] } := by
  cases hb : npc.background with
  | some t0 =>
    have hres := npc_getBackground_stored h i g npc t0 h0 hn hb
    have hnpc : ({ npc with background := some t0 } : NPC_t) = npc := by
      cases npc; simp_all
    refine ⟨_, t0, hres, rfl, by rw [hnpc]; exact hn, fun _ _ => rfl, by simp, ?_, ?_, hres⟩
    · intro t1 ht1
      simp only [Option.some.injEq] at ht1
      exact ⟨ht1, rfl, rfl⟩
    · intro hcon; simp at hcon
  | none =>
    cases hh : h.lua_barbg with
    | none =>
      have hres := npc_getBackground_no_hook h i g npc h0 hn hb hh
      rw [hdef] at hres
      have hslot := npc_setBackground_getElem? i.toNat (some d) g npc hn
      refine ⟨_, d, hres, rfl, hslot,
        fun k hk => npc_setBackground_getElem?_ne i.toNat k (some d) g hk, by simp, ?_, ?_, ?_⟩
      · intro t0 ht0; simp at ht0
      · intro _
        exact ⟨fun _ => ⟨rfl, rfl, rfl⟩, fun f hf => by simp at hf⟩
      · exact npc_getBackground_stored h i _ _ d h0 hslot rfl
    | some f =>
      have hk := hkeep f hh
      have hn2 : (array_elems (f g).2.npc_array)[i.toNat]? = some npc := by rw [hk]; exact hn
      obtain ⟨c1, c2, c3⟩ := npc_getBackground_hook h i g npc f h0 hn hb hh hk
      have hframe : ∀ (t : Tex) k, k ≠ i.toNat →
          (array_elems (npc_setBackground i.toNat (some t) (f g).2).npc_array)[k]? =
            (array_elems g.npc_array)[k]? := by
        intro t k hkne
        rw [npc_setBackground_getElem?_ne i.toNat k (some t) (f g).2 hkne, hk]
      cases hr : (f g).1 with
      | ok v =>
        cases v with
        | tex x =>
          have hres := c1 x hr
          have hslot := npc_setBackground_getElem? i.toNat (some (h.gl_dupTexture x)) (f g).2 npc hn2
          refine ⟨_, h.gl_dupTexture x, hres, rfl, hslot, hframe _, by simp, ?_, ?_, ?_⟩
          · intro t0 ht0; simp at ht0
          · intro _
            refine ⟨fun hcon => by simp at hcon, ?_⟩
            intro f2 hf2
            simp only [Option.some.injEq] at hf2
            subst hf2
            refine ⟨by simp, rfl, ?_, ?_⟩
            · intro x2 hx2
              rw [hr] at hx2
              simp only [PcallResult.ok.injEq, LuaValue.tex.injEq] at hx2
              rw [hx2]
            · intro hall
              exact absurd hr (hall x)
          · exact npc_getBackground_stored h i _ _ _ h0 hslot rfl
        | other =>
          have hres := c2 hr
          rw [hdef] at hres
          have hslot := npc_setBackground_getElem? i.toNat (some d) (f g).2 npc hn2
          refine ⟨_, d, hres, rfl, hslot, hframe _, by simp, ?_, ?_, ?_⟩
          · intro t0 ht0; simp at ht0
          · intro _
            refine ⟨fun hcon => by simp at hcon, ?_⟩
            intro f2 hf2
            simp only [Option.some.injEq] at hf2
            subst hf2
            refine ⟨by simp, rfl, ?_, fun _ => rfl⟩
            intro x2 hx2
            rw [hr] at hx2
            simp at hx2
          · exact npc_getBackground_stored h i _ _ _ h0 hslot rfl
      | error below =>
        have hbelow := hfail f below hh hr
        subst hbelow
        have hres := c3 hr
        rw [hdef] at hres
        have hslot := npc_setBackground_getElem? i.toNat (some d) (f g).2 npc hn2
        refine ⟨_, d, hres, rfl, hslot, hframe _, by simp, ?_, ?_, ?_⟩
        · intro t0 ht0; simp at ht0
        · intro _
          refine ⟨fun hcon => by simp at hcon, ?_⟩
          intro f2 hf2
          simp only [Option.some.injEq] at hf2
          subst hf2
          refine ⟨by simp, rfl, ?_, fun _ => rfl⟩
          intro x2 hx2
          rw [hr] at hx2
          simp at hx2
        · exact npc_getBackground_stored h i _ _ _ h0 hslot rfl


theorem npc_getBackground_lazy_memoized_witness :
    (0 : Int) ≤ 1 ∧
    (array_elems example_shared_owner.npc_array)[(1 : Int).toNat]? =
      some (NPC_t.mk 2 NPCtype.NPC_TYPE_EVENT 5 [66] (some 1) none [100] 7 [102]) ∧
    ∃ o t, npc_getBackground Collab.with_barbg 1 example_shared_owner = some o ∧
      o.ret = some t ∧ t = 109 ∧ o.calls.count Call.lua_barbg = 1 ∧
      npc_getBackground Collab.with_barbg 1 o.game =
        some { ret := some t, game := o.game, calls := [] } := by
  refine ⟨by decide, by decide, ?_⟩
  have hsome : Collab.with_barbg.lua_barbg =
      some (fun g => (PcallResult.ok (LuaValue.tex 9), g)) := rfl
  obtain ⟨o, t, ho, hret, _, _, _, _, hfirst, hlater⟩ :=
    npc_getBackground_lazy_memoized Collab.with_barbg 1 example_shared_owner
      (NPC_t.mk 2 NPCtype.NPC_TYPE_EVENT 5 [66] (some 1) none [100] 7 [102]) 50
      (by decide) (by decide) rfl
      (by
        intro f hf
        rw [hsome] at hf
        simp only [Option.some.injEq] at hf
        rw [← hf])
      (by
        intro f below hf herr
        rw [hsome] at hf
        simp only [Option.some.injEq] at hf
        rw [← hf] at herr
        simp at herr)
  obtain ⟨hcount, _, htex, _⟩ := (hfirst rfl).2 _ hsome
  exact ⟨o, t, ho, hret, htex 9 rfl, hcount, hlater⟩

theorem eraseIdx_eq_filter_of_nodup (l : List NPC_t) (k : Nat) (npc : NPC_t)
    (hnd : (l.map NPC_t.id).Nodup) (hk : l[k]? = some npc) :
    l.eraseIdx k = l.filter (fun m => decide (m.id ≠ npc.id)) :=
  erase_filter_of_unique npc.id l k npc hk rfl (id_not_in_eraseIdx l k npc hnd hk)

theorem npc_rm_typed_self (g : Game) (k : Nat) (npc : NPC_t)
    (hnd : ((array_elems g.npc_array).map NPC_t.id).Nodup)
    (hk : (array_elems g.npc_array)[k]? = some npc) :
    (npc.type = NPCtype.NPC_TYPE_MISSION →
      (npc_rm_mission npc.id npc.u_id g).game =
        { g with npc_array := some ((array_elems g.npc_array).eraseIdx k) }) ∧
    (npc.type = NPCtype.NPC_TYPE_EVENT →
      (npc_rm_event npc.id npc.u_id g).game =
        { g with npc_array := some ((array_elems g.npc_array).eraseIdx k) }) := by
  have hmem : npc ∈ array_elems g.npc_array := by
    obtain ⟨hlt, he⟩ := List.getElem?_eq_some_iff.mp hk
    exact he ▸ List.getElem_mem hlt
  constructor
  · intro hty
    have hz := npc_rm_mission_found npc.id npc.u_id g hnd ⟨npc, hmem, rfl, hty, rfl⟩
    obtain ⟨k2, npc2, hk2, hid2, _, _, hgame, _⟩ := npc_rm_mission_zero npc.id npc.u_id g hz
    rw [hgame, eraseIdx_eq_filter_of_nodup _ k npc hnd hk,
      eraseIdx_eq_filter_of_nodup _ k2 npc2 hnd hk2, hid2]
  · intro hty
    have hz := npc_rm_event_found npc.id npc.u_id g hnd ⟨npc, hmem, rfl, hty, rfl⟩
    obtain ⟨k2, npc2, hk2, hid2, _, _, hgame, _⟩ := npc_rm_event_zero npc.id npc.u_id g hz
    rw [hgame, eraseIdx_eq_filter_of_nodup _ k npc hnd hk,
      eraseIdx_eq_filter_of_nodup _ k2 npc2 hnd hk2, hid2]

/-- C17, counterexample: the session `wrap_keeping` followed by one more
creation reaches a registry of two event NPCs of event `4` that both have the
identity `1`. Approaching the second one (index `1`) with a callback that
removes the NPC approached through the owner-scoped removal,
`npc_rm_event` with the identity and the event it was given, returns `0`, but
the registry afterwards is not the initial one minus the entry approached:
the entry approached is still there and the first entry has been removed. -/
theorem npc_approach_self_removal_removes_another :
    ∃ g o, perform_all Collab.self_removing
        (wrap_keeping.map Action.op ++
          [Action.op (Op.add_event 4 [102] [66] 5 (some 1) [100] none)]) Game.init = some g ∧
      array_elems g.npc_array =
        [example_npc 1 NPCtype.NPC_TYPE_EVENT 4,
         NPC_t.mk 1 NPCtype.NPC_TYPE_EVENT 5 [66] (some 1) none [100] 4 [102]] ∧
      npc_approach Collab.self_removing 1 g = some o ∧ o.ret = 0 ∧
      o.calls = [Call.event_runStart 4 [102], Call.event_runFunc 4 [102] 1] ∧
      array_elems o.game.npc_array =
        [NPC_t.mk 1 NPCtype.NPC_TYPE_EVENT 5 [66] (some 1) none [100] 4 [102]] ∧
      array_elems o.game.npc_array ≠ (array_elems g.npc_array).eraseIdx 1 := by
  refine ⟨(npc_add_event 4 [102] [66] 5 (some 1) [100] none example_wrapped).game,
    { ret := 0,
      game := (npc_rm_event 1 4
        (npc_add_event 4 [102] [66] 5 (some 1) [100] none example_wrapped).game).game,
      calls := [Call.event_runStart 4 [102], Call.event_runFunc 4 [102] 1] }, ?_, ?_, ?_, ?_⟩
  · rw [perform_all_after_wrap]; rfl
  · decide
  · rfl
  · exact ⟨rfl, rfl, by decide, by decide⟩

/-- C17, amended: approaching a mission NPC whose mission is found, or an
event NPC, with a run-start hook that leaves `npc_array` as it is: the
run-start hook and then the callback are called, both with the owner and the
callback name of the NPC, the callback with the identity of the NPC as
argument; the result is `0` and the game is the game the callback left, with
no removal added. When the callback is the owner-scoped removal of the NPC
itself, on a game whose identities are pairwise distinct, the array afterwards
is the initial one without the NPC at the index approached, one shorter. -/
theorem npc_approach_spawned (h : Collab) (i : Int) (g : Game) (npc : NPC_t)
    (h0 : 0 ≤ i) (hn : (array_elems g.npc_array)[i.toNat]? = some npc) :
    (npc.type = NPCtype.NPC_TYPE_MISSION → ∀ misn, npc_getMisn npc g = some misn →
      (h.misn_runStart misn npc.u_func g).npc_array = g.npc_array →
      npc_approach h i g =
        some { ret := 0,
               game := h.misn_runFunc misn npc.u_func npc.id (h.misn_runStart misn npc.u_func g),
               calls := [Call.misn_runStart misn npc.u_func,
                 Call.misn_runFunc misn npc.u_func npc.id] }) ∧
    (npc.type = NPCtype.NPC_TYPE_EVENT →
      (h.event_runStart npc.u_id npc.u_func g).npc_array = g.npc_array →
      npc_approach h i g =
        some { ret := 0,
               game := h.event_runFunc npc.u_id npc.u_func npc.id
                 (h.event_runStart npc.u_id npc.u_func g),
               calls := [Call.event_runStart npc.u_id npc.u_func,
                 Call.event_runFunc npc.u_id npc.u_func npc.id] }) ∧
    (npc.type = NPCtype.NPC_TYPE_MISSION → ∀ misn, npc_getMisn npc g = some misn →
      (h.misn_runStart misn npc.u_func g).npc_array = g.npc_array →
      h.misn_runFunc misn npc.u_func npc.id (h.misn_runStart misn npc.u_func g) =
        (npc_rm_mission npc.id npc.u_id (h.misn_runStart misn npc.u_func g)).game →
      ((array_elems g.npc_array).map NPC_t.id).Nodup →
      ∃ o, npc_approach h i g = some o ∧ o.ret = 0 ∧
        array_elems o.game.npc_array = (array_elems g.npc_array).eraseIdx i.toNat ∧
        npc_getArraySize o.game = npc_getArraySize g - 1) ∧
    (npc.type = NPCtype.NPC_TYPE_EVENT →
      (h.event_runStart npc.u_id npc.u_func g).npc_array = g.npc_array →
      h.event_runFunc npc.u_id npc.u_func npc.id (h.event_runStart npc.u_id npc.u_func g) =
        (npc_rm_event npc.id npc.u_id (h.event_runStart npc.u_id npc.u_func g)).game →
      ((array_elems g.npc_array).map NPC_t.id).Nodup →
      ∃ o, npc_approach h i g = some o ∧ o.ret = 0 ∧
        array_elems o.game.npc_array = (array_elems g.npc_array).eraseIdx i.toNat ∧
        npc_getArraySize o.game = npc_getArraySize g - 1) := by
  have hb := inBounds_of_getElem? i g npc h0 hn
  unfold npc_getArraySize at hb
  have hlen := (List.getElem?_eq_some_iff.mp hn).1
  have hmis : npc.type = NPCtype.NPC_TYPE_MISSION → ∀ misn, npc_getMisn npc g = some misn →
      (h.misn_runStart misn npc.u_func g).npc_array = g.npc_array →
      npc_approach h i g =
        some { ret := 0,
               game := h.misn_runFunc misn npc.u_func npc.id (h.misn_runStart misn npc.u_func g),
               calls := [Call.misn_runStart misn npc.u_func,
                 Call.misn_runFunc misn npc.u_func npc.id] } := by
    intro hty misn hm hkeep
    simp only [npc_approach, hb, if_false, hn, hty, hm, hkeep]
  have hevt : npc.type = NPCtype.NPC_TYPE_EVENT →
      (h.event_runStart npc.u_id npc.u_func g).npc_array = g.npc_array →
      npc_approach h i g =
        some { ret := 0,
               game := h.event_runFunc npc.u_id npc.u_func npc.id
                 (h.event_runStart npc.u_id npc.u_func g),
               calls := [Call.event_runStart npc.u_id npc.u_func,
                 Call.event_runFunc npc.u_id npc.u_func npc.id] } := by
    intro hty hkeep
    simp only [npc_approach, hb, if_false, hn, hty, hkeep]
  refine ⟨hmis, hevt, ?_, ?_⟩
  · intro hty misn hm hkeep hcb hnd
    have hn1 : (array_elems (h.misn_runStart misn npc.u_func g).npc_array)[i.toNat]? =
        some npc := by rw [hkeep]; exact hn
    have hnd1 : ((array_elems (h.misn_runStart misn npc.u_func g).npc_array).map
        NPC_t.id).Nodup := by rw [hkeep]; exact hnd
    have hrm := (npc_rm_typed_self _ i.toNat npc hnd1 hn1).1 hty
    refine ⟨_, hmis hty misn hm hkeep, rfl, ?_, ?_⟩
    · simp only [hcb, hrm, hkeep, array_elems]
    · simp only [hcb, hrm, hkeep]
      have := npc_getArraySize_eraseIdx g i.toNat hlen
      simpa [npc_getArraySize] using this
  · intro hty hkeep hcb hnd
    have hn1 : (array_elems (h.event_runStart npc.u_id npc.u_func g).npc_array)[i.toNat]? =
        some npc := by rw [hkeep]; exact hn
    have hnd1 : ((array_elems (h.event_runStart npc.u_id npc.u_func g).npc_array).map
        NPC_t.id).Nodup := by rw [hkeep]; exact hnd
    have hrm := (npc_rm_typed_self _ i.toNat npc hnd1 hn1).2 hty
    refine ⟨_, hevt hty hkeep, rfl, ?_, ?_⟩
    · simp only [hcb, hrm, hkeep, array_elems]
    · simp only [hcb, hrm, hkeep]
      have := npc_getArraySize_eraseIdx g i.toNat hlen
      simpa [npc_getArraySize] using this


theorem npc_approach_spawned_witness :
    (0 : Int) ≤ 1 ∧
    (∃ o, npc_approach Collab.self_removing 1 example_both_lists = some o ∧ o.ret = 0 ∧
      array_elems o.game.npc_array =
        (array_elems example_both_lists.npc_array).eraseIdx (1 : Int).toNat ∧
      npc_getArraySize o.game = npc_getArraySize example_both_lists - 1) ∧
    (∃ o, npc_approach Collab.self_removing 1 example_shared_owner = some o ∧ o.ret = 0 ∧
      array_elems o.game.npc_array =
        (array_elems example_shared_owner.npc_array).eraseIdx (1 : Int).toNat ∧
      npc_getArraySize o.game = npc_getArraySize example_shared_owner - 1) ∧
    npc_approach Collab.quiet 1 example_both_lists =
      some { ret := 0, game := example_both_lists,
             calls := [Call.misn_runStart (MisnRef.npc 1) [102],
               Call.misn_runFunc (MisnRef.npc 1) [102] 2] } :=
  ⟨by decide,
   (npc_approach_spawned Collab.self_removing 1 example_both_lists
      (example_npc 2 NPCtype.NPC_TYPE_MISSION 8) (by decide) (by decide)).2.2.1
      rfl (MisnRef.npc 1) (by decide) rfl rfl (by decide),
   (npc_approach_spawned Collab.self_removing 1 example_shared_owner
      (NPC_t.mk 2 NPCtype.NPC_TYPE_EVENT 5 [66] (some 1) none [100] 7 [102])
      (by decide) (by decide)).2.2.2 rfl rfl rfl (by decide),
   (npc_approach_spawned Collab.quiet 1 example_both_lists
      (example_npc 2 NPCtype.NPC_TYPE_MISSION 8) (by decide) (by decide)).1
      rfl (MisnRef.npc 1) (by decide) rfl⟩

theorem npc_compare_antisymm (a b : NPC_t) : npc_compare b a = - npc_compare a b := by
  unfold npc_compare
  have hs := strcmp_antisymm a.name b.name
  simp only []
  split_ifs <;> omega

theorem npc_compare_eq_zero (a b : NPC_t) (h : npc_compare a b = 0) :
    a.priority = b.priority ∧ strcmp a.name b.name = 0 ∧ a.id = b.id := by
  unfold npc_compare at h
  simp only [] at h
  split_ifs at h <;> omega

theorem sorted_perm_unique {α : Type} (r : α → α → Prop) :
    ∀ (l1 l2 : List α), (∀ a ∈ l1, ∀ b ∈ l1, r a b → r b a → a = b) →
      l1.Perm l2 → l1.Pairwise r → l2.Pairwise r → l1 = l2 := by
  intro l1
  induction l1 with
  | nil =>
    intro l2 _ hp _ _
    exact (List.Perm.nil_eq hp)
  | cons a t1 ih =>
    intro l2 hanti hp hs1 hs2
    cases l2 with
    | nil => exact absurd (List.Perm.eq_nil hp) (List.cons_ne_nil a t1)
    | cons b t2 =>
      rw [List.pairwise_cons] at hs1 hs2
      have hab : a = b := by
        by_contra hne
        have ha2 : a ∈ b :: t2 := hp.subset (List.mem_cons_self a t1)
        have hb1 : b ∈ a :: t1 := hp.symm.subset (List.mem_cons_self b t2)
        have ha_t2 : a ∈ t2 := by
          rcases List.mem_cons.mp ha2 with h | h
          · exact absurd h hne
          · exact h
        have hb_t1 : b ∈ t1 := by
          rcases List.mem_cons.mp hb1 with h | h
          · exact absurd h.symm hne
          · exact h
        exact hne (hanti a (List.mem_cons_self a t1) b hb1 (hs1.1 b hb_t1) (hs2.1 a ha_t2))
      subst hab
      have hpt : t1.Perm t2 := List.Perm.cons_inv hp
      have := ih t2 (fun x hx y hy => hanti x (List.mem_cons_of_mem _ hx) y
        (List.mem_cons_of_mem _ hy)) hpt hs1.2 hs2.2
      rw [this]

theorem qsort_npc_compare_perm_invariant (l1 l2 : List NPC_t) (hp : l1.Perm l2)
    (hnd : (l1.map NPC_t.id).Nodup) : qsort npc_compare l1 = qsort npc_compare l2 := by
  apply sorted_perm_unique (fun a b => npc_compare a b ≤ 0)
  · intro a ha b hb hab hba
    have ha1 : a ∈ l1 := (qsort_perm npc_compare l1).mem_iff.mp ha
    have hb1 : b ∈ l1 := (qsort_perm npc_compare l1).mem_iff.mp hb
    have hz : npc_compare a b = 0 := by
      have := npc_compare_antisymm a b
      omega
    exact List.inj_on_of_nodup_map hnd ha1 hb1 (npc_compare_eq_zero a b hz).2.2
  · exact (qsort_perm npc_compare l1).trans (hp.trans (qsort_perm npc_compare l2).symm)
  · exact qsort_sorted _ npc_compare_total npc_compare_trans _
  · exact qsort_sorted _ npc_compare_total npc_compare_trans _

theorem qsort_npc_compare_unique (l s : List NPC_t) (hp : s.Perm l)
    (hs : s.Pairwise (fun a b => npc_compare a b ≤ 0)) (hnd : (l.map NPC_t.id).Nodup) :
    qsort npc_compare l = s := by
  apply sorted_perm_unique (fun a b => npc_compare a b ≤ 0)
  · intro a ha b hb hab hba
    have ha1 : a ∈ l := (qsort_perm npc_compare l).mem_iff.mp ha
    have hb1 : b ∈ l := (qsort_perm npc_compare l).mem_iff.mp hb
    have hz : npc_compare a b = 0 := by
      have := npc_compare_antisymm a b
      omega
    exact List.inj_on_of_nodup_map hnd ha1 hb1 (npc_compare_eq_zero a b hz).2.2
  · exact (qsort_perm npc_compare l).trans hp.symm
  · exact qsort_sorted _ npc_compare_total npc_compare_trans _
  · exact hs

/-- C18: `npc_compare` is a total order on NPCs: `npc_compare b a` is the
negation of `npc_compare a b`, so the signs are opposite; it is transitive;
and it is `0` only for NPCs of equal priority, equal name (`strcmp` is `0`,
which for names without a NUL byte means the same bytes) and equal identity.
Hence for NPCs with pairwise distinct identities `qsort` with `npc_compare`,
and so `npc_sort`, yields for every permutation of them the same array, which
holds exactly these NPCs (it is a permutation of the input) in ascending order
of `npc_compare`, and which is the only such arrangement of them. -/
theorem npc_compare_total_order :
    (∀ a b : NPC_t, npc_compare b a = - npc_compare a b) ∧
    (∀ a b : NPC_t, Int.sign (npc_compare b a) = - Int.sign (npc_compare a b)) ∧
    (∀ a b : NPC_t, npc_compare a b ≤ 0 ∨ npc_compare b a ≤ 0) ∧
    (∀ a b c : NPC_t, npc_compare a b ≤ 0 → npc_compare b c ≤ 0 → npc_compare a c ≤ 0) ∧
    (∀ a b : NPC_t, npc_compare a b = 0 →
      a.priority = b.priority ∧ strcmp a.name b.name = 0 ∧ a.id = b.id ∧
      (0 ∉ a.name → 0 ∉ b.name → a.name = b.name)) ∧
    (∀ l1 l2 : List NPC_t, l1.Perm l2 → (l1.map NPC_t.id).Nodup →
      qsort npc_compare l1 = qsort npc_compare l2 ∧
      (qsort npc_compare l1).Perm l1 ∧
      (qsort npc_compare l1).Pairwise (fun a b => npc_compare a b ≤ 0) ∧
      ∀ s : List NPC_t, s.Perm l1 → s.Pairwise (fun a b => npc_compare a b ≤ 0) →
        qsort npc_compare l2 = s) ∧
    (∀ g1 g2 : Game, (array_elems g1.npc_array).Perm (array_elems g2.npc_array) →
      ((array_elems g1.npc_array).map NPC_t.id).Nodup →
      array_elems (npc_sort g1).game.npc_array = array_elems (npc_sort g2).game.npc_array ∧
      (array_elems (npc_sort g2).game.npc_array).Perm (array_elems g1.npc_array) ∧
      (array_elems (npc_sort g2).game.npc_array).Pairwise (fun a b => npc_compare a b ≤ 0) ∧
      npc_getArraySize (npc_sort g2).game = npc_getArraySize g1) := by
  refine ⟨npc_compare_antisymm, ?_, npc_compare_total, npc_compare_trans, ?_, ?_, ?_⟩
  · intro a b
    rw [npc_compare_antisymm a b, Int.sign_neg]
  · intro a b hz
    obtain ⟨h1, h2, h3⟩ := npc_compare_eq_zero a b hz
    exact ⟨h1, h2, h3, fun ha hb => (strcmp_eq_zero_iff a.name b.name ha hb).mp h2⟩
  · intro l1 l2 hp hnd
    have hnd2 : (l2.map NPC_t.id).Nodup := (hp.map NPC_t.id).nodup_iff.mp hnd
    refine ⟨qsort_npc_compare_perm_invariant l1 l2 hp hnd, qsort_perm _ _,
      qsort_sorted _ npc_compare_total npc_compare_trans _, ?_⟩
    intro s hs1 hs2
    exact qsort_npc_compare_unique l2 s (hs1.trans hp) hs2 hnd2
  · intro g1 g2 hp hnd
    rw [npc_sort_elems, npc_sort_elems]
    refine ⟨qsort_npc_compare_perm_invariant _ _ hp hnd,
      (qsort_perm _ _).trans hp.symm,
      qsort_sorted _ npc_compare_total npc_compare_trans _, ?_⟩
    have hlen := ((qsort_perm npc_compare (array_elems g2.npc_array)).trans hp.symm).length_eq
    unfold npc_getArraySize
    rw [array_size_eq_length, array_size_eq_length, npc_sort_elems, hlen]

theorem npc_compare_total_order_witness :
    (array_elems (npc_sort example_bob_ann_ann).game.npc_array =
      array_elems (npc_sort
        { example_bob_ann_ann with
          npc_array := some (array_elems example_bob_ann_ann.npc_array).reverse }).game.npc_array ∧
     (array_elems (npc_sort
        { example_bob_ann_ann with
          npc_array := some (array_elems example_bob_ann_ann.npc_array).reverse }).game.npc_array).Perm
        (array_elems example_bob_ann_ann.npc_array) ∧
     (array_elems (npc_sort
        { example_bob_ann_ann with
          npc_array := some (array_elems example_bob_ann_ann.npc_array).reverse }).game.npc_array).Pairwise
        (fun a b => npc_compare a b ≤ 0) ∧
     npc_getArraySize (npc_sort
        { example_bob_ann_ann with
          npc_array := some (array_elems example_bob_ann_ann.npc_array).reverse }).game =
       npc_getArraySize example_bob_ann_ann) ∧
    (array_elems example_bob_ann_ann.npc_array).map NPC_t.id = [1, 2, 3] ∧
    (array_elems (npc_sort example_bob_ann_ann).game.npc_array).map NPC_t.id = [2, 3, 1] ∧
    (array_elems (npc_sort
        { example_bob_ann_ann with
          npc_array := some (array_elems example_bob_ann_ann.npc_array).reverse }).game.npc_array).map
      NPC_t.id = [2, 3, 1] ∧
    npc_compare (example_npc 1 NPCtype.NPC_TYPE_EVENT 3) (example_npc 2 NPCtype.NPC_TYPE_EVENT 3)
      ≤ 0 :=
  ⟨npc_compare_total_order.2.2.2.2.2.2 example_bob_ann_ann
      { example_bob_ann_ann with
        npc_array := some (array_elems example_bob_ann_ann.npc_array).reverse }
      (by decide) (by decide),
   by decide, by decide, by decide,
   npc_compare_total_order.2.2.2.1 (example_npc 1 NPCtype.NPC_TYPE_EVENT 3)
      (example_npc 1 NPCtype.NPC_TYPE_EVENT 3) (example_npc 2 NPCtype.NPC_TYPE_EVENT 3)
      (by decide) (by decide)⟩

theorem npc_generateMissions_loop_spec (h : Collab) (ms : List Mission) :
    ∀ (g : Game) (tr : List Call), g.landed = true →
      (npc_generateMissions_loop h ms g tr).1.landed = true ∧
      array_elems (npc_generateMissions_loop h ms g tr).1.npc_missions =
        array_elems g.npc_missions ++ ms ∧
      array_elems (npc_generateMissions_loop h ms g tr).1.npc_array =
        array_elems g.npc_array ++ listed_givers h ms g.npc_array_idgen ∧
      (npc_generateMissions_loop h ms g tr).1.player_missions = g.player_missions := by
  induction ms with
  | nil =>
    intro g tr hl
    simp [npc_generateMissions_loop, listed_givers, hl]
  | cons m rest ih =>
    intro g tr hl
    cases h1 : m.npc with
    | none =>
      obtain ⟨r1, r2, r3, r4⟩ := ih
        { g with npc_missions := some (array_elems g.npc_missions ++ [m]) } tr hl
      simp only [npc_generateMissions_loop, h1, listed_givers]
      refine ⟨r1, ?_, r3, r4⟩
      rw [r2]
      simp [array_elems]
    | some name =>
      by_cases hc : m.portrait = none ∨ m.npc_desc = none
      · have href := (npc_add_giver_refused h m
          { g with npc_missions := some (array_elems g.npc_missions ++ [m]) }
          (Or.inr hc)).2.1
        obtain ⟨r1, r2, r3, r4⟩ := ih
          { g with npc_missions := some (array_elems g.npc_missions ++ [m]) }
          (tr ++ (npc_add_giver h m
            { g with npc_missions := some (array_elems g.npc_missions ++ [m]) }).calls) hl
        have hlg : listed_givers h (m :: rest) g.npc_array_idgen =
            listed_givers h rest g.npc_array_idgen := by
          rcases hc with hc | hc
          · simp only [listed_givers, h1, hc]
          · cases h2 : m.portrait <;> simp only [listed_givers, h1, h2, hc]
        simp only [npc_generateMissions_loop, h1, href, hlg]
        refine ⟨r1, ?_, r3, r4⟩
        rw [r2]
        simp [array_elems]
      · have hp : ∃ portrait, m.portrait = some portrait := by
          cases h2 : m.portrait with
          | none => exact absurd (Or.inl h2) hc
          | some p => exact ⟨p, rfl⟩
        have hd : ∃ desc, m.npc_desc = some desc := by
          cases h3 : m.npc_desc with
          | none => exact absurd (Or.inr h3) hc
          | some d => exact ⟨d, rfl⟩
        obtain ⟨portrait, h2⟩ := hp
        obtain ⟨desc, h3⟩ := hd
        have hadd := npc_add_giver_complete h m
          { g with npc_missions := some (array_elems g.npc_missions ++ [m]) }
          name portrait desc h1 h2 h3 hl
        obtain ⟨r1, r2, r3, r4⟩ := ih
          (npc_add_giver h m
            { g with npc_missions := some (array_elems g.npc_missions ++ [m]) }).game
          (tr ++ (npc_add_giver h m
            { g with npc_missions := some (array_elems g.npc_missions ++ [m]) }).calls)
          (by rw [hadd]; exact hl)
        simp only [npc_generateMissions_loop, h1, listed_givers, h2, h3]
        refine ⟨r1, ?_, ?_, ?_⟩
        · rw [r2, hadd]
          simp [array_elems]
        · rw [r3, hadd]
          simp [array_elems]
        · rw [r4, hadd]

theorem listed_givers_owners (h : Collab) (ms : List Mission) :
    ∀ idgen, (listed_givers h ms idgen).map NPC_t.u_id =
      (ms.filter Mission.has_npc).map Mission.id ∧
      ∀ npc ∈ listed_givers h ms idgen, npc.type = NPCtype.NPC_TYPE_GIVER := by
  induction ms with
  | nil => intro idgen; simp [listed_givers]
  | cons m rest ih =>
    intro idgen
    cases h1 : m.npc with
    | none =>
      have hn : Mission.has_npc m = false := by simp [Mission.has_npc, h1]
      simp only [listed_givers, h1, List.filter_cons, hn]
      exact ih idgen
    | some name =>
      cases h2 : m.portrait with
      | none =>
        have hn : Mission.has_npc m = false := by simp [Mission.has_npc, h2]
        simp only [listed_givers, h1, h2, List.filter_cons, hn]
        exact ih idgen
      | some portrait =>
        cases h3 : m.npc_desc with
        | none =>
          have hn : Mission.has_npc m = false := by simp [Mission.has_npc, h3]
          simp only [listed_givers, h1, h2, h3, List.filter_cons, hn]
          exact ih idgen
        | some desc =>
          have hn : Mission.has_npc m = true := by simp [Mission.has_npc, h1, h2, h3]
          obtain ⟨i1, i2⟩ := ih ((idgen + 1) % UINT_MOD)
          simp only [listed_givers, h1, h2, h3, List.filter_cons, hn, if_true, List.map_cons,
            i1, List.mem_cons]
          refine ⟨by simp [giver_npc], ?_⟩
          intro npc hnpc
          rcases hnpc with rfl | hnpc
          · rfl
          · exact i2 npc hnpc


theorem npc_generateMissions_game (h : Collab) (g : Game) :
    (npc_generateMissions h g).game =
      (npc_sort (npc_generateMissions_loop h (h.missions_genList (with_pending_array g)).1
        (h.missions_genList (with_pending_array g)).2 []).1).game := rfl

/-- C19: in a session that is active when the listing collaborator returns,
`npc_generateMissions` appends the listed missions, in order, to the pending
list the collaborator left, and the NPC array afterwards is the array the
collaborator left plus one giver for each listed mission that has an NPC
name, a portrait and a description (owned by that mission, none for the other
missions), sorted with `npc_compare`: every NPC registered before is kept and
the array is ordered by priority, name and identity. -/
theorem npc_generateMissions_spec (h : Collab) (g : Game)
    (hl : (h.missions_genList (with_pending_array g)).2.landed = true) :
    array_elems (npc_generateMissions h g).game.npc_missions =
      array_elems (h.missions_genList (with_pending_array g)).2.npc_missions ++
        (h.missions_genList (with_pending_array g)).1 ∧
    array_elems (npc_generateMissions h g).game.npc_array =
      qsort npc_compare
        (array_elems (h.missions_genList (with_pending_array g)).2.npc_array ++
          listed_givers h (h.missions_genList (with_pending_array g)).1
            (h.missions_genList (with_pending_array g)).2.npc_array_idgen) ∧
    (array_elems (npc_generateMissions h g).game.npc_array).Perm
      (array_elems (h.missions_genList (with_pending_array g)).2.npc_array ++
        listed_givers h (h.missions_genList (with_pending_array g)).1
          (h.missions_genList (with_pending_array g)).2.npc_array_idgen) ∧
    (listed_givers h (h.missions_genList (with_pending_array g)).1
        (h.missions_genList (with_pending_array g)).2.npc_array_idgen).map NPC_t.u_id =
      ((h.missions_genList (with_pending_array g)).1.filter Mission.has_npc).map Mission.id ∧
    (∀ npc ∈ listed_givers h (h.missions_genList (with_pending_array g)).1
        (h.missions_genList (with_pending_array g)).2.npc_array_idgen,
      npc.type = NPCtype.NPC_TYPE_GIVER) ∧
    (∀ npc ∈ array_elems (h.missions_genList (with_pending_array g)).2.npc_array,
      npc ∈ array_elems (npc_generateMissions h g).game.npc_array) ∧
    ((h.missions_genList (with_pending_array g)).2.npc_array = g.npc_array →
      ∀ npc ∈ array_elems g.npc_array,
        npc ∈ array_elems (npc_generateMissions h g).game.npc_array) ∧
    (array_elems (npc_generateMissions h g).game.npc_array).Pairwise
      (fun a b => npc_compare a b ≤ 0) := by
  obtain ⟨_, r2, r3, _⟩ := npc_generateMissions_loop_spec h
    (h.missions_genList (with_pending_array g)).1
    (h.missions_genList (with_pending_array g)).2 [] hl
  have helems : array_elems (npc_generateMissions h g).game.npc_array =
      qsort npc_compare
        (array_elems (h.missions_genList (with_pending_array g)).2.npc_array ++
          listed_givers h (h.missions_genList (with_pending_array g)).1
            (h.missions_genList (with_pending_array g)).2.npc_array_idgen) := by
    rw [npc_generateMissions_game, npc_sort_elems, r3]
  have hperm := qsort_perm npc_compare
    (array_elems (h.missions_genList (with_pending_array g)).2.npc_array ++
      listed_givers h (h.missions_genList (with_pending_array g)).1
        (h.missions_genList (with_pending_array g)).2.npc_array_idgen)
  have hkept : ∀ npc ∈ array_elems (h.missions_genList (with_pending_array g)).2.npc_array,
      npc ∈ array_elems (npc_generateMissions h g).game.npc_array := by
    intro npc hm
    rw [helems]
    exact hperm.mem_iff.mpr (List.mem_append_left _ hm)
  refine ⟨?_, helems, by rw [helems]; exact hperm,
    (listed_givers_owners h _ _).1, (listed_givers_owners h _ _).2, hkept, ?_, ?_⟩
  · rw [npc_generateMissions_game, (npc_sort_frame _).1]
    exact r2
  · intro hsame npc hm
    exact hkept npc (by rw [hsame]; exact hm)
  · rw [helems]
    exact qsort_sorted _ npc_compare_total npc_compare_trans _

theorem npc_generateMissions_spec_witness :
    (Collab.listing.missions_genList (with_pending_array example_shared_owner)).2.landed = true ∧
    ((array_elems (npc_generateMissions Collab.listing example_shared_owner).game.npc_missions).map
        Mission.id = [7, 8, 9] ∧
      (array_elems (npc_generateMissions Collab.listing example_shared_owner).game.npc_array).map
        NPC_t.id = [6, 1, 2, 3, 5, 4] ∧
      (array_elems (npc_generateMissions Collab.listing example_shared_owner).game.npc_array).Pairwise
        (fun a b => npc_compare a b ≤ 0)) :=
  ⟨by decide, by decide, by decide,
   (npc_generateMissions_spec Collab.listing example_shared_owner (by decide)).2.2.2.2.2.2.2⟩

theorem registry_invariant_of_sublist (g g1 : Game)
    (hs : (array_elems g1.npc_array).Sublist (array_elems g.npc_array))
    (hi : g.npc_array_idgen ≤ g1.npc_array_idgen) (hinv : registry_invariant g) :
    registry_invariant g1 := by
  obtain ⟨hnd, hall⟩ := hinv
  refine ⟨hnd.sublist (hs.map NPC_t.id), ?_⟩
  intro npc hm
  obtain ⟨a, b, c⟩ := hall npc (hs.subset hm)
  exact ⟨a, by omega, c⟩

theorem registry_invariant_of_eq (g g1 : Game) (ha : g1.npc_array = g.npc_array)
    (hi : g1.npc_array_idgen = g.npc_array_idgen) (hinv : registry_invariant g) :
    registry_invariant g1 :=
  registry_invariant_of_sublist g g1 (by rw [ha]) (by omega) hinv

theorem registry_invariant_of_perm (g g1 : Game)
    (hp : (array_elems g1.npc_array).Perm (array_elems g.npc_array))
    (hi : g1.npc_array_idgen = g.npc_array_idgen) (hinv : registry_invariant g) :
    registry_invariant g1 := by
  obtain ⟨hnd, hall⟩ := hinv
  refine ⟨(hp.map NPC_t.id).nodup_iff.mpr hnd, ?_⟩
  intro npc hm
  obtain ⟨a, b, c⟩ := hall npc (hp.mem_iff.mp hm)
  exact ⟨a, by omega, c⟩

theorem registry_invariant_npc_add (npc : NPC_t) (g : Game)
    (hty : npc.type ≠ NPCtype.NPC_TYPE_NULL) (hw : g.npc_array_idgen + 1 < UINT_MOD)
    (hinv : registry_invariant g) :
    registry_invariant (npc_add npc g).game ∧
    g.npc_array_idgen ≤ (npc_add npc g).game.npc_array_idgen ∧
    (npc_add npc g).game.npc_array_idgen ≤ g.npc_array_idgen + 1 := by
  cases hl : g.landed with
  | false =>
    rw [npc_add_not_landed npc g hl]
    exact ⟨hinv, Nat.le_refl _, Nat.le_succ _⟩
  | true =>
    rw [npc_add_landed npc g hl]
    have hmod : (g.npc_array_idgen + 1) % UINT_MOD = g.npc_array_idgen + 1 :=
      Nat.mod_eq_of_lt hw
    obtain ⟨hnd, hall⟩ := hinv
    simp only [hmod]
    refine ⟨⟨?_, ?_⟩, Nat.le_succ _, Nat.le_refl _⟩
    · show ((array_elems g.npc_array ++ [_]).map NPC_t.id).Nodup
      rw [List.map_append, List.nodup_append]
      refine ⟨hnd, by simp, ?_⟩
      intro x hx1 hx2
      simp only [List.map_cons, List.map_nil, List.mem_singleton] at hx2
      obtain ⟨n, hn, hnid⟩ := List.mem_map.mp hx1
      have := (hall n hn).2.1
      omega
    · intro n hn
      have hn2 : n ∈ array_elems g.npc_array ++
          [{ npc with id := g.npc_array_idgen + 1 }] := hn
      rcases List.mem_append.mp hn2 with hn3 | hn3
      · obtain ⟨a, b, c⟩ := hall n hn3
        exact ⟨a, Nat.le_succ_of_le b, c⟩
      · simp only [List.mem_singleton] at hn3
        subst hn3
        exact ⟨Nat.succ_ne_zero _, Nat.le_refl _, hty⟩

theorem registry_invariant_npc_add_giver (h : Collab) (misn : Mission) (g : Game)
    (hw : g.npc_array_idgen + 1 < UINT_MOD) (hinv : registry_invariant g) :
    registry_invariant (npc_add_giver h misn g).game ∧
    g.npc_array_idgen ≤ (npc_add_giver h misn g).game.npc_array_idgen ∧
    (npc_add_giver h misn g).game.npc_array_idgen ≤ g.npc_array_idgen + 1 := by
  unfold npc_add_giver
  cases h1 : misn.npc with
  | none => exact ⟨hinv, Nat.le_refl _, Nat.le_succ _⟩
  | some name =>
    cases h2 : misn.portrait with
    | none => exact ⟨hinv, Nat.le_refl _, Nat.le_succ _⟩
    | some portrait =>
      cases h3 : misn.npc_desc with
      | none => exact ⟨hinv, Nat.le_refl _, Nat.le_succ _⟩
      | some desc => exact registry_invariant_npc_add _ g (by simp) hw hinv

theorem npc_rm_sublist (p : Option Nat) (g : Game) :
    (array_elems (npc_rm p g).game.npc_array).Sublist (array_elems g.npc_array) := by
  cases p with
  | none => exact List.Sublist.refl _
  | some k => exact List.eraseIdx_sublist _ _

theorem npc_rm_event_sublist (id evt : Nat) (g : Game) :
    (array_elems (npc_rm_event id evt g).game.npc_array).Sublist (array_elems g.npc_array) := by
  rcases npc_rm_event_cases id evt g with hz | hm
  · obtain ⟨k, _, _, _, _, _, hgame, _⟩ := npc_rm_event_zero id evt g hz
    rw [hgame]
    exact List.eraseIdx_sublist _ _
  · rw [hm]

theorem npc_rm_mission_sublist (id mid : Nat) (g : Game) :
    (array_elems (npc_rm_mission id mid g).game.npc_array).Sublist (array_elems g.npc_array) := by
  rcases npc_rm_mission_cases id mid g with hz | hm
  · obtain ⟨k, _, _, _, _, _, hgame, _⟩ := npc_rm_mission_zero id mid g hz
    rw [hgame]
    exact List.eraseIdx_sublist _ _
  · rw [hm]

theorem registry_invariant_npc_sort (g : Game) (hinv : registry_invariant g) :
    registry_invariant (npc_sort g).game :=
  registry_invariant_of_perm g _ (by rw [npc_sort_elems]; exact qsort_perm _ _)
    (npc_sort_idgen g) hinv

theorem registry_invariant_clear_loop (h : Collab) (hk : h.keeps_invariant) :
    ∀ (fuel i : Nat) (g : Game) (tr : List Call) (r : Game × List Call),
      registry_invariant g → npc_clear_below_wrap h fuel i g = true →
      npc_clear_loop h fuel i g tr = some r → registry_invariant r.1 := by
  intro fuel
  induction fuel with
  | zero =>
    intro i g tr r hinv _ hr
    simp only [npc_clear_loop] at hr
    split_ifs at hr
    simp only [Option.some.injEq] at hr
    rw [← hr]; exact hinv
  | succ fuel ih =>
    intro i g tr r hinv hw hr
    rw [npc_clear_loop] at hr
    rw [npc_clear_below_wrap] at hw
    split_ifs at hr with hlt
    · simp only [hlt, if_true] at hw
      split at hr
      · simp at hr
      · rename_i m hm
        simp only [hm] at hw
        simp only [] at hr
        split_ifs at hr with hj
        · simp only [hj, if_true, Bool.and_eq_true] at hw
          exact ih _ _ _ r (hk.2.1 _ g hinv hw.1) hw.2 hr
        · simp only [hj, if_false] at hw
          exact ih _ _ _ r hinv hw hr
    · simp only [Option.some.injEq] at hr
      rw [← hr]; exact hinv

theorem created_fst (g : Game) (o : Out Nat) : (created g o).1 = o.game := by
  unfold created
  split_ifs <;> rfl

theorem registry_invariant_step (h : Collab) (hk : h.keeps_invariant) (op : Op) (g : Game)
    (r : Game × List Nat) (hr : step h op g = some r)
    (hw : below_wrap h (Action.op op) g = true) (hinv : registry_invariant g) :
    registry_invariant r.1 := by
  cases op with
  | add_mission mid func name priority portrait desc background =>
    simp only [below_wrap, Op.isCreation, Bool.not_true, Bool.false_or,
      decide_eq_true_eq] at hw
    simp only [step, Option.some.injEq] at hr
    rw [← hr, created_fst]
    exact (registry_invariant_npc_add _ g (by simp) hw hinv).1
  | add_event evt func name priority portrait desc background =>
    simp only [below_wrap, Op.isCreation, Bool.not_true, Bool.false_or,
      decide_eq_true_eq] at hw
    simp only [step, Option.some.injEq] at hr
    rw [← hr, created_fst]
    exact (registry_invariant_npc_add _ g (by simp) hw hinv).1
  | add_giver misn =>
    simp only [below_wrap, Op.isCreation, Bool.not_true, Bool.false_or,
      decide_eq_true_eq] at hw
    simp only [step, Option.some.injEq] at hr
    rw [← hr, created_fst]
    exact (registry_invariant_npc_add_giver h misn g hw hinv).1
  | rm_event id evt =>
    simp only [step, Option.some.injEq] at hr
    rw [← hr]
    exact registry_invariant_of_sublist g _ (npc_rm_event_sublist id evt g)
      (by rw [npc_rm_event_idgen]) hinv
  | rm_mission id mid =>
    simp only [step, Option.some.injEq] at hr
    rw [← hr]
    exact registry_invariant_of_sublist g _ (npc_rm_mission_sublist id mid g)
      (by rw [npc_rm_mission_idgen]) hinv
  | rm_parentEvent id =>
    simp only [step, npc_rm_parentEvent, npc_rm_parent_spec, bar_regen, Option.map_some',
      Option.some.injEq] at hr
    rw [← hr]
    refine registry_invariant_of_sublist g _ ?_ (Nat.le_refl _) hinv
    cases hg : g.npc_array with
    | none => simp [array_elems]
    | some arr => simp [array_elems]
  | rm_parentMission mid =>
    simp only [step, npc_rm_parentMission, npc_rm_parent_spec, bar_regen, Option.map_some',
      Option.some.injEq] at hr
    rw [← hr]
    refine registry_invariant_of_sublist g _ ?_ (Nat.le_refl _) hinv
    cases hg : g.npc_array with
    | none => simp [array_elems]
    | some arr => simp [array_elems]
  | sort =>
    simp only [step, Option.some.injEq] at hr
    rw [← hr]
    exact registry_invariant_npc_sort g hinv
  | clear =>
    simp only [below_wrap] at hw
    simp only [step, npc_clear] at hr
    cases hloop : npc_clear_loop h (array_elems g.npc_missions).length 0
        { g with npc_array := none } ((array_elems g.npc_array).flatMap npc_free) with
    | none => simp [hloop] at hr
    | some r1 =>
      simp only [hloop, Option.map_some', Option.some.injEq] at hr
      rw [← hr]
      have h1 : registry_invariant { g with npc_array := none } :=
        registry_invariant_of_sublist g _ (List.nil_sublist _) (Nat.le_refl _) hinv
      have h2 := registry_invariant_clear_loop h hk _ _ _ _ r1 h1 hw hloop
      exact registry_invariant_of_eq r1.1 _ rfl rfl h2
  | set_landed b =>
    simp only [step, Option.some.injEq] at hr
    rw [← hr]
    exact registry_invariant_of_eq g _ rfl rfl hinv

theorem registry_invariant_approach (h : Collab) (hk : h.keeps_invariant) (i : Int) (g : Game)
    (o : Out Int) (ho : npc_approach h i g = some o)
    (hw : npc_approach_below_wrap h i g = true) (hinv : registry_invariant g) :
    registry_invariant o.game := by
  obtain ⟨k1, k2, k3, k4, k5, k6, _⟩ := hk
  unfold npc_approach at ho
  unfold npc_approach_below_wrap at hw
  split_ifs at ho with hb
  · simp only [Option.some.injEq] at ho
    rw [← ho]; exact hinv
  · simp only [hb, if_false] at hw
    cases hn : (array_elems g.npc_array)[i.toNat]? with
    | none => simp [hn] at ho
    | some npc =>
      simp only [hn] at ho hw
      cases hty : npc.type with
      | NPC_TYPE_GIVER =>
        simp only [hty, Option.some.injEq] at ho hw
        rw [← ho]
        unfold npc_approach_giver
        cases hm : npc_getMisn npc g with
        | none => exact hinv
        | some misn =>
          simp only [hm, Bool.and_eq_true] at hw ⊢
          have ha := k1 misn g hinv hw.1
          split_ifs with hacc hneg
          · have hw2 := hw.2
            simp only [hneg, if_true] at hw2
            exact registry_invariant_of_sublist _ _ (npc_rm_sublist _ _)
              (by rw [npc_rm_idgen]) (k2 _ _ ha hw2)
          · exact registry_invariant_of_sublist _ _ (npc_rm_sublist _ _)
              (by rw [npc_rm_idgen]) ha
          · exact ha
      | NPC_TYPE_MISSION =>
        simp only [hty] at ho hw
        cases hm : npc_getMisn npc g with
        | none =>
          simp only [hm, Option.some.injEq] at ho
          rw [← ho]; exact hinv
        | some misn =>
          simp only [hm, Bool.and_eq_true] at ho hw
          have hs := k3 misn npc.u_func g hinv hw.1
          cases hn1 : (array_elems (h.misn_runStart misn npc.u_func g).npc_array)[i.toNat]? with
          | none => simp [hn1] at ho
          | some npc1 =>
            have hw2 := hw.2
            simp only [hn1, Option.some.injEq] at ho hw2
            rw [← ho]
            exact k4 _ _ _ _ hs hw2
      | NPC_TYPE_EVENT =>
        simp only [hty, Bool.and_eq_true] at ho hw
        have hs := k5 npc.u_id npc.u_func g hinv hw.1
        cases hn1 : (array_elems (h.event_runStart npc.u_id npc.u_func g).npc_array)[i.toNat]? with
        | none => simp [hn1] at ho
        | some npc1 =>
          have hw2 := hw.2
          simp only [hn1, Option.some.injEq] at ho hw2
          rw [← ho]
          exact k6 _ _ _ _ hs hw2
      | NPC_TYPE_NULL =>
        simp only [hty, Option.some.injEq] at ho
        rw [← ho]; exact hinv

theorem registry_invariant_patchMission (h : Collab) (misn : Mission) (g : Game)
    (hw : g.npc_array_idgen + 1 < UINT_MOD) (hinv : registry_invariant g) :
    registry_invariant (npc_patchMission h misn g).game := by
  rw [npc_patchMission_eq]
  apply registry_invariant_npc_sort
  have h1 : registry_invariant
      { g with npc_missions := some (array_elems g.npc_missions ++ [misn]) } :=
    registry_invariant_of_eq g _ rfl rfl hinv
  cases hn : misn.npc with
  | none => exact h1
  | some name =>
    exact (registry_invariant_npc_add_giver h misn
      { g with npc_missions := some (array_elems g.npc_missions ++ [misn]) } hw h1).1

theorem registry_invariant_generateMissions_loop (h : Collab) (ms : List Mission) :
    ∀ (g : Game) (tr : List Call), registry_invariant g →
      g.npc_array_idgen + ms.length < UINT_MOD →
      registry_invariant (npc_generateMissions_loop h ms g tr).1 := by
  induction ms with
  | nil =>
    intro g tr hinv _
    exact hinv
  | cons m rest ih =>
    intro g tr hinv hw
    simp only [List.length_cons] at hw
    have h1 : registry_invariant
        { g with npc_missions := some (array_elems g.npc_missions ++ [m]) } :=
      registry_invariant_of_eq g _ rfl rfl hinv
    cases hn : m.npc with
    | none =>
      simp only [npc_generateMissions_loop, hn]
      exact ih _ _ h1 (by simp only; omega)
    | some name =>
      simp only [npc_generateMissions_loop, hn]
      obtain ⟨a, _, c⟩ := registry_invariant_npc_add_giver h m
        { g with npc_missions := some (array_elems g.npc_missions ++ [m]) }
        (by simp only; omega) h1
      exact ih _ _ a (by simp only at c; omega)

theorem registry_invariant_generateMissions (h : Collab) (hk : h.keeps_invariant) (g : Game)
    (hs : not_wound_back (with_pending_array g) (h.missions_genList (with_pending_array g)).2 =
      true)
    (hw : (h.missions_genList (with_pending_array g)).2.npc_array_idgen +
      (h.missions_genList (with_pending_array g)).1.length < UINT_MOD)
    (hinv : registry_invariant g) :
    registry_invariant (npc_generateMissions h g).game := by
  rw [npc_generateMissions_game]
  apply registry_invariant_npc_sort
  apply registry_invariant_generateMissions_loop h _ _ _ _ hw
  refine hk.2.2.2.2.2.2 _ ?_ hs
  unfold with_pending_array
  cases hp : g.npc_missions with
  | none => exact registry_invariant_of_eq g _ rfl rfl hinv
  | some l => exact hinv

theorem registry_invariant_perform (h : Collab) (hk : h.keeps_invariant) (a : Action)
    (g g1 : Game) (hp : perform h a g = some g1) (hw : below_wrap h a g = true)
    (hinv : registry_invariant g) : registry_invariant g1 := by
  cases a with
  | op o =>
    simp only [perform] at hp
    cases hs : step h o g with
    | none => simp [hs] at hp
    | some r =>
      simp only [hs, Option.map_some', Option.some.injEq] at hp
      rw [← hp]
      exact registry_invariant_step h hk o g r hs hw hinv
  | patchMission misn =>
    simp only [perform, Option.some.injEq] at hp
    simp only [below_wrap, decide_eq_true_eq] at hw
    rw [← hp]
    exact registry_invariant_patchMission h misn g hw hinv
  | generateMissions =>
    simp only [perform, Option.some.injEq] at hp
    simp only [below_wrap, Bool.and_eq_true, decide_eq_true_eq] at hw
    rw [← hp]
    exact registry_invariant_generateMissions h hk g hw.1 hw.2 hinv
  | approach i =>
    simp only [perform] at hp
    cases ho : npc_approach h i g with
    | none => simp [ho] at hp
    | some o =>
      simp only [ho, Option.map_some', Option.some.injEq] at hp
      rw [← hp]
      exact registry_invariant_approach h hk i g o ho hw hinv

theorem registry_invariant_perform_all (h : Collab) (hk : h.keeps_invariant)
    (acts : List Action) :
    ∀ (g g1 : Game), perform_all h acts g = some g1 → below_wrap_all h acts g = true →
      registry_invariant g → registry_invariant g1 := by
  induction acts with
  | nil =>
    intro g g1 hp _ hinv
    simp only [perform_all, Option.some.injEq] at hp
    rw [← hp]; exact hinv
  | cons a rest ih =>
    intro g g1 hp hw hinv
    simp only [perform_all] at hp
    simp only [below_wrap_all, Bool.and_eq_true] at hw
    cases hs : perform h a g with
    | none => simp [hs] at hp
    | some g2 =>
      simp only [hs] at hp hw
      exact ih g2 g1 hp hw.2 (registry_invariant_perform h hk a g g2 hs hw.1 hinv)

theorem filter_id_length_le_one (l : List NPC_t) (id : Nat)
    (hnd : (l.map NPC_t.id).Nodup) :
    (l.filter (fun npc => decide (npc.id = id))).length ≤ 1 := by
  induction l with
  | nil => simp
  | cons x xs ih =>
    rw [List.map_cons, List.nodup_cons] at hnd
    by_cases hx : x.id = id
    · have hno : ∀ m ∈ xs, ¬ m.id = id := by
        intro m hm heq
        exact hnd.1 (by rw [hx, ← heq]; exact List.mem_map_of_mem NPC_t.id hm)
      have hnil : xs.filter (fun npc => decide (npc.id = id)) = [] := by
        rw [List.filter_eq_nil_iff]
        intro m hm
        simpa using hno m hm
      simp [List.filter_cons, hx, hnil]
    · simpa [List.filter_cons, hx] using ih hnd.2

theorem registry_invariant_init : registry_invariant Game.init := by
  unfold registry_invariant
  simp [Game.init, array_elems]


theorem perform_all_ops (h : Collab) (ops : List Op) :
    ∀ g : Game, perform_all h (ops.map Action.op) g = (run h ops g).map Prod.fst := by
  induction ops with
  | nil => intro g; rfl
  | cons op rest ih =>
    intro g
    simp only [List.map_cons, perform_all, perform, run]
    cases hs : step h op g with
    | none => rfl
    | some r =>
      simp only [Option.map_some', ih r.1]
      cases run h rest r.1 <;> rfl

theorem wrap_ops_run :
    ∃ g1 : Game, g1.landed = true ∧ array_elems g1.npc_array = [] ∧
      g1.npc_array_idgen = 4294967295 ∧
      run Collab.quiet wrap_ops Game.init =
        some ((npc_add_event 3 [102] [66] 5 (some 1) [100] none
          (npc_add_event 3 [102] [65] 5 (some 1) [100] none g1).game).game,
          List.range' 1 4294967295 ++ [0, 1]) := by
  have h0 : Game.init.npc_array_idgen = 0 := rfl
  have hrep := repeat_wrap_cycle_run Collab.quiet 4294967295 Game.init rfl rfl
    (by rw [h0, Nat.zero_add]; decide)
  rw [h0, Nat.zero_add, Nat.zero_add] at hrep
  obtain ⟨g1, hrun, hl, he, hgen⟩ := hrep
  have h1 := step_add_event_landed Collab.quiet g1 hl 3 [102] [65] 5 (some 1) [100] none
  have hl1 : (npc_add_event 3 [102] [65] 5 (some 1) [100] none g1).game.landed = true := by
    rw [npc_add_event, npc_add_landed _ g1 hl]; exact hl
  have hg1 : (npc_add_event 3 [102] [65] 5 (some 1) [100] none g1).game.npc_array_idgen = 0 := by
    rw [npc_add_event, npc_add_landed _ g1 hl, hgen]; rfl
  have h2 := step_add_event_landed Collab.quiet
    (npc_add_event 3 [102] [65] 5 (some 1) [100] none g1).game hl1 3 [102] [66] 5 (some 1) [100] none
  rw [hg1] at h2
  rw [hgen] at h1
  have htail : run Collab.quiet
      [Op.add_event 3 [102] [65] 5 (some 1) [100] none,
       Op.add_event 3 [102] [66] 5 (some 1) [100] none] g1 =
      some ((npc_add_event 3 [102] [66] 5 (some 1) [100] none
        (npc_add_event 3 [102] [65] 5 (some 1) [100] none g1).game).game, [0, 1]) := by
    simp only [run, h1, h2]
    rfl
  exact ⟨g1, hl, he, hgen,
    run_append Collab.quiet (repeat_ops wrap_cycle 4294967295) _ Game.init _ _ hrun htail⟩

/-- C20, counterexample: the session `wrap_ops`, which consists of calls of
`npc_add_event` and `npc_rm_parentEvent` only, takes the initial game to a
game whose registry holds an NPC with the identity `0`: the registry
invariant does not hold in that reachable state. -/
theorem registry_invariant_fails_after_wrap :
    ∃ g, perform_all Collab.quiet (wrap_ops.map Action.op) Game.init = some g ∧
      (∃ npc ∈ array_elems g.npc_array, npc.id = 0) ∧ ¬ registry_invariant g := by
  obtain ⟨g1, hl, he, hgen, hrun⟩ := wrap_ops_run
  have hl1 : (npc_add_event 3 [102] [65] 5 (some 1) [100] none g1).game.landed = true := by
    rw [npc_add_event, npc_add_landed _ g1 hl]; exact hl
  have hmem : ∃ npc ∈ array_elems (npc_add_event 3 [102] [66] 5 (some 1) [100] none
      (npc_add_event 3 [102] [65] 5 (some 1) [100] none g1).game).game.npc_array,
      npc.id = 0 := by
    refine ⟨NPC_t.mk 0 NPCtype.NPC_TYPE_EVENT 5 [65] (some 1) none [100] 3 [102], ?_, rfl⟩
    have e1 : array_elems (npc_add_event 3 [102] [65] 5 (some 1) [100] none g1).game.npc_array =
        [NPC_t.mk 0 NPCtype.NPC_TYPE_EVENT 5 [65] (some 1) none [100] 3 [102]] := by
      rw [npc_add_event, npc_add_landed _ g1 hl, hgen, he]
      rfl
    rw [npc_add_event, npc_add_landed _ _ hl1, e1]
    show _ ∈ [_] ++ [_]
    simp
  refine ⟨_, by rw [perform_all_ops, hrun]; rfl, hmem, ?_⟩
  intro hinv
  obtain ⟨npc, hm, hid⟩ := hmem
  exact (hinv.2 npc hm).1 hid

/-- C20, amended: in every state reached from the initial game by a sequence
of the operations of the registry during which the identity generator stays
below `2 ^ 32`, in the creations of the operations and in the scripts they
run, with scripts that leave the invariant in place as long as the generator
does not wrap round while they run, the stored NPCs have pairwise distinct
identities, each non-zero and not above the generator, and a type other than
the null type; so at most one stored NPC has a given identity, and
`npc_arrayGet` finds at most one. -/
theorem registry_invariant_reachable (h : Collab) (hk : h.keeps_invariant)
    (acts : List Action) (g : Game)
    (hp : perform_all h acts Game.init = some g)
    (hw : below_wrap_all h acts Game.init = true) :
    registry_invariant g ∧
    ((array_elems g.npc_array).map NPC_t.id).Nodup ∧
    (∀ npc ∈ array_elems g.npc_array,
      npc.id ≠ 0 ∧ npc.id ≤ g.npc_array_idgen ∧
      (npc.type = NPCtype.NPC_TYPE_GIVER ∨ npc.type = NPCtype.NPC_TYPE_MISSION ∨
        npc.type = NPCtype.NPC_TYPE_EVENT)) ∧
    ∀ id, ((array_elems g.npc_array).filter (fun npc => decide (npc.id = id))).length ≤ 1 := by
  have hinv := registry_invariant_perform_all h hk acts Game.init g hp hw registry_invariant_init
  refine ⟨hinv, hinv.1, ?_, fun id => filter_id_length_le_one _ id hinv.1⟩
  intro npc hm
  obtain ⟨a, b, c⟩ := hinv.2 npc hm
  refine ⟨a, b, ?_⟩
  cases ht : npc.type with
  | NPC_TYPE_NULL => exact absurd ht c
  | NPC_TYPE_GIVER => exact Or.inl rfl
  | NPC_TYPE_MISSION => exact Or.inr (Or.inl rfl)
  | NPC_TYPE_EVENT => exact Or.inr (Or.inr rfl)

theorem registry_invariant_npc_add_script (npc : NPC_t) (g g0 : Game)
    (hty : npc.type ≠ NPCtype.NPC_TYPE_NULL) (hinv : registry_invariant g)
    (h0 : g0.npc_array_idgen = g.npc_array_idgen)
    (hw : not_wound_back g0 (npc_add npc g).game = true) :
    registry_invariant (npc_add npc g).game := by
  cases hl : g.landed with
  | false =>
    rw [npc_add_not_landed npc g hl]
    exact hinv
  | true =>
    apply (registry_invariant_npc_add npc g hty _ hinv).1
    rw [npc_add_landed npc g hl] at hw
    simp only [not_wound_back, decide_eq_true_eq, h0] at hw
    unfold UINT_MOD at hw ⊢
    omega

theorem Collab.session_keeps_invariant : Collab.session.keeps_invariant := by
  refine ⟨?_, fun _ _ hg _ => hg, fun _ _ _ hg _ => hg, ?_, fun _ _ _ hg _ => hg, ?_,
    fun _ hg _ => hg⟩
  · intro r g hg hw
    exact registry_invariant_npc_add_script _ g g (by simp) hg rfl hw
  · intro r f a g hg _
    exact registry_invariant_of_sublist g (npc_rm_mission a 8 g).game
      (npc_rm_mission_sublist a 8 g) (by rw [npc_rm_mission_idgen]) hg
  · intro e f a g hg hw
    have h1 : registry_invariant (npc_rm_event a e g).game :=
      registry_invariant_of_sublist g (npc_rm_event a e g).game
        (npc_rm_event_sublist a e g) (by rw [npc_rm_event_idgen]) hg
    exact registry_invariant_npc_add_script _ (npc_rm_event a e g).game g (by simp) h1
      (npc_rm_event_idgen a e g).symm hw

theorem registry_invariant_reachable_witness :
    Collab.session.keeps_invariant ∧
    below_wrap_all Collab.session example_actions Game.init = true ∧
    (∃ g, perform_all Collab.session (example_actions.take 6) Game.init = some g ∧
      registry_invariant g ∧ (array_elems g.npc_array).map NPC_t.id = [1, 3, 4, 6, 7] ∧
      g.npc_array_idgen = 7) ∧
    ∃ g, perform_all Collab.session example_actions Game.init = some g ∧
      registry_invariant g ∧ (array_elems g.npc_array).map NPC_t.id = [9] ∧
      g.npc_array_idgen = 9 := by
  refine ⟨Collab.session_keeps_invariant, by decide, ?_, ?_⟩
  · have hs : (perform_all Collab.session (example_actions.take 6) Game.init).isSome = true := by
      decide
    obtain ⟨g, hg⟩ := Option.isSome_iff_exists.mp hs
    have hval : (perform_all Collab.session (example_actions.take 6) Game.init).map
        (fun g => ((array_elems g.npc_array).map NPC_t.id, g.npc_array_idgen)) =
        some ([1, 3, 4, 6, 7], 7) := by decide
    rw [hg] at hval
    simp only [Option.map_some', Option.some.injEq, Prod.mk.injEq] at hval
    exact ⟨g, hg,
      (registry_invariant_reachable Collab.session Collab.session_keeps_invariant
        (example_actions.take 6) g hg (by decide)).1, hval.1, hval.2⟩
  · have hs : (perform_all Collab.session example_actions Game.init).isSome = true := by decide
    obtain ⟨g, hg⟩ := Option.isSome_iff_exists.mp hs
    have hval : (perform_all Collab.session example_actions Game.init).map
        (fun g => ((array_elems g.npc_array).map NPC_t.id, g.npc_array_idgen)) =
        some ([9], 9) := by decide
    rw [hg] at hval
    simp only [Option.map_some', Option.some.injEq, Prod.mk.injEq] at hval
    exact ⟨g, hg,
      (registry_invariant_reachable Collab.session Collab.session_keeps_invariant
        example_actions g hg (by decide)).1, hval.1, hval.2⟩

end Npc
